import Mathlib

/-!
# Reaktoro: cubic equations of state

A shallow embedding of `Reaktoro/Thermodynamics/EOS/CubicEOS.cpp`, followed by the row
views of `Reaktor/Common/ThermoVector.hpp`, the class `TridiagonalMatrix` of
`Reaktoro/Transport/TransportSolver.hpp` and the list constructors of
`Reaktoro/Math/EigenMatrixPlugin.hpp`.

Conventions of the embedding.

* A C++ `double` is an element of a linear ordered field `K`; arithmetic is exact and
  division is the division of `K`.  Rounding is not modelled.
* `ThermoScalar`, `ChemicalScalar`, `ThermoVector`, `ChemicalVector` are declared in headers
  that are not part of the sources at hand; their arithmetic follows the calculus rules
  written in the specification (sections 4.1 and 4.2).
* The gas constant, the library functions `sqrt` and `log`, and the root finder `newton`
  are external to `CubicEOS.cpp`; they are the fields of `Externals`.
* The species count of an instance never changes after construction, so it is the index
  `n` of the types; vectors over the species are functions on `Fin n`.
* Every `for` loop of the source is a `forLoop`, a left fold over the indices in order.
-/

namespace Reaktoro

/-! ## Scalars with temperature and pressure derivatives -/

/-- Modelled from the spec: the type `ThermoScalar` (its header is not among the sources),
a value together with its partial temperature and pressure derivatives. -/
structure ThermoScalar (K : Type) where
  val : K
  ddt : K
  ddp : K
deriving DecidableEq, Repr

namespace ThermoScalar

variable {K : Type} [Field K]

/-- Modelled from the spec: conversion of a `double` to a `ThermoScalar`, with zero
derivatives (what `ThermoScalar val = 1.0` does). -/
def const (c : K) : ThermoScalar K := ⟨c, 0, 0⟩

/-- Modelled from the spec: `operator+` of `ThermoScalar`, the sum rule. -/
def add (l r : ThermoScalar K) : ThermoScalar K :=
  ⟨l.val + r.val, l.ddt + r.ddt, l.ddp + r.ddp⟩

/-- Modelled from the spec: `operator-` of `ThermoScalar`, the difference rule. -/
def sub (l r : ThermoScalar K) : ThermoScalar K :=
  ⟨l.val - r.val, l.ddt - r.ddt, l.ddp - r.ddp⟩

/-- Modelled from the spec: unary minus of `ThermoScalar`. -/
def neg (l : ThermoScalar K) : ThermoScalar K :=
  ⟨-l.val, -l.ddt, -l.ddp⟩

/-- Modelled from the spec: `operator*` of `ThermoScalar`, the product rule
`d(uv) = u dv + v du`. -/
def mul (l r : ThermoScalar K) : ThermoScalar K :=
  ⟨l.val * r.val, l.val * r.ddt + r.val * l.ddt, l.val * r.ddp + r.val * l.ddp⟩

/-- Modelled from the spec: `operator/` of `ThermoScalar`, the quotient rule
`d(u/v) = (du v - u dv)/v^2`. -/
def div (l r : ThermoScalar K) : ThermoScalar K :=
  ⟨l.val / r.val,
   (l.ddt * r.val - l.val * r.ddt) / (r.val * r.val),
   (l.ddp * r.val - l.val * r.ddp) / (r.val * r.val)⟩

instance : Add (ThermoScalar K) := ⟨add⟩
instance : Sub (ThermoScalar K) := ⟨sub⟩
instance : Neg (ThermoScalar K) := ⟨neg⟩
instance : Mul (ThermoScalar K) := ⟨mul⟩
instance : Div (ThermoScalar K) := ⟨div⟩

/-- Modelled from the spec: `sqrt` of a `ThermoScalar`, the rule
`d(sqrt u) = du/(2 sqrt u)`; `sq` is the square root of `double`. -/
def sqrt (sq : K → K) (u : ThermoScalar K) : ThermoScalar K :=
  ⟨sq u.val, u.ddt / (2 * sq u.val), u.ddp / (2 * sq u.val)⟩

end ThermoScalar

/-! ## Scalars with temperature, pressure and mole derivatives -/

/-- Modelled from the spec: the type `ChemicalScalar` (its header is not among the
sources), a value with its partial temperature, pressure and mole derivatives; the mole
derivatives have one entry per species. -/
structure ChemicalScalar (K : Type) (n : Nat) where
  val : K
  ddt : K
  ddp : K
  ddn : Fin n → K

namespace ChemicalScalar

variable {K : Type} [Field K] {n : Nat}

/-- Modelled from the spec: the constructor `ChemicalScalar(nspecies)`, all components
zero. -/
def zero : ChemicalScalar K n := ⟨0, 0, 0, fun _ => 0⟩

/-- Modelled from the spec: conversion of a `double` to a `ChemicalScalar`, with zero
derivatives. -/
def const (c : K) : ChemicalScalar K n := ⟨c, 0, 0, fun _ => 0⟩

/-- Modelled from the spec: conversion of a `ThermoScalar` to a `ChemicalScalar`: a
quantity that depends on temperature and pressure only is lifted with zero mole
derivatives. -/
def lift (t : ThermoScalar K) : ChemicalScalar K n := ⟨t.val, t.ddt, t.ddp, fun _ => 0⟩

/-- Modelled from the spec: `operator+` of `ChemicalScalar`. -/
def add (l r : ChemicalScalar K n) : ChemicalScalar K n :=
  ⟨l.val + r.val, l.ddt + r.ddt, l.ddp + r.ddp, fun k => l.ddn k + r.ddn k⟩

/-- Modelled from the spec: `operator-` of `ChemicalScalar`. -/
def sub (l r : ChemicalScalar K n) : ChemicalScalar K n :=
  ⟨l.val - r.val, l.ddt - r.ddt, l.ddp - r.ddp, fun k => l.ddn k - r.ddn k⟩

/-- Modelled from the spec: unary minus of `ChemicalScalar`. -/
def neg (l : ChemicalScalar K n) : ChemicalScalar K n :=
  ⟨-l.val, -l.ddt, -l.ddp, fun k => -l.ddn k⟩

/-- Modelled from the spec: `operator*` of `ChemicalScalar`, the product rule in every
direction. -/
def mul (l r : ChemicalScalar K n) : ChemicalScalar K n :=
  ⟨l.val * r.val,
   l.val * r.ddt + r.val * l.ddt,
   l.val * r.ddp + r.val * l.ddp,
   fun k => l.val * r.ddn k + r.val * l.ddn k⟩

/-- Modelled from the spec: `operator/` of `ChemicalScalar`, the quotient rule in every
direction. -/
def div (l r : ChemicalScalar K n) : ChemicalScalar K n :=
  ⟨l.val / r.val,
   (l.ddt * r.val - l.val * r.ddt) / (r.val * r.val),
   (l.ddp * r.val - l.val * r.ddp) / (r.val * r.val),
   fun k => (l.ddn k * r.val - l.val * r.ddn k) / (r.val * r.val)⟩

instance : Zero (ChemicalScalar K n) := ⟨zero⟩
instance : Add (ChemicalScalar K n) := ⟨add⟩
instance : Sub (ChemicalScalar K n) := ⟨sub⟩
instance : Neg (ChemicalScalar K n) := ⟨neg⟩
instance : Mul (ChemicalScalar K n) := ⟨mul⟩
instance : Div (ChemicalScalar K n) := ⟨div⟩

/-- Modelled from the spec: `log` of a `ChemicalScalar`, the rule `d(log u) = du/u`;
`lg` is the logarithm of `double`. -/
def log (lg : K → K) (u : ChemicalScalar K n) : ChemicalScalar K n :=
  ⟨lg u.val, u.ddt / u.val, u.ddp / u.val, fun k => u.ddn k / u.val⟩

end ChemicalScalar

/-- Modelled from the spec: `ThermoVector`, one `ThermoScalar` per species. -/
abbrev ThermoVector (K : Type) (n : Nat) := Fin n → ThermoScalar K

/-- Modelled from the spec: `ChemicalVector`, one `ChemicalScalar` per species. -/
abbrev ChemicalVector (K : Type) (n : Nat) := Fin n → ChemicalScalar K n

/-- The `for(unsigned i = 0; i < n; ++i)` loop: the body is run for `i = 0, 1, ..., n-1`
in this order on the loop state. -/
def forLoop {σ : Type} (n : Nat) (init : σ) (body : Fin n → σ → σ) : σ :=
  (List.finRange n).foldl (fun s i => body i s) init

/-! ## The model table (`namespace internal`) -/

/-- The enumeration `CubicEOS::Model`. -/
inductive Model where
  | VanDerWaals
  | RedlichKwong
  | SoaveRedlichKwong
  | PengRobinson
deriving DecidableEq, Repr

/-- The type `AlphaResult`: the tuple `(alpha, alphaT, alphaTT)`. -/
abbrev AlphaResult (K : Type) := ThermoScalar K × ThermoScalar K × ThermoScalar K

namespace internal

open ThermoScalar

variable {K : Type} [LinearOrderedField K]

/-- The lambda `alphaVDW`. -/
def alphaVDW (_Tr : ThermoScalar K) (_omega : K) : AlphaResult K :=
  let val : ThermoScalar K := const 1.0
  let ddt : ThermoScalar K := const 0.0
  let d2dt2 : ThermoScalar K := const 0.0
  (val, ddt, d2dt2)

/-- The lambda `alphaRK`; `sq` is the square root of `double`. -/
def alphaRK (sq : K → K) (Tr : ThermoScalar K) (_omega : K) : AlphaResult K :=
  let val : ThermoScalar K := const 1.0 / sqrt sq Tr
  let ddt : ThermoScalar K := const (-0.5) / Tr * val
  let d2dt2 : ThermoScalar K := const (-0.5) / Tr * (ddt - val / Tr)
  let ddt := ddt * const Tr.ddt
  let d2dt2 := d2dt2 * const (Tr.ddt * Tr.ddt)
  (val, ddt, d2dt2)

/-- The lambda `alphaSRK`. -/
def alphaSRK (sq : K → K) (Tr : ThermoScalar K) (omega : K) : AlphaResult K :=
  let m : K := 0.480 + 1.574 * omega - 0.176 * omega * omega
  let sqrtTr : ThermoScalar K := sqrt sq Tr
  let aux_val : ThermoScalar K := const 1.0 + const m * (const 1.0 - sqrtTr)
  let aux_ddt : ThermoScalar K := const (-0.5 * m) / sqrtTr
  let aux_d2dt2 : ThermoScalar K := const (0.25 * m) / (Tr * sqrtTr)
  let val : ThermoScalar K := aux_val * aux_val
  let ddt : ThermoScalar K := const 2 * aux_val * aux_ddt
  let d2dt2 : ThermoScalar K := const 2 * (aux_ddt * aux_ddt + aux_val * aux_d2dt2)
  let ddt := ddt * const Tr.ddt
  let d2dt2 := d2dt2 * const (Tr.ddt * Tr.ddt)
  (val, ddt, d2dt2)

/-- The lambda `alphaPR`. -/
def alphaPR (sq : K → K) (Tr : ThermoScalar K) (omega : K) : AlphaResult K :=
  let m : K := if omega ≤ 0.491 then
      0.374640 + 1.54226 * omega - 0.269920 * omega * omega
    else
      0.379642 + 1.48503 * omega - 0.164423 * omega * omega
        + 0.016666 * omega * omega * omega
  let sqrtTr : ThermoScalar K := sqrt sq Tr
  let aux_val : ThermoScalar K := const 1.0 + const m * (const 1.0 - sqrtTr)
  let aux_ddt : ThermoScalar K := const (-0.5 * m) / sqrtTr
  let aux_d2dt2 : ThermoScalar K := const (0.25 * m) / (Tr * sqrtTr)
  let val : ThermoScalar K := aux_val * aux_val
  let ddt : ThermoScalar K := const 2 * aux_val * aux_ddt
  let d2dt2 : ThermoScalar K := const 2 * (aux_ddt * aux_ddt + aux_val * aux_d2dt2)
  let ddt := ddt * const Tr.ddt
  let d2dt2 := d2dt2 * const (Tr.ddt * Tr.ddt)
  (val, ddt, d2dt2)

/-- The function `internal::alpha`: the alpha function of a model. -/
def alpha (sq : K → K) (type : Model) : ThermoScalar K → K → AlphaResult K :=
  match type with
  | Model.VanDerWaals => alphaVDW
  | Model.RedlichKwong => alphaRK sq
  | Model.SoaveRedlichKwong => alphaSRK sq
  | Model.PengRobinson => alphaPR sq

/-- The function `internal::sigma`. -/
def sigma (type : Model) : K :=
  match type with
  | Model.VanDerWaals => 0.0
  | Model.RedlichKwong => 1.0
  | Model.SoaveRedlichKwong => 1.0
  | Model.PengRobinson => 1.0 + 1.4142135623730951

/-- The function `internal::epsilon`. -/
def epsilon (type : Model) : K :=
  match type with
  | Model.VanDerWaals => 0.0
  | Model.RedlichKwong => 0.0
  | Model.SoaveRedlichKwong => 0.0
  | Model.PengRobinson => 1.0 - 1.4142135623730951

/-- The function `internal::Omega`. -/
def Omega (type : Model) : K :=
  match type with
  | Model.VanDerWaals => 1.0 / 8.0
  | Model.RedlichKwong => 0.08664
  | Model.SoaveRedlichKwong => 0.08664
  | Model.PengRobinson => 0.0777960739

/-- The function `internal::Psi`. -/
def Psi (type : Model) : K :=
  match type with
  | Model.VanDerWaals => 27.0 / 64.0
  | Model.RedlichKwong => 0.42748
  | Model.SoaveRedlichKwong => 0.42748
  | Model.PengRobinson => 0.457235529

end internal

/-! ## The instance state and one call of `operator()` -/

/-- The struct `InteractionParamsArgs`. -/
structure InteractionParamsArgs (K : Type) (n : Nat) where
  T : ThermoScalar K
  a : ThermoVector K n
  aT : ThermoVector K n
  aTT : ThermoVector K n
  b : ThermoVector K n

/-- Modelled from the spec: `Table2D<ThermoScalar>`, a vector of rows. -/
abbrev Table2D (K : Type) := List (List (ThermoScalar K))

/-- Modelled from the spec: the read `table[i][j]`.  A read outside the table (undefined
in C++) is not modelled: it yields the zero scalar. -/
def Table2D.at {K : Type} [Field K] (t : Table2D K) (i j : Nat) : ThermoScalar K :=
  (t.getD i []).getD j (ThermoScalar.const 0)

/-- The struct `InteractionParamsResult`: the tables `k`, `kT`, `kTT`. -/
structure InteractionParamsResult (K : Type) where
  k : Table2D K
  kT : Table2D K
  kTT : Table2D K

/-- The type `InteractionParamsFunction`. -/
abbrev InteractionParamsFunction (K : Type) (n : Nat) :=
  InteractionParamsArgs K n → InteractionParamsResult K

/-- The struct `CubicEOS::Result`. -/
structure Result (K : Type) (n : Nat) where
  molar_volume : ChemicalScalar K n
  residual_molar_gibbs_energy : ChemicalScalar K n
  residual_molar_enthalpy : ChemicalScalar K n
  residual_molar_heat_capacity_cp : ChemicalScalar K n
  residual_molar_heat_capacity_cv : ChemicalScalar K n
  partial_molar_volumes : ChemicalVector K n
  residual_partial_molar_gibbs_energies : ChemicalVector K n
  residual_partial_molar_enthalpies : ChemicalVector K n
  ln_fugacity_coefficients : ChemicalVector K n

/-- The struct `CubicEOS::Impl`; its member `nspecies` is the index `n`.  An unset
`calculate_interaction_params` (an empty `std::function`) is `none`. -/
structure Impl (K : Type) (n : Nat) where
  isvapor : Bool
  model : Model
  critical_temperatures : List K
  critical_pressures : List K
  acentric_factors : List K
  calculate_interaction_params : Option (InteractionParamsFunction K n)
  result : Result K n

/-- The member `nspecies` of `CubicEOS::Impl`. -/
def Impl.nspecies {K : Type} {n : Nat} (_ : Impl K n) : Nat := n

/-- What `CubicEOS.cpp` takes from elsewhere: `universalGasConstant` of `Constants.hpp`,
the functions `sqrt` and `log` of `double`, and `newton` of `Math/Roots.hpp`, called as
`newton(f, x0, tolerance, maxiter)` with `f` returning the pair (value, gradient). -/
structure Externals (K : Type) where
  universalGasConstant : K
  sqrt : K → K
  log : K → K
  newton : (K → K × K) → K → K → Nat → K

/-- One call `operator()(T, P, x)` on an instance: the externals, the instance state
before the call, and the three arguments. -/
structure Call (K : Type) (n : Nat) where
  ext : Externals K
  self : Impl K n
  T : ThermoScalar K
  P : ThermoScalar K
  x : ChemicalVector K n

namespace CubicEOS

open ChemicalScalar (const lift log)

variable {K : Type} [LinearOrderedField K] {n : Nat}

/-- The read `v[i]` of a `std::vector<double>`.  A read past the end (undefined in C++)
is not modelled: it yields zero. -/
def vecAt (v : List K) (i : Fin n) : K := v.getD i.val 0

/-! ### Lines 197-230: the parameters `a` and `b` of the species -/

/-- The local `R`. -/
def R (c : Call K n) : K := c.ext.universalGasConstant

/-- The local `Psi`. -/
def Psi (c : Call K n) : K := internal.Psi c.self.model

/-- The local `Omega`. -/
def Omega (c : Call K n) : K := internal.Omega c.self.model

/-- The local `epsilon`. -/
def epsilon (c : Call K n) : K := internal.epsilon c.self.model

/-- The local `sigma`. -/
def sigma (c : Call K n) : K := internal.sigma c.self.model

/-- The local `factor` of the first loop. -/
def factor (c : Call K n) (i : Fin n) : K :=
  let Tc := vecAt c.self.critical_temperatures i
  let Pc := vecAt c.self.critical_pressures i
  Psi c * R c * R c * (Tc * Tc) / Pc

/-- The local `Tr` of the first loop. -/
def Tr (c : Call K n) (i : Fin n) : ThermoScalar K :=
  c.T / ThermoScalar.const (vecAt c.self.critical_temperatures i)

/-- The tuple returned by `alpha(Tr, omega)` in the first loop. -/
def alphaAt (c : Call K n) (i : Fin n) : AlphaResult K :=
  internal.alpha c.ext.sqrt c.self.model (Tr c i) (vecAt c.self.acentric_factors i)

/-- The vector `a` after the first loop. -/
def a (c : Call K n) : ThermoVector K n :=
  forLoop n (fun _ => ThermoScalar.const 0) fun i v =>
    Function.update v i (ThermoScalar.const (factor c i) * (alphaAt c i).1)

/-- The vector `aT` after the first loop. -/
def aT (c : Call K n) : ThermoVector K n :=
  forLoop n (fun _ => ThermoScalar.const 0) fun i v =>
    Function.update v i (ThermoScalar.const (factor c i) * (alphaAt c i).2.1)

/-- The vector `aTT` after the first loop. -/
def aTT (c : Call K n) : ThermoVector K n :=
  forLoop n (fun _ => ThermoScalar.const 0) fun i v =>
    Function.update v i (ThermoScalar.const (factor c i) * (alphaAt c i).2.2)

/-- The value `Omega*R*Tci/Pci` stored in `b[i]` and in `bbar[i]`. -/
def bValue (c : Call K n) (i : Fin n) : K :=
  let Tci := vecAt c.self.critical_temperatures i
  let Pci := vecAt c.self.critical_pressures i
  Omega c * R c * Tci / Pci

/-- The vector `b` after the second loop. -/
def b (c : Call K n) : ThermoVector K n :=
  forLoop n (fun _ => ThermoScalar.const 0) fun i v =>
    Function.update v i (ThermoScalar.const (bValue c i))

/-! ### Lines 232-275: the mixing rule for `a` -/

/-- The local `kargs`. -/
def kargs (c : Call K n) : InteractionParamsArgs K n :=
  ⟨c.T, a c, aT c, aTT c, b c⟩

/-- The local `kres`: default constructed (three empty tables), then assigned when an
interaction function is set. -/
def kres (c : Call K n) : InteractionParamsResult K :=
  match c.self.calculate_interaction_params with
  | some calculate => calculate (kargs c)
  | none => ⟨[], [], []⟩

/-- The local `r` of the nested loop. -/
def r (c : Call K n) (i j : Fin n) : ThermoScalar K :=
  if (kres c).k.isEmpty then ThermoScalar.const 1.0
  else ThermoScalar.const 1.0 - (kres c).k.at i.val j.val

/-- The local `rT` of the nested loop. -/
def rT (c : Call K n) (i j : Fin n) : ThermoScalar K :=
  if (kres c).kT.isEmpty then ThermoScalar.const 0.0
  else -(kres c).kT.at i.val j.val

/-- The local `rTT` of the nested loop. -/
def rTT (c : Call K n) (i j : Fin n) : ThermoScalar K :=
  if (kres c).kTT.isEmpty then ThermoScalar.const 0.0
  else -(kres c).kTT.at i.val j.val

/-- The local `s` of the nested loop. -/
def s (c : Call K n) (i j : Fin n) : ThermoScalar K :=
  ThermoScalar.sqrt c.ext.sqrt (a c i * a c j)

/-- The local `sT` of the nested loop. -/
def sT (c : Call K n) (i j : Fin n) : ThermoScalar K :=
  ThermoScalar.const 0.5 * s c i j / (a c i * a c j) * (aT c i * a c j + a c i * aT c j)

/-- The local `sTT` of the nested loop. -/
def sTT (c : Call K n) (i j : Fin n) : ThermoScalar K :=
  ThermoScalar.const 0.5 * s c i j / (a c i * a c j)
      * (aTT c i * a c j + ThermoScalar.const 2 * aT c i * aT c j + a c i * aTT c j)
    - sT c i j * sT c i j / s c i j

/-- The local `aij` of the nested loop. -/
def aij (c : Call K n) (i j : Fin n) : ThermoScalar K :=
  r c i j * s c i j

/-- The local `aijT` of the nested loop. -/
def aijT (c : Call K n) (i j : Fin n) : ThermoScalar K :=
  rT c i j * s c i j + r c i j * sT c i j

/-- The local `aijTT` of the nested loop. -/
def aijTT (c : Call K n) (i j : Fin n) : ThermoScalar K :=
  rTT c i j * s c i j + ThermoScalar.const 2 * rT c i j * sT c i j + r c i j * sTT c i j

/-- The variables that the nested loop of lines 245-268 writes. -/
structure MixState (K : Type) (n : Nat) where
  amix : ChemicalScalar K n
  amixT : ChemicalScalar K n
  amixTT : ChemicalScalar K n
  abar : ChemicalVector K n
  abarT : ChemicalVector K n

/-- The body of the inner loop of lines 261-266. -/
def mixBody (c : Call K n) (i j : Fin n) (m : MixState K n) : MixState K n :=
  { amix := m.amix + c.x i * c.x j * lift (aij c i j)
    amixT := m.amixT + c.x i * c.x j * lift (aijT c i j)
    amixTT := m.amixTT + c.x i * c.x j * lift (aijTT c i j)
    abar := Function.update m.abar i (m.abar i + const 2 * c.x j * lift (aij c i j))
    abarT := Function.update m.abarT i (m.abarT i + const 2 * c.x j * lift (aijT c i j)) }

/-- The state after the nested loop of lines 245-268, started from the zero-initialised
`amix`, `amixT`, `amixTT`, `abar`, `abarT`. -/
def mixLoop (c : Call K n) : MixState K n :=
  forLoop n ⟨0, 0, 0, fun _ => 0, fun _ => 0⟩ fun i m =>
    forLoop n m fun j m => mixBody c i j m

/-- The scalar `amix`. -/
def amix (c : Call K n) : ChemicalScalar K n := (mixLoop c).amix

/-- The scalar `amixT`. -/
def amixT (c : Call K n) : ChemicalScalar K n := (mixLoop c).amixT

/-- The scalar `amixTT`. -/
def amixTT (c : Call K n) : ChemicalScalar K n := (mixLoop c).amixTT

/-- The vector `abar` after the loop of lines 271-275. -/
def abar (c : Call K n) : ChemicalVector K n :=
  forLoop n (mixLoop c).abar fun i v => Function.update v i (v i - amix c)

/-- The vector `abarT` after the loop of lines 271-275. -/
def abarT (c : Call K n) : ChemicalVector K n :=
  forLoop n (mixLoop c).abarT fun i v => Function.update v i (v i - amixT c)

/-! ### Lines 277-307: `bmix`, `beta`, `q` and the coefficients of the cubic -/

/-- The variables that the loop of lines 280-286 writes. -/
structure BmixState (K : Type) (n : Nat) where
  bmix : ChemicalScalar K n
  bbar : ThermoVector K n

/-- The state after the loop of lines 280-286. -/
def bmixLoop (c : Call K n) : BmixState K n :=
  forLoop n ⟨0, fun _ => ThermoScalar.const 0⟩ fun i m =>
    let bbar := Function.update m.bbar i (ThermoScalar.const (bValue c i))
    { bbar := bbar
      bmix := m.bmix + c.x i * lift (bbar i) }

/-- The scalar `bmix`. -/
def bmix (c : Call K n) : ChemicalScalar K n := (bmixLoop c).bmix

/-- The vector `bbar`. -/
def bbar (c : Call K n) : ThermoVector K n := (bmixLoop c).bbar

/-- The constant `bmixT`. -/
def bmixT : K := 0.0

/-- The scalar `beta`. -/
def beta (c : Call K n) : ChemicalScalar K n :=
  lift c.P * bmix c / lift (ThermoScalar.const (R c) * c.T)

/-- The scalar `betaT`. -/
def betaT (c : Call K n) : ChemicalScalar K n :=
  beta c * (const bmixT / bmix c - lift (ThermoScalar.const 1.0 / c.T))

/-- The scalar `q`. -/
def q (c : Call K n) : ChemicalScalar K n :=
  amix c / (bmix c * const (R c) * lift c.T)

/-- The scalar `qT`. -/
def qT (c : Call K n) : ChemicalScalar K n :=
  q c * (amixT c / amix c - lift (ThermoScalar.const 1.0 / c.T))

/-- The scalar `qTT`. -/
def qTT (c : Call K n) : ChemicalScalar K n :=
  qT c * qT c / q c
    + q c * (lift (ThermoScalar.const 1 / (c.T * c.T)) + amixTT c / amix c
        - amixT c * amixT c / (amix c * amix c))

/-- The coefficient `A`. -/
def A (c : Call K n) : ChemicalScalar K n :=
  const (epsilon c + sigma c - 1) * beta c - const 1

/-- The coefficient `B`. -/
def B (c : Call K n) : ChemicalScalar K n :=
  const (epsilon c * sigma c - epsilon c - sigma c) * beta c * beta c
    - (const (epsilon c + sigma c) - q c) * beta c

/-- The coefficient `C`. -/
def C (c : Call K n) : ChemicalScalar K n :=
  const (-epsilon c * sigma c) * beta c * beta c * beta c
    - (const (epsilon c * sigma c) + q c) * beta c * beta c

/-- The scalar `AT`. -/
def AT (c : Call K n) : ChemicalScalar K n :=
  const (epsilon c + sigma c - 1) * betaT c

/-- The scalar `BT`. -/
def BT (c : Call K n) : ChemicalScalar K n :=
  const (2 * (epsilon c * sigma c - epsilon c - sigma c)) * beta c * betaT c
    + qT c * beta c - (const (epsilon c + sigma c) - q c) * betaT c

/-- The scalar `CT`. -/
def CT (c : Call K n) : ChemicalScalar K n :=
  const (-3 * epsilon c * sigma c) * beta c * beta c * betaT c
    - qT c * beta c * beta c
    - const 2 * (const (epsilon c * sigma c) + q c) * beta c * betaT c

/-! ### Lines 309-345: the root `Z`, its derivatives, and the factor `I` -/

/-- The lambda `f`: the cubic and its gradient, from the values of `A`, `B`, `C`. -/
def f (c : Call K n) (Z : K) : K × K :=
  let val := Z * Z * Z + (A c).val * Z * Z + (B c).val * Z + (C c).val
  let grad := 3 * Z * Z + 2 * (A c).val * Z + (B c).val
  (val, grad)

/-- The constant `tolerance`, one millionth. -/
def tolerance : K := 0.000001

/-- The constant `maxiter`. -/
def maxiter : Nat := 10

/-- The local `Z0`. -/
def Z0 (c : Call K n) : K := if c.self.isvapor then 1.0 else (beta c).val

/-- The value `Z.val` assigned on line 326. -/
def Zval (c : Call K n) : K := c.ext.newton (f c) (Z0 c) tolerance maxiter

/-- The local `factor` of line 329. -/
def Zfactor (c : Call K n) : K :=
  -1.0 / (3 * Zval c * Zval c + 2 * (A c).val * Zval c + (B c).val)

/-- The scalar `Z` after lines 325-333: zero-initialised, then `val`, `ddt`, `ddp`
assigned, then the entries of `ddn` assigned in a loop. -/
def Z (c : Call K n) : ChemicalScalar K n :=
  let Z : ChemicalScalar K n := 0
  let Z := { Z with val := Zval c }
  let Z := { Z with
    ddt := Zfactor c * ((A c).ddt * Z.val * Z.val + (B c).ddt * Z.val + (C c).ddt) }
  let Z := { Z with
    ddp := Zfactor c * ((A c).ddp * Z.val * Z.val + (B c).ddp * Z.val + (C c).ddp) }
  forLoop n Z fun i Z =>
    let dZdn := Zfactor c * ((A c).ddn i * Z.val * Z.val + (B c).ddn i * Z.val + (C c).ddn i)
    { Z with ddn := Function.update Z.ddn i dZdn }

/-- The scalar `ZT`. -/
def ZT (c : Call K n) : ChemicalScalar K n :=
  -(AT c * Z c * Z c + BT c * Z c + CT c)
    / (const 3 * Z c * Z c + const 2 * A c * Z c + B c)

/-- The scalar `I`. -/
def I (c : Call K n) : ChemicalScalar K n :=
  if epsilon c ≠ sigma c then
    log c.ext.log ((Z c + const (sigma c) * beta c) / (Z c + const (epsilon c) * beta c))
      / const (sigma c - epsilon c)
  else
    beta c / (Z c + const (epsilon c) * beta c)

/-- The scalar `IT`. -/
def IT (c : Call K n) : ChemicalScalar K n :=
  if epsilon c ≠ sigma c then
    ((ZT c + const (sigma c) * betaT c) / (Z c + const (sigma c) * beta c)
        - (ZT c + const (epsilon c) * betaT c) / (Z c + const (epsilon c) * beta c))
      / const (sigma c - epsilon c)
  else
    I c * (betaT c / beta c
      - (ZT c + const (epsilon c) * betaT c) / (Z c + const (epsilon c) * beta c))

/-! ### Lines 347-366: the molar properties -/

/-- The value assigned to `V`. -/
def V (c : Call K n) : ChemicalScalar K n :=
  Z c * const (R c) * lift c.T / lift c.P

/-- The value assigned to `G_res`. -/
def G_res (c : Call K n) : ChemicalScalar K n :=
  lift (ThermoScalar.const (R c) * c.T)
    * (Z c - const 1 - log c.ext.log (Z c - beta c) - q c * I c)

/-- The value assigned to `H_res`. -/
def H_res (c : Call K n) : ChemicalScalar K n :=
  lift (ThermoScalar.const (R c) * c.T) * (Z c - const 1 + lift c.T * qT c * I c)

/-- The value assigned to `Cp_res`. -/
def Cp_res (c : Call K n) : ChemicalScalar K n :=
  lift (ThermoScalar.const (R c) * c.T)
      * (ZT c + qT c * I c + lift c.T * qTT c + lift c.T * qT c * IT c)
    + H_res c / lift c.T

/-- The scalar `dPdT`. -/
def dPdT (c : Call K n) : ChemicalScalar K n :=
  lift c.P * (lift (ThermoScalar.const 1 / c.T) + ZT c / Z c)

/-- The scalar `dVdT`. -/
def dVdT (c : Call K n) : ChemicalScalar K n :=
  V c * (lift (ThermoScalar.const 1 / c.T) + ZT c / Z c)

/-- The value assigned to `Cv_res`. -/
def Cv_res (c : Call K n) : ChemicalScalar K n :=
  Cp_res c - lift c.T * dPdT c * dVdT c + const (R c)

/-! ### Lines 368-388: the properties of the species -/

/-- The local `bi`. -/
def bi (c : Call K n) (i : Fin n) : ThermoScalar K := bbar c i

/-- The local `betai`. -/
def betai (c : Call K n) (i : Fin n) : ThermoScalar K :=
  c.P * bi c i / (ThermoScalar.const (R c) * c.T)

/-- The local `ai`. -/
def ai (c : Call K n) (i : Fin n) : ChemicalScalar K n := abar c i

/-- The local `aiT`. -/
def aiT (c : Call K n) (i : Fin n) : ChemicalScalar K n := abarT c i

/-- The local `qi`. -/
def qi (c : Call K n) (i : Fin n) : ChemicalScalar K n :=
  q c * (const 1 + ai c i / amix c - lift (bi c i) / bmix c)

/-- The local `qiT`. -/
def qiT (c : Call K n) (i : Fin n) : ChemicalScalar K n :=
  qi c i * qT c / q c + q c * (aiT c i - ai c i * amixT c / amix c) / amix c

/-- The local `Ai`. -/
def Ai (c : Call K n) (i : Fin n) : ThermoScalar K :=
  ThermoScalar.const (epsilon c + sigma c - 1) * betai c i - ThermoScalar.const 1

/-- The local `Bi`. -/
def Bi (c : Call K n) (i : Fin n) : ChemicalScalar K n :=
  const (epsilon c * sigma c - epsilon c - sigma c)
      * (const 2 * beta c * lift (betai c i) - beta c * beta c)
    - (const (epsilon c + sigma c) - q c) * (lift (betai c i) - beta c)
    - (const (epsilon c + sigma c) - qi c i) * beta c

/-- The local `Ci`. -/
def Ci (c : Call K n) (i : Fin n) : ChemicalScalar K n :=
  const (-3 * sigma c * epsilon c) * beta c * beta c * lift (betai c i)
    + const (2 * epsilon c * sigma c) * beta c * beta c * beta c
    - (const (epsilon c * sigma c) + qi c i) * beta c * beta c
    - const 2 * (const (epsilon c * sigma c) + q c)
        * (beta c * lift (betai c i) - beta c * beta c)

/-- The local `Zi`. -/
def Zi (c : Call K n) (i : Fin n) : ChemicalScalar K n :=
  -(lift (Ai c i) * Z c * Z c + (Bi c i + B c) * Z c + Ci c i + const 2 * C c)
    / (const 3 * Z c * Z c + const 2 * A c * Z c + B c)

/-- The local `Ii`. -/
def Ii (c : Call K n) (i : Fin n) : ChemicalScalar K n :=
  if epsilon c ≠ sigma c then
    I c + ((Zi c i + lift (ThermoScalar.const (sigma c) * betai c i))
              / (Z c + const (sigma c) * beta c)
            - (Zi c i + lift (ThermoScalar.const (epsilon c) * betai c i))
              / (Z c + const (epsilon c) * beta c))
          / const (sigma c - epsilon c)
  else
    I c * (const 1 + lift (betai c i) / beta c
      - (Zi c i + lift (ThermoScalar.const (epsilon c) * betai c i))
          / (Z c + const (epsilon c) * beta c))

/-- The value assigned to `Vi[i]`. -/
def Vi (c : Call K n) (i : Fin n) : ChemicalScalar K n :=
  lift (ThermoScalar.const (R c) * c.T) * Zi c i / lift c.P

/-- The value assigned to `Gi_res[i]`. -/
def Gi_res (c : Call K n) (i : Fin n) : ChemicalScalar K n :=
  lift (ThermoScalar.const (R c) * c.T)
    * (Zi c i - (Zi c i - lift (betai c i)) / (Z c - beta c)
        - log c.ext.log (Z c - beta c) - qi c i * I c - q c * Ii c i + q c * I c)

/-- The value assigned to `Hi_res[i]`. -/
def Hi_res (c : Call K n) (i : Fin n) : ChemicalScalar K n :=
  lift (ThermoScalar.const (R c) * c.T)
    * (Zi c i - const 1
        + lift c.T * (qiT c i * I c + qT c * Ii c i - qT c * I c))

/-- The member `result` after the call: the five molar properties are assigned on
lines 358-366, then the loop of lines 368-388 assigns row `i` of the four vectors;
`ln_phi[i]` is computed from the row `Gi_res[i]` just stored. -/
def result (c : Call K n) : Result K n :=
  let res : Result K n :=
    { c.self.result with
      molar_volume := V c
      residual_molar_gibbs_energy := G_res c
      residual_molar_enthalpy := H_res c
      residual_molar_heat_capacity_cp := Cp_res c
      residual_molar_heat_capacity_cv := Cv_res c }
  forLoop n res fun i res =>
    let Gi := Function.update res.residual_partial_molar_gibbs_energies i (Gi_res c i)
    { res with
      partial_molar_volumes := Function.update res.partial_molar_volumes i (Vi c i)
      residual_partial_molar_gibbs_energies := Gi
      residual_partial_molar_enthalpies :=
        Function.update res.residual_partial_molar_enthalpies i (Hi_res c i)
      ln_fugacity_coefficients :=
        (Function.update res.ln_fugacity_coefficients i
          (Gi i / lift (ThermoScalar.const (R c) * c.T))) }

/-- The method `Impl::operator()`: the returned `Result`, and the instance after the
call, whose member `result` holds what was returned. -/
def call (c : Call K n) : Result K n × Impl K n :=
  (result c, { c.self with result := result c })

end CubicEOS

/-! ## Auxiliary definitions for the statements -/

namespace ChemicalScalar

variable {K : Type} [Field K] {n : Nat}

/-- Addition makes `ChemicalScalar` a commutative monoid, so that the accumulations of
the source can be compared with finite sums. -/
instance : AddCommMonoid (ChemicalScalar K n) where
  add := add
  zero := zero
  nsmul := nsmulRec
  add_assoc u v w := by
    show add (add u v) w = add u (add v w)
    simp only [add, add_assoc]
  zero_add u := by
    show add zero u = u
    simp only [add, zero, zero_add]
  add_zero u := by
    show add u zero = u
    simp only [add, zero, add_zero]
  add_comm u v := by
    show add u v = add v u
    simp only [add, mk.injEq]
    exact ⟨add_comm _ _, add_comm _ _, add_comm _ _, funext fun k => add_comm _ _⟩

end ChemicalScalar

/-- Modelled from the spec: the function `newton` of `Math/Roots.hpp` (not among the
sources), Newton-Raphson iteration `x := x - f(x)/f'(x)` from the initial guess, stopped
when the step is smaller than the tolerance or when the iteration budget is used up; the
last iterate is returned in both cases. -/
def newtonModel {K : Type} [LinearOrderedField K] (f : K → K × K) (x0 tol : K) :
    Nat → K
  | 0 => x0
  | k + 1 =>
    let x := x0 - (f x0).1 / (f x0).2
    if |x - x0| < tol then x else newtonModel f x tol k

namespace CubicEOS

open ChemicalScalar (const lift log)

variable {K : Type} [LinearOrderedField K] {n : Nat}

/-- A division `num / d` by a `double` that fails when the divisor is zero. -/
def divChecked (num : ChemicalScalar K n) (d : K) : Option (ChemicalScalar K n) :=
  if d = 0 then none else some (num / const d)

/-- The expression of line 339-341 for `I`, with its division by `sigma - epsilon`
checked. -/
def I_checked (c : Call K n) : Option (ChemicalScalar K n) :=
  if epsilon c ≠ sigma c then
    divChecked
      (log c.ext.log ((Z c + const (sigma c) * beta c) / (Z c + const (epsilon c) * beta c)))
      (sigma c - epsilon c)
  else
    some (beta c / (Z c + const (epsilon c) * beta c))

/-- The expression of line 343-345 for `IT`, with its division by `sigma - epsilon`
checked. -/
def IT_checked (c : Call K n) : Option (ChemicalScalar K n) :=
  if epsilon c ≠ sigma c then
    divChecked
      ((ZT c + const (sigma c) * betaT c) / (Z c + const (sigma c) * beta c)
        - (ZT c + const (epsilon c) * betaT c) / (Z c + const (epsilon c) * beta c))
      (sigma c - epsilon c)
  else
    some (I c * (betaT c / beta c
      - (ZT c + const (epsilon c) * betaT c) / (Z c + const (epsilon c) * beta c)))

/-- The expression of line 380-382 for `Ii`, with its division by `sigma - epsilon`
checked. -/
def Ii_checked (c : Call K n) (i : Fin n) : Option (ChemicalScalar K n) :=
  if epsilon c ≠ sigma c then
    (divChecked
      ((Zi c i + lift (ThermoScalar.const (sigma c) * betai c i))
          / (Z c + const (sigma c) * beta c)
        - (Zi c i + lift (ThermoScalar.const (epsilon c) * betai c i))
          / (Z c + const (epsilon c) * beta c))
      (sigma c - epsilon c)).map fun d => I c + d
  else
    some (I c * (const 1 + lift (betai c i) / beta c
      - (Zi c i + lift (ThermoScalar.const (epsilon c) * betai c i))
          / (Z c + const (epsilon c) * beta c)))

/-- The `Result` that the constructor `Impl(nspecies)` leaves in the member `result`:
all entries zero. -/
def initialResult : Result K n :=
  ⟨0, 0, 0, 0, 0, fun _ => 0, fun _ => 0, fun _ => 0, fun _ => 0⟩

/-- A call on a one-species van der Waals vapor instance with critical temperature
160 K, critical pressure 4 MPa and no interaction function, at 270 K and 27 MPa, with
temperature and pressure seeded as independent variables and mole amount `x0`. -/
def exampleCall (ext : Externals K) (x0 : K) : Call K 1 :=
  { ext := ext
    self :=
      { isvapor := true
        model := Model.VanDerWaals
        critical_temperatures := [160]
        critical_pressures := [4000000]
        acentric_factors := [0]
        calculate_interaction_params := none
        result := initialResult }
    T := ⟨270, 1, 0⟩
    P := ⟨27000000, 0, 1⟩
    x := fun _ => ⟨x0, 0, 0, fun _ => 1⟩ }

end CubicEOS

/-! ## Definitions for the model table, the setters and the comparison of calls -/

namespace internal

variable {K : Type} [LinearOrderedField K]

/-- The local `m` of the lambda `alphaSRK`. -/
def mSRK (omega : K) : K := 0.480 + 1.574 * omega - 0.176 * omega * omega

/-- The local `m` of the lambda `alphaPR`. -/
def mPR (omega : K) : K :=
  if omega ≤ 0.491 then
    0.374640 + 1.54226 * omega - 0.269920 * omega * omega
  else
    0.379642 + 1.48503 * omega - 0.164423 * omega * omega
      + 0.016666 * omega * omega * omega

end internal

/-- Modelled from the spec: the exception raised by the macro `Assert` of
`Common/Exception.hpp` (not among the sources): the error and its reason, the two
strings given to the macro. -/
structure Exception where
  error : String
  reason : String
deriving DecidableEq, Repr

/-- Modelled from the spec: the macro `Assert(condition, errorstr, reasonstr)` of
`Common/Exception.hpp`: it raises the exception made of the two strings when the condition
is false, and does nothing otherwise. -/
def Assert (condition : Bool) (errorstr reasonstr : String) : Except Exception Unit :=
  if condition then Except.ok () else Except.error ⟨errorstr, reasonstr⟩

/-- Modelled from the spec: the function `min` of `Common/SetUtils.hpp` (not among the
sources), the smallest entry of a vector.  On an empty vector (undefined in C++) it
yields zero. -/
def minOfVector {K : Type} [LinearOrder K] [Zero K] (values : List K) : K :=
  match values with
  | [] => 0
  | v :: vs => vs.foldl min v

/-- The text `part` occurs in the text `msg`. -/
def containsText (msg part : String) : Prop :=
  ∃ pre post : String, msg = pre ++ part ++ post

namespace CubicEOS

open ChemicalScalar (const lift log)

variable {K : Type} [LinearOrderedField K] {n : Nat}

/-- The constructor `Impl(nspecies)`: vapor phase, Peng-Robinson model, empty vectors of
critical data, no interaction function, and a zero `result`. -/
def construct : Impl K n :=
  { isvapor := true
    model := Model.PengRobinson
    critical_temperatures := []
    critical_pressures := []
    acentric_factors := []
    calculate_interaction_params := none
    result := initialResult }

/-- The method `CubicEOS::numSpecies`. -/
def numSpecies (self : Impl K n) : Nat := self.nspecies

/-- The method `CubicEOS::setCriticalTemperatures`: the outcome (an exception raised by
one of the two assertions, or normal return) and the instance afterwards. -/
def setCriticalTemperatures (self : Impl K n) (values : List K) :
    Except Exception Unit × Impl K n :=
  match Assert (values.length == numSpecies self)
      "Cannot set the critical temperatures of the species in the CubicEOS object."
      ("Expecting " ++ toString (numSpecies self) ++ " values, but only "
        ++ toString values.length ++ " were given.") with
  | Except.error e => (Except.error e, self)
  | Except.ok _ =>
    match Assert (decide (minOfVector values > 0))
        "Cannot set the critical temperatures of the species in the CubicEOS object."
        "Expecting non-zero critical temperatures of the gases." with
    | Except.error e => (Except.error e, self)
    | Except.ok _ => (Except.ok (), { self with critical_temperatures := values })

/-- The method `CubicEOS::setCriticalPressures`: the outcome and the instance
afterwards. -/
def setCriticalPressures (self : Impl K n) (values : List K) :
    Except Exception Unit × Impl K n :=
  match Assert (values.length == numSpecies self)
      "Cannot set the critical pressures of the species in the CubicEOS object."
      ("Expecting " ++ toString (numSpecies self) ++ " values, but only "
        ++ toString values.length ++ " were given.") with
  | Except.error e => (Except.error e, self)
  | Except.ok _ =>
    match Assert (decide (minOfVector values > 0))
        "Cannot set the critical pressures of the species in the CubicEOS object."
        "Expecting non-zero critical pressures of the gases." with
    | Except.error e => (Except.error e, self)
    | Except.ok _ => (Except.ok (), { self with critical_pressures := values })

/-- The method `CubicEOS::setAcentricFactors`: the outcome and the instance
afterwards. -/
def setAcentricFactors (self : Impl K n) (values : List K) :
    Except Exception Unit × Impl K n :=
  match Assert (values.length == numSpecies self)
      "Cannot set the acentric factors of the species in CubicEOS."
      ("Expecting " ++ toString (numSpecies self) ++ " values, but only "
        ++ toString values.length ++ " values were given.") with
  | Except.error e => (Except.error e, self)
  | Except.ok _ => (Except.ok (), { self with acentric_factors := values })

/-- Two calls have the same inputs: the same externals and arguments, the same model and
species data, and the same factors `r`, `rT`, `rTT` from the interaction parameters. -/
structure SameInputs (c1 c2 : Call K n) : Prop where
  ext : c1.ext = c2.ext
  T : c1.T = c2.T
  P : c1.P = c2.P
  x : c1.x = c2.x
  model : c1.self.model = c2.self.model
  critical_temperatures : c1.self.critical_temperatures = c2.self.critical_temperatures
  critical_pressures : c1.self.critical_pressures = c2.self.critical_pressures
  acentric_factors : c1.self.acentric_factors = c2.self.acentric_factors
  r : ∀ i j, r c1 i j = r c2 i j
  rT : ∀ i j, rT c1 i j = rT c2 i j
  rTT : ∀ i j, rTT c1 i j = rTT c2 i j

/-- The table of `n` rows of `n` zero scalars. -/
def zeroTable (K : Type) [Field K] (n : Nat) : Table2D K :=
  List.replicate n (List.replicate n (ThermoScalar.const 0))

/-- The interaction function that returns zero tables for `k`, `kT` and `kTT`. -/
def zeroInteraction : InteractionParamsFunction K n :=
  fun _ => ⟨zeroTable K n, zeroTable K n, zeroTable K n⟩

/-- The example instance in the given phase, called at 270 K and 54 MPa with mole amount
1; there `beta` is 1, so that both phases start the root finder at 1. -/
def phaseExampleCall (ext : Externals K) (isvapor : Bool) : Call K 1 :=
  { exampleCall ext 1 with
    self := { (exampleCall ext 1).self with isvapor := isvapor }
    P := ⟨54000000, 0, 1⟩ }

end CubicEOS

namespace Reaktor

/-- Modelled from the spec: the class `ThermoVector` of `Reaktor/Common/ThermoVector.hpp`
(only its declaration is among the sources): the values and the partial temperature and
pressure derivatives, three vectors with one entry per row. -/
structure ThermoVector (K : Type) where
  val : List K
  ddt : List K
  ddp : List K
deriving DecidableEq, Repr

/-- Modelled from the spec: the class `ThermoVectorRow`, a mutable view of row `irow` of
a `ThermoVector`: its references `val`, `ddt`, `ddp` are bound to the entries `irow` of the
three vectors of the parent, so the view is the row index into the storage of the
parent. -/
structure ThermoVectorRow where
  irow : Nat
deriving DecidableEq, Repr

/-- Modelled from the spec: the method `ThermoVector::row(irow)`, the mutable view of a
row. -/
def ThermoVector.row {K : Type} (_v : ThermoVector K) (irow : Nat) : ThermoVectorRow :=
  ⟨irow⟩

/-- Modelled from the spec: `ThermoVectorRow::operator=(const ThermoScalar&)`: the three
components of the scalar are written through the references, that is into the entries
`irow` of the three vectors of the parent. -/
def ThermoVectorRow.assign {K : Type} (row : ThermoVectorRow) (property : ThermoScalar K)
    (v : ThermoVector K) : ThermoVector K :=
  { val := v.val.set row.irow property.val
    ddt := v.ddt.set row.irow property.ddt
    ddp := v.ddp.set row.irow property.ddp }

/-- Modelled from the spec: the method `ThermoVector::row(irow) const` and the class
`ThermoVectorConstRow`: the read of a row through a const view, as a scalar.  A read past
the end (undefined in C++) is not modelled: it yields zero. -/
def ThermoVector.constRow {K : Type} [Zero K] (v : ThermoVector K) (irow : Nat) :
    ThermoScalar K :=
  ⟨v.val.getD irow 0, v.ddt.getD irow 0, v.ddp.getD irow 0⟩

end Reaktor

/-! ## The tridiagonal matrix of the transport solver -/

namespace Transport

/-- A view of a coefficient vector that does not own its entries: entry `k` of the view is
the entry `offset + stride * k` of the storage it refers to.  This is what Eigen's
`segment(start, size)` (stride 1) and `Vector::Map(data + offset, size,
InnerStride<stride>())` give. -/
structure VectorStridedRef where
  offset : Nat
  size : Nat
  stride : Nat
deriving DecidableEq, Repr

/-- The storage position of entry `k` of a view. -/
def VectorStridedRef.position (v : VectorStridedRef) (k : Nat) : Nat :=
  v.offset + v.stride * k

/-- The storage positions of the entries of a view, in order. -/
def VectorStridedRef.positions (v : VectorStridedRef) : List Nat :=
  (List.range v.size).map v.position

/-- The class `TridiagonalMatrix` of `Reaktoro/Transport/TransportSolver.hpp`: the size and
the coefficients. -/
structure TridiagonalMatrix (K : Type) where
  m_size : Nat
  m_data : List K
deriving DecidableEq, Repr

namespace TridiagonalMatrix

variable {K : Type}

/-- The constructor `TridiagonalMatrix(Index size) : m_size(size), m_data(size * 3)`.  The
coefficients of a fresh Eigen vector are unspecified; they are zero here. -/
def ofSize [Zero K] (size : Nat) : TridiagonalMatrix K :=
  ⟨size, List.replicate (size * 3) 0⟩

/-- The method `size()`. -/
def size (m : TridiagonalMatrix K) : Nat := m.m_size

/-- The method `data()`. -/
def data (m : TridiagonalMatrix K) : List K := m.m_data

/-- The method `row(index)`, `m_data.segment(3 * index, 3)`. -/
def row (_m : TridiagonalMatrix K) (index : Nat) : VectorStridedRef :=
  ⟨3 * index, 3, 1⟩

/-- The method `a()`, `Vector::Map(m_data.data() + 3, size() - 1, InnerStride<3>())`.
`Index` is a signed integer; for a size of at least 1 the subtraction is that of the
natural numbers. -/
def a (m : TridiagonalMatrix K) : VectorStridedRef :=
  ⟨3, m.size - 1, 3⟩

/-- The method `b()`, `Vector::Map(m_data.data() + 1, size(), InnerStride<3>())`. -/
def b (m : TridiagonalMatrix K) : VectorStridedRef :=
  ⟨1, m.size, 3⟩

/-- The method `c()`, `Vector::Map(m_data.data() + 2, size() - 1, InnerStride<3>())`. -/
def c (m : TridiagonalMatrix K) : VectorStridedRef :=
  ⟨2, m.size - 1, 3⟩

end TridiagonalMatrix

end Transport

/-! ## The list constructors of the matrix plugin -/

namespace EigenMatrixPlugin

/-- The dense Eigen matrix into which `Reaktoro/Math/EigenMatrixPlugin.hpp` is included,
as far as the plugin uses it: the numbers of rows and columns and the coefficients, stored
column by column (`rows * cols` of them). -/
structure Matrix (K : Type) where
  rows : Nat
  cols : Nat
  data : List K
deriving DecidableEq, Repr

namespace Matrix

variable {K : Type}

/-- The Eigen constructor `Matrix(rows, cols)`.  The coefficients of a fresh matrix are
unspecified; they are zero here. -/
def ofDims [Zero K] (rows cols : Nat) : Matrix K :=
  ⟨rows, cols, List.replicate (rows * cols) 0⟩

/-- The read of `(*this)(i, j)`: the coefficient at the position `i + j * rows` of the
column-major storage.  A read outside the storage (undefined in C++) is not modelled: it
yields zero. -/
def coeff [Zero K] (m : Matrix K) (i j : Nat) : K :=
  m.data.getD (i + j * m.rows) 0

/-- The write `(*this)(i, j) = entry`.  A write outside the storage (undefined in C++) is
not modelled: it leaves the matrix as it is. -/
def setCoeff (m : Matrix K) (i j : Nat) (entry : K) : Matrix K :=
  { m with data := m.data.set (i + j * m.rows) entry }

/-- The write `(*this).data()[i] = entry`. -/
def setData (m : Matrix K) (i : Nat) (entry : K) : Matrix K :=
  { m with data := m.data.set i entry }

/-- The constructor `Matrix(const std::initializer_list<Scalar>& list)`: a matrix of
`list.size()` rows and one column, filled by the loop with the counter `i`. -/
def ofList [Zero K] (list : List K) : Matrix K :=
  (list.foldl
    (fun (st : Matrix K × Nat) entry => (st.1.setData st.2 entry, st.2 + 1))
    (ofDims list.length 1, 0)).1

/-- The inner loop of the constructor from a nested list: the entries of one row are
written to `(i, j)`, `(i, j + 1)`, ...; the state is the matrix and the counter `j`. -/
def fillRow (i : Nat) (row : List K) (st : Matrix K × Nat) : Matrix K × Nat :=
  row.foldl (fun (st : Matrix K × Nat) entry => (st.1.setCoeff i st.2 entry, st.2 + 1)) st

/-- The outer loop of the constructor from a nested list; the state is the matrix and the
counters `i` and `j`.  After a row, `j = 0; ++i`. -/
def fillRows (list : List (List K)) (st : Matrix K × Nat × Nat) : Matrix K × Nat × Nat :=
  list.foldl
    (fun (st : Matrix K × Nat × Nat) row =>
      ((fillRow st.2.1 row (st.1, st.2.2)).1, st.2.1 + 1, 0))
    st

/-- The constructor
`Matrix(const std::initializer_list<std::initializer_list<Scalar>>& list)`: a matrix of
`list.size()` rows and `list.size() ? list.begin()->size() : 0` columns, filled by the
two nested loops. -/
def ofLists [Zero K] (list : List (List K)) : Matrix K :=
  (fillRows list
    (ofDims list.length (if list.length ≠ 0 then (list.headD []).length else 0), 0, 0)).1

end Matrix

end EigenMatrixPlugin

/-! ## Definitions for the comparison of the values of two calls -/

namespace CubicEOS

open ChemicalScalar (const lift log)

variable {K : Type} [LinearOrderedField K] {n : Nat}

/-- Two calls with the same externals and the same configuration of the instance whose
inputs `T`, `P`, `x` have the same value components; the derivative components of the
inputs are free. -/
structure SameValues (c1 c2 : Call K n) : Prop where
  ext : c1.ext = c2.ext
  model : c1.self.model = c2.self.model
  critical_temperatures : c1.self.critical_temperatures = c2.self.critical_temperatures
  critical_pressures : c1.self.critical_pressures = c2.self.critical_pressures
  acentric_factors : c1.self.acentric_factors = c2.self.acentric_factors
  T : c1.T.val = c2.T.val
  P : c1.P.val = c2.P.val
  x : ∀ i, (c1.x i).val = (c2.x i).val

/-- An example call of a Redlich-Kwong vapour of one species at its critical temperature
300 K, with mole amount 1 and no interaction function, at a pressure for which the root
finder is started at an exact root of the cubic.  The temperature seed `T.ddt` is `tddt`;
`seed` is written into `T.ddp`, `P.ddt` and the temperature derivative of `x`. -/
def rkCall (ext : Externals K) (tddt seed : K) : Call K 1 :=
  { ext := ext
    self :=
      { isvapor := true
        model := Model.RedlichKwong
        critical_temperatures := [300]
        critical_pressures := [1113583.92]
        acentric_factors := [0]
        calculate_interaction_params := none
        result := initialResult }
    T := ⟨300, tddt, seed⟩
    P := ⟨8521000, seed, 1⟩
    x := fun _ => ⟨1, seed, 0, fun _ => 1⟩ }

end CubicEOS

/-! ## The indexed accesses of the evaluation -/

namespace CubicEOS

variable {K : Type} [LinearOrderedField K] {n : Nat}

/-- The containers that `operator()` indexes: the three lists of critical data of the
instance, the local vectors, the rows of the input `x`, the tables returned by the
interaction function and their rows, the mole derivatives of `Z`, `A`, `B`, `C`, and the
four vectors of the member `result`. -/
inductive Container where
  | critical_temperatures | critical_pressures | acentric_factors
  | a | aT | aTT | b | bbar | x | abar | abarT
  | k | kRow | kT | kTRow | kTT | kTTRow
  | Z_ddn | A_ddn | B_ddn | C_ddn
  | Vi | Gi_res | Hi_res | ln_phi
deriving DecidableEq, Repr

/-- One indexed access `container[index]`, with the size of the container at the time of
the access. -/
structure Access where
  container : Container
  size : Nat
  index : Nat
deriving DecidableEq, Repr

/-- The accesses of iteration `i` of the first loop (lines 205-216).  The vectors `a`,
`aT`, `aTT` are constructed with `nspecies` rows. -/
def accessesParams (c : Call K n) (i : Nat) : List Access :=
  [⟨Container.critical_temperatures, c.self.critical_temperatures.length, i⟩,
   ⟨Container.critical_pressures, c.self.critical_pressures.length, i⟩,
   ⟨Container.acentric_factors, c.self.acentric_factors.length, i⟩,
   ⟨Container.a, c.self.nspecies, i⟩,
   ⟨Container.aT, c.self.nspecies, i⟩,
   ⟨Container.aTT, c.self.nspecies, i⟩]

/-- The accesses of iteration `i` of the second loop (lines 220-225). -/
def accessesB (c : Call K n) (i : Nat) : List Access :=
  [⟨Container.critical_temperatures, c.self.critical_temperatures.length, i⟩,
   ⟨Container.critical_pressures, c.self.critical_pressures.length, i⟩,
   ⟨Container.b, c.self.nspecies, i⟩]

/-- The accesses of `table.empty() ? ... : table[i][j]`: none when the table is empty,
else row `i` of the table and entry `j` of that row. -/
def accessesTable (table row : Container) (t : Table2D K) (i j : Nat) : List Access :=
  if t.isEmpty then []
  else [⟨table, t.length, i⟩, ⟨row, (t.getD i []).length, j⟩]

/-- The accesses of iteration `(i, j)` of the nested loop (lines 245-268); `xrows` is the
number of rows of the input `x`. -/
def accessesMix (c : Call K n) (xrows i j : Nat) : List Access :=
  accessesTable Container.k Container.kRow (kres c).k i j
    ++ accessesTable Container.kT Container.kTRow (kres c).kT i j
    ++ accessesTable Container.kTT Container.kTTRow (kres c).kTT i j
    ++ [⟨Container.a, c.self.nspecies, i⟩, ⟨Container.a, c.self.nspecies, j⟩,
        ⟨Container.aT, c.self.nspecies, i⟩, ⟨Container.aT, c.self.nspecies, j⟩,
        ⟨Container.aTT, c.self.nspecies, i⟩, ⟨Container.aTT, c.self.nspecies, j⟩,
        ⟨Container.x, xrows, i⟩, ⟨Container.x, xrows, j⟩,
        ⟨Container.abar, c.self.nspecies, i⟩, ⟨Container.abarT, c.self.nspecies, i⟩]

/-- The accesses of iteration `i` of the loop of lines 271-275. -/
def accessesFinalize (c : Call K n) (i : Nat) : List Access :=
  [⟨Container.abar, c.self.nspecies, i⟩, ⟨Container.abarT, c.self.nspecies, i⟩]

/-- The accesses of iteration `i` of the loop of lines 280-286. -/
def accessesBmix (c : Call K n) (xrows i : Nat) : List Access :=
  [⟨Container.critical_temperatures, c.self.critical_temperatures.length, i⟩,
   ⟨Container.critical_pressures, c.self.critical_pressures.length, i⟩,
   ⟨Container.bbar, c.self.nspecies, i⟩,
   ⟨Container.x, xrows, i⟩]

/-- The accesses of iteration `i` of the loop of lines 332-333.  `Z` is constructed with
`nspecies` mole derivatives, and so are the scalars `amix` and `bmix` from which `A`, `B`,
`C` are computed. -/
def accessesZ (c : Call K n) (i : Nat) : List Access :=
  [⟨Container.A_ddn, c.self.nspecies, i⟩, ⟨Container.B_ddn, c.self.nspecies, i⟩,
   ⟨Container.C_ddn, c.self.nspecies, i⟩, ⟨Container.Z_ddn, c.self.nspecies, i⟩]

/-- The accesses of iteration `i` of the loop of lines 368-388.  The four vectors of the
member `result` are given `nspecies` rows by the constructor of the instance. -/
def accessesSpecies (c : Call K n) (i : Nat) : List Access :=
  [⟨Container.bbar, c.self.nspecies, i⟩,
   ⟨Container.abar, c.self.nspecies, i⟩,
   ⟨Container.abarT, c.self.nspecies, i⟩,
   ⟨Container.Vi, c.self.nspecies, i⟩,
   ⟨Container.Gi_res, c.self.nspecies, i⟩,
   ⟨Container.Hi_res, c.self.nspecies, i⟩,
   ⟨Container.Gi_res, c.self.nspecies, i⟩,
   ⟨Container.ln_phi, c.self.nspecies, i⟩]

/-- The indexed accesses of `operator()` in program order, for an input `x` of `xrows`
rows: each loop runs its counter from 0 to `nspecies - 1`. -/
def accesses (c : Call K n) (xrows : Nat) : List Access :=
  (List.range c.self.nspecies).flatMap (accessesParams c)
    ++ (List.range c.self.nspecies).flatMap (accessesB c)
    ++ (List.range c.self.nspecies).flatMap
        (fun i => (List.range c.self.nspecies).flatMap (fun j => accessesMix c xrows i j))
    ++ (List.range c.self.nspecies).flatMap (accessesFinalize c)
    ++ (List.range c.self.nspecies).flatMap (accessesBmix c xrows)
    ++ (List.range c.self.nspecies).flatMap (accessesZ c)
    ++ (List.range c.self.nspecies).flatMap (accessesSpecies c)

/-- A table that is empty or has `m` rows of `m` entries. -/
def emptyOrSquare (t : Table2D K) (m : Nat) : Prop :=
  t = [] ∨ (t.length = m ∧ ∀ row ∈ t, row.length = m)

end CubicEOS

/-! ## Lemmas on the scalar types -/

namespace ThermoScalar

variable {K : Type} [Field K]

@[simp] theorem tval_const (c : K) : (const c).val = c := rfl
@[simp] theorem tddt_const (c : K) : (const c).ddt = 0 := rfl
@[simp] theorem tddp_const (c : K) : (const c).ddp = 0 := rfl
@[simp] theorem tval_add (l r : ThermoScalar K) : (l + r).val = l.val + r.val := rfl
@[simp] theorem tval_sub (l r : ThermoScalar K) : (l - r).val = l.val - r.val := rfl
@[simp] theorem tval_neg (l : ThermoScalar K) : (-l).val = -l.val := rfl
@[simp] theorem tval_mul (l r : ThermoScalar K) : (l * r).val = l.val * r.val := rfl
@[simp] theorem tval_div (l r : ThermoScalar K) : (l / r).val = l.val / r.val := rfl
@[simp] theorem tval_sqrt (sq : K → K) (u : ThermoScalar K) : (sqrt sq u).val = sq u.val := rfl
@[simp] theorem tddt_add (l r : ThermoScalar K) : (l + r).ddt = l.ddt + r.ddt := rfl
@[simp] theorem tddt_sub (l r : ThermoScalar K) : (l - r).ddt = l.ddt - r.ddt := rfl
@[simp] theorem tddt_neg (l : ThermoScalar K) : (-l).ddt = -l.ddt := rfl
@[simp] theorem tddt_mul (l r : ThermoScalar K) :
    (l * r).ddt = l.val * r.ddt + r.val * l.ddt := rfl
@[simp] theorem tddt_div (l r : ThermoScalar K) :
    (l / r).ddt = (l.ddt * r.val - l.val * r.ddt) / (r.val * r.val) := rfl
@[simp] theorem tddp_add (l r : ThermoScalar K) : (l + r).ddp = l.ddp + r.ddp := rfl
@[simp] theorem tddp_sub (l r : ThermoScalar K) : (l - r).ddp = l.ddp - r.ddp := rfl
@[simp] theorem tddp_neg (l : ThermoScalar K) : (-l).ddp = -l.ddp := rfl
@[simp] theorem tddp_mul (l r : ThermoScalar K) :
    (l * r).ddp = l.val * r.ddp + r.val * l.ddp := rfl
@[simp] theorem tddp_div (l r : ThermoScalar K) :
    (l / r).ddp = (l.ddp * r.val - l.val * r.ddp) / (r.val * r.val) := rfl

end ThermoScalar

namespace ChemicalScalar

variable {K : Type} [Field K] {n : Nat}

@[simp] theorem val_zero : (0 : ChemicalScalar K n).val = 0 := rfl
@[simp] theorem ddt_zero : (0 : ChemicalScalar K n).ddt = 0 := rfl
@[simp] theorem ddp_zero : (0 : ChemicalScalar K n).ddp = 0 := rfl
@[simp] theorem ddn_zero (k : Fin n) : (0 : ChemicalScalar K n).ddn k = 0 := rfl
@[simp] theorem val_const (c : K) : (const c : ChemicalScalar K n).val = c := rfl
@[simp] theorem ddt_const (c : K) : (const c : ChemicalScalar K n).ddt = 0 := rfl
@[simp] theorem ddp_const (c : K) : (const c : ChemicalScalar K n).ddp = 0 := rfl
@[simp] theorem ddn_const (c : K) (k : Fin n) : (const c : ChemicalScalar K n).ddn k = 0 := rfl
@[simp] theorem val_lift (t : ThermoScalar K) : (lift t : ChemicalScalar K n).val = t.val := rfl
@[simp] theorem ddt_lift (t : ThermoScalar K) : (lift t : ChemicalScalar K n).ddt = t.ddt := rfl
@[simp] theorem ddp_lift (t : ThermoScalar K) : (lift t : ChemicalScalar K n).ddp = t.ddp := rfl
@[simp] theorem ddn_lift (t : ThermoScalar K) (k : Fin n) :
    (lift t : ChemicalScalar K n).ddn k = 0 := rfl
@[simp] theorem val_add (l r : ChemicalScalar K n) : (l + r).val = l.val + r.val := rfl
@[simp] theorem val_sub (l r : ChemicalScalar K n) : (l - r).val = l.val - r.val := rfl
@[simp] theorem val_neg (l : ChemicalScalar K n) : (-l).val = -l.val := rfl
@[simp] theorem val_mul (l r : ChemicalScalar K n) : (l * r).val = l.val * r.val := rfl
@[simp] theorem val_div (l r : ChemicalScalar K n) : (l / r).val = l.val / r.val := rfl
@[simp] theorem val_log (lg : K → K) (u : ChemicalScalar K n) : (log lg u).val = lg u.val := rfl
@[simp] theorem ddt_add (l r : ChemicalScalar K n) : (l + r).ddt = l.ddt + r.ddt := rfl
@[simp] theorem ddp_add (l r : ChemicalScalar K n) : (l + r).ddp = l.ddp + r.ddp := rfl
@[simp] theorem ddn_add (l r : ChemicalScalar K n) (k : Fin n) :
    (l + r).ddn k = l.ddn k + r.ddn k := rfl

omit [Field K] in
/-- Two `ChemicalScalar`s with equal components are equal. -/
theorem ext_components {u v : ChemicalScalar K n} (h1 : u.val = v.val) (h2 : u.ddt = v.ddt)
    (h3 : u.ddp = v.ddp) (h4 : ∀ k, u.ddn k = v.ddn k) : u = v := by
  cases u; cases v
  simp only [mk.injEq]
  exact ⟨h1, h2, h3, funext h4⟩

/-- The value of a finite sum is the sum of the values. -/
theorem val_sum {ι : Type} (t : Finset ι) (g : ι → ChemicalScalar K n) :
    (∑ i ∈ t, g i).val = ∑ i ∈ t, (g i).val := by
  classical
  induction t using Finset.induction_on with
  | empty => simp
  | insert hi ih => rw [Finset.sum_insert hi, Finset.sum_insert hi, val_add, ih]

end ChemicalScalar

/-! ## Lemmas on loops -/

section Loops

variable {ι α σ τ : Type}

/-- A fold whose step overwrites entry `i` from the old entry `i` changes every visited
entry once, when no index is visited twice. -/
theorem foldl_update_each [DecidableEq ι] (h : ι → α → α) (l : List ι) (hl : l.Nodup)
    (v : ι → α) (k : ι) :
    (l.foldl (fun v i => Function.update v i (h i (v i))) v) k
      = if k ∈ l then h k (v k) else v k := by
  induction l generalizing v with
  | nil => simp
  | cons a l ih =>
    have hnd := List.nodup_cons.mp hl
    rw [List.foldl_cons, ih hnd.2]
    by_cases hka : k = a
    · subst hka
      simp [hnd.1]
    · simp [hka, Function.update_noteq hka]

/-- A loop that assigns entry `i` from the old entry `i` in round `i`. -/
theorem forLoop_update {n : Nat} (h : Fin n → α → α) (v : Fin n → α) :
    forLoop n v (fun i v => Function.update v i (h i (v i))) = fun k => h k (v k) := by
  funext k
  unfold forLoop
  rw [foldl_update_each h _ (List.nodup_finRange n) v k]
  simp

/-- A fold that adds `g i` in round `i`. -/
theorem foldl_add_eq_sum [AddCommMonoid α] (g : ι → α) (l : List ι) (init : α) :
    l.foldl (fun s i => s + g i) init = init + (l.map g).sum := by
  induction l generalizing init with
  | nil => simp
  | cons a l ih => rw [List.foldl_cons, ih, List.map_cons, List.sum_cons, add_assoc]

/-- A loop that adds `g i` in round `i` computes a finite sum. -/
theorem forLoop_add {n : Nat} [AddCommMonoid α] (g : Fin n → α) (init : α) :
    forLoop n init (fun i s => s + g i) = init + ∑ i, g i := by
  unfold forLoop
  rw [foldl_add_eq_sum, ← List.ofFn_eq_map, List.sum_ofFn]

/-- A component of the loop state that evolves on its own can be followed on its own. -/
theorem forLoop_proj {n : Nat} (proj : σ → τ) (body : Fin n → σ → σ)
    (body' : Fin n → τ → τ) (h : ∀ i st, proj (body i st) = body' i (proj st))
    (init : σ) :
    proj (forLoop n init body) = forLoop n (proj init) body' := by
  unfold forLoop
  generalize List.finRange n = l
  induction l generalizing init with
  | nil => rfl
  | cons a l ih => rw [List.foldl_cons, List.foldl_cons, ih, h]

/-- A loop that adds `t j` to the fixed entry `i` in every round adds their sum. -/
theorem forLoop_update_add {n : Nat} [AddCommMonoid α] (i : ι) [DecidableEq ι]
    (t : Fin n → α) (v : ι → α) :
    forLoop n v (fun j v => Function.update v i (v i + t j))
      = Function.update v i (v i + ∑ j, t j) := by
  have key : ∀ (l : List (Fin n)) (v : ι → α),
      l.foldl (fun v j => Function.update v i (v i + t j)) v
        = Function.update v i (v i + (l.map t).sum) := by
    intro l
    induction l with
    | nil => intro v; simp
    | cons a l ih =>
      intro v
      rw [List.foldl_cons, ih, List.map_cons, List.sum_cons]
      simp [add_assoc]
  unfold forLoop
  rw [key, ← List.ofFn_eq_map, List.sum_ofFn]

end Loops

/-! ## The loops of `operator()` in closed form -/

namespace CubicEOS

open ChemicalScalar (const lift log)

variable {K : Type} [LinearOrderedField K] {n : Nat}

/-- The first loop stores `factor * alpha_val` in `a[i]`. -/
theorem a_eq (c : Call K n) (i : Fin n) :
    a c i = ThermoScalar.const (factor c i) * (alphaAt c i).1 := by
  unfold a
  rw [forLoop_update (fun i _ => ThermoScalar.const (factor c i) * (alphaAt c i).1)]

/-- The first loop stores `factor * alpha_ddt` in `aT[i]`. -/
theorem aT_eq (c : Call K n) (i : Fin n) :
    aT c i = ThermoScalar.const (factor c i) * (alphaAt c i).2.1 := by
  unfold aT
  rw [forLoop_update (fun i _ => ThermoScalar.const (factor c i) * (alphaAt c i).2.1)]

/-- The first loop stores `factor * alpha_d2dt2` in `aTT[i]`. -/
theorem aTT_eq (c : Call K n) (i : Fin n) :
    aTT c i = ThermoScalar.const (factor c i) * (alphaAt c i).2.2 := by
  unfold aTT
  rw [forLoop_update (fun i _ => ThermoScalar.const (factor c i) * (alphaAt c i).2.2)]

/-- The second loop stores `Omega*R*Tci/Pci` in `b[i]`. -/
theorem b_eq (c : Call K n) (i : Fin n) : b c i = ThermoScalar.const (bValue c i) := by
  unfold b
  rw [forLoop_update (fun i _ => ThermoScalar.const (bValue c i))]

/-- The nested loop accumulates `amix` as a double sum. -/
theorem amix_eq_sum (c : Call K n) :
    amix c = ∑ i, ∑ j, c.x i * c.x j * lift (aij c i j) := by
  unfold amix mixLoop
  rw [forLoop_proj MixState.amix _
    (fun i st => st + ∑ j, c.x i * c.x j * lift (aij c i j))]
  · rw [forLoop_add]
    exact zero_add _
  · intro i st
    rw [forLoop_proj MixState.amix _ (fun j st => st + c.x i * c.x j * lift (aij c i j))]
    · rw [forLoop_add]
    · intro j st
      rfl

/-- The nested loop accumulates `amixT` as a double sum. -/
theorem amixT_eq_sum (c : Call K n) :
    amixT c = ∑ i, ∑ j, c.x i * c.x j * lift (aijT c i j) := by
  unfold amixT mixLoop
  rw [forLoop_proj MixState.amixT _
    (fun i st => st + ∑ j, c.x i * c.x j * lift (aijT c i j))]
  · rw [forLoop_add]
    exact zero_add _
  · intro i st
    rw [forLoop_proj MixState.amixT _ (fun j st => st + c.x i * c.x j * lift (aijT c i j))]
    · rw [forLoop_add]
    · intro j st
      rfl

/-- The nested loop accumulates `amixTT` as a double sum. -/
theorem amixTT_eq_sum (c : Call K n) :
    amixTT c = ∑ i, ∑ j, c.x i * c.x j * lift (aijTT c i j) := by
  unfold amixTT mixLoop
  rw [forLoop_proj MixState.amixTT _
    (fun i st => st + ∑ j, c.x i * c.x j * lift (aijTT c i j))]
  · rw [forLoop_add]
    exact zero_add _
  · intro i st
    rw [forLoop_proj MixState.amixTT _
      (fun j st => st + c.x i * c.x j * lift (aijTT c i j))]
    · rw [forLoop_add]
    · intro j st
      rfl

/-- Row `k` of `abar` after the nested loop: the sum of `2*x[j]*aij` over `j`. -/
theorem mixLoop_abar (c : Call K n) (k : Fin n) :
    (mixLoop c).abar k = ∑ j, const 2 * c.x j * lift (aij c k j) := by
  unfold mixLoop
  rw [forLoop_proj MixState.abar _
    (fun i v => Function.update v i (v i + ∑ j, const 2 * c.x j * lift (aij c i j)))]
  · rw [forLoop_update (fun i y => y + ∑ j, const 2 * c.x j * lift (aij c i j))]
    exact zero_add _
  · intro i st
    rw [forLoop_proj MixState.abar _
      (fun j v => Function.update v i (v i + const 2 * c.x j * lift (aij c i j)))]
    · rw [forLoop_update_add]
    · intro j st
      rfl

/-- Row `k` of the final `abar`. -/
theorem abar_eq (c : Call K n) (k : Fin n) :
    abar c k = (∑ j, const 2 * c.x j * lift (aij c k j)) - amix c := by
  unfold abar
  rw [forLoop_update (fun _ y => y - amix c)]
  show (mixLoop c).abar k - amix c = _
  rw [mixLoop_abar]

/-- The loop of lines 280-286 stores `Omega*R*Tci/Pci` in `bbar[i]`. -/
theorem bbar_eq (c : Call K n) (i : Fin n) :
    bbar c i = ThermoScalar.const (bValue c i) := by
  unfold bbar bmixLoop
  rw [forLoop_proj BmixState.bbar _
    (fun i v => Function.update v i (ThermoScalar.const (bValue c i)))]
  · rw [forLoop_update (fun i _ => ThermoScalar.const (bValue c i))]
  · intro i st
    rfl

/-- The loop of lines 280-286 accumulates `bmix` as a sum. -/
theorem bmix_eq_sum (c : Call K n) :
    bmix c = ∑ i, c.x i * lift (ThermoScalar.const (bValue c i)) := by
  unfold bmix bmixLoop
  rw [forLoop_proj BmixState.bmix _
    (fun i st => st + c.x i * lift (ThermoScalar.const (bValue c i)))]
  · rw [forLoop_add]
    exact zero_add _
  · intro i st
    simp only [Function.update_same]

end CubicEOS

section Loops

variable {σ : Type}

/-- A loop whose body does nothing leaves the state as it was. -/
theorem forLoop_id {n : Nat} (init : σ) : forLoop n init (fun _ st => st) = init := by
  unfold forLoop
  generalize List.finRange n = l
  induction l with
  | nil => rfl
  | cons a l ih => rw [List.foldl_cons, ih]

/-- Two loop bodies that agree on the states satisfying an invariant give the same
loop. -/
theorem forLoop_congr_inv {n : Nat} (Inv : σ → Prop) (body body' : Fin n → σ → σ)
    (init : σ) (h0 : Inv init) (hstep : ∀ i st, Inv st → Inv (body' i st))
    (heq : ∀ i st, Inv st → body i st = body' i st) :
    forLoop n init body = forLoop n init body' := by
  unfold forLoop
  generalize List.finRange n = l
  induction l generalizing init with
  | nil => rfl
  | cons a l ih =>
    rw [List.foldl_cons, List.foldl_cons, heq a init h0]
    exact ih _ (hstep a init h0)

end Loops

namespace CubicEOS

open ChemicalScalar (const lift log)

variable {K : Type} [LinearOrderedField K] {n : Nat}

omit [LinearOrderedField K] in
/-- A loop that assigns `g i` to entry `i` of the mole derivatives. -/
theorem forLoop_ddn (g : Fin n → K) (st : ChemicalScalar K n) :
    forLoop n st (fun i st => { st with ddn := Function.update st.ddn i (g i) })
      = { st with ddn := fun i => g i } := by
  have h1 := forLoop_proj ChemicalScalar.val
    (fun i (st : ChemicalScalar K n) => { st with ddn := Function.update st.ddn i (g i) })
    (fun _ v => v) (fun _ _ => rfl) st
  have h2 := forLoop_proj ChemicalScalar.ddt
    (fun i (st : ChemicalScalar K n) => { st with ddn := Function.update st.ddn i (g i) })
    (fun _ v => v) (fun _ _ => rfl) st
  have h3 := forLoop_proj ChemicalScalar.ddp
    (fun i (st : ChemicalScalar K n) => { st with ddn := Function.update st.ddn i (g i) })
    (fun _ v => v) (fun _ _ => rfl) st
  have h4 := forLoop_proj ChemicalScalar.ddn
    (fun i (st : ChemicalScalar K n) => { st with ddn := Function.update st.ddn i (g i) })
    (fun i v => Function.update v i (g i)) (fun _ _ => rfl) st
  rw [forLoop_id] at h1 h2 h3
  rw [forLoop_update (fun i _ => g i)] at h4
  apply ChemicalScalar.ext_components
  · exact h1
  · exact h2
  · exact h3
  · intro k
    rw [h4]

/-- The scalar `Z` after lines 325-333, component by component. -/
theorem Z_eq (c : Call K n) :
    Z c = ⟨Zval c,
      Zfactor c * ((A c).ddt * Zval c * Zval c + (B c).ddt * Zval c + (C c).ddt),
      Zfactor c * ((A c).ddp * Zval c * Zval c + (B c).ddp * Zval c + (C c).ddp),
      fun i => Zfactor c
        * ((A c).ddn i * Zval c * Zval c + (B c).ddn i * Zval c + (C c).ddn i)⟩ := by
  unfold Z
  simp only []
  rw [forLoop_congr_inv (fun st : ChemicalScalar K n => st.val = Zval c) _
    (fun i st => { st with ddn := Function.update st.ddn i (Zfactor c
        * ((A c).ddn i * Zval c * Zval c + (B c).ddn i * Zval c + (C c).ddn i)) })]
  · rw [forLoop_ddn]
  · rfl
  · intro i st h
    exact h
  · intro i st h
    simp only [h]

/-- The value of `Z` is what the root finder returned. -/
theorem Z_val (c : Call K n) : (Z c).val = Zval c := by rw [Z_eq]

end CubicEOS

namespace CubicEOS

open ChemicalScalar (const lift log)

variable {K : Type} [LinearOrderedField K] {n : Nat}

/-- The member `result` after the call, in closed form: every field is assigned from
the quantities of the current call. -/
theorem result_eq (c : Call K n) :
    result c =
      { molar_volume := V c
        residual_molar_gibbs_energy := G_res c
        residual_molar_enthalpy := H_res c
        residual_molar_heat_capacity_cp := Cp_res c
        residual_molar_heat_capacity_cv := Cv_res c
        partial_molar_volumes := fun i => Vi c i
        residual_partial_molar_gibbs_energies := fun i => Gi_res c i
        residual_partial_molar_enthalpies := fun i => Hi_res c i
        ln_fugacity_coefficients :=
          fun i => Gi_res c i / lift (ThermoScalar.const (R c) * c.T) } := by
  unfold result
  simp only [Function.update_same]
  generalize hinit : ({ c.self.result with
      molar_volume := V c
      residual_molar_gibbs_energy := G_res c
      residual_molar_enthalpy := H_res c
      residual_molar_heat_capacity_cp := Cp_res c
      residual_molar_heat_capacity_cv := Cv_res c } : Result K n) = init
  generalize hbody : (fun (i : Fin n) (res : Result K n) =>
    ({ res with
      partial_molar_volumes := Function.update res.partial_molar_volumes i (Vi c i)
      residual_partial_molar_gibbs_energies :=
        Function.update res.residual_partial_molar_gibbs_energies i (Gi_res c i)
      residual_partial_molar_enthalpies :=
        Function.update res.residual_partial_molar_enthalpies i (Hi_res c i)
      ln_fugacity_coefficients :=
        Function.update res.ln_fugacity_coefficients i
          (Gi_res c i / lift (ThermoScalar.const (R c) * c.T)) } : Result K n)) = body
  have e1 := forLoop_proj Result.molar_volume body (fun _ v => v)
    (by subst hbody; intros; rfl) init
  have e2 := forLoop_proj Result.residual_molar_gibbs_energy body (fun _ v => v)
    (by subst hbody; intros; rfl) init
  have e3 := forLoop_proj Result.residual_molar_enthalpy body (fun _ v => v)
    (by subst hbody; intros; rfl) init
  have e4 := forLoop_proj Result.residual_molar_heat_capacity_cp body (fun _ v => v)
    (by subst hbody; intros; rfl) init
  have e5 := forLoop_proj Result.residual_molar_heat_capacity_cv body (fun _ v => v)
    (by subst hbody; intros; rfl) init
  have e6 := forLoop_proj Result.partial_molar_volumes body
    (fun i v => Function.update v i (Vi c i)) (by subst hbody; intros; rfl) init
  have e7 := forLoop_proj Result.residual_partial_molar_gibbs_energies body
    (fun i v => Function.update v i (Gi_res c i)) (by subst hbody; intros; rfl) init
  have e8 := forLoop_proj Result.residual_partial_molar_enthalpies body
    (fun i v => Function.update v i (Hi_res c i)) (by subst hbody; intros; rfl) init
  have e9 := forLoop_proj Result.ln_fugacity_coefficients body
    (fun i v => Function.update v i (Gi_res c i / lift (ThermoScalar.const (R c) * c.T)))
    (by subst hbody; intros; rfl) init
  rw [forLoop_id] at e1 e2 e3 e4 e5
  rw [forLoop_update (fun i _ => Vi c i)] at e6
  rw [forLoop_update (fun i _ => Gi_res c i)] at e7
  rw [forLoop_update (fun i _ => Hi_res c i)] at e8
  rw [forLoop_update (fun i _ => Gi_res c i / lift (ThermoScalar.const (R c) * c.T))] at e9
  generalize forLoop n init body = out at *
  subst hinit
  cases out
  simp only [Result.mk.injEq]
  exact ⟨e1, e2, e3, e4, e5, e6, e7, e8, e9⟩

end CubicEOS

/-! ## The example call evaluated -/

namespace CubicEOS

open ChemicalScalar (const lift log)

variable {K : Type} [LinearOrderedField K] {n : Nat}

@[simp] theorem exampleCall_ext (ext : Externals K) (x0 : K) :
    (exampleCall ext x0).ext = ext := rfl

@[simp] theorem exampleCall_x (ext : Externals K) (x0 : K) (i : Fin 1) :
    ((exampleCall ext x0).x i).val = x0 := rfl

/-- The real square root undoes squaring on the non-negative reals. -/
theorem real_sqrt_mul_self : ∀ y : ℝ, 0 ≤ y → Real.sqrt (y * y) = y :=
  fun _ hy => Real.sqrt_mul_self hy

/-- The parameter `a` of the species of the example call. -/
theorem ex_a_val (ext : Externals K) (x0 : K) (i : Fin 1) :
    (a (exampleCall ext x0) i).val
      = 0.0027 * (ext.universalGasConstant * ext.universalGasConstant) := by
  simp [a_eq, factor, alphaAt, internal.alpha, internal.alphaVDW, exampleCall, vecAt, Psi, R,
    internal.Psi]
  ring

/-- The binary parameter of the example call. -/
theorem ex_aij_val (ext : Externals K) (x0 : K)
    (hs : ∀ y : K, 0 ≤ y → ext.sqrt (y * y) = y) (i j : Fin 1) :
    (aij (exampleCall ext x0) i j).val
      = 0.0027 * (ext.universalGasConstant * ext.universalGasConstant) := by
  have hk : (kres (exampleCall ext x0)).k = [] := rfl
  simp only [aij, r, s, hk, List.isEmpty_nil, if_true, ThermoScalar.tval_mul,
    ThermoScalar.tval_sqrt, ThermoScalar.tval_const, ex_a_val, exampleCall_ext]
  rw [hs _ (mul_nonneg (by norm_num) (mul_self_nonneg _))]
  norm_num

/-- The value of `amix` in the example call. -/
theorem ex_amix_val (ext : Externals K) (x0 : K)
    (hs : ∀ y : K, 0 ≤ y → ext.sqrt (y * y) = y) :
    (amix (exampleCall ext x0)).val
      = x0 * x0 * (0.0027 * (ext.universalGasConstant * ext.universalGasConstant)) := by
  rw [amix_eq_sum]
  simp only [ChemicalScalar.val_sum, ChemicalScalar.val_mul, ChemicalScalar.val_lift,
    ex_aij_val ext x0 hs, Finset.univ_unique, Finset.sum_singleton, exampleCall_x]

/-- The value of `abar` in the example call. -/
theorem ex_abar_val (ext : Externals K) (x0 : K)
    (hs : ∀ y : K, 0 ≤ y → ext.sqrt (y * y) = y) (i : Fin 1) :
    (abar (exampleCall ext x0) i).val
      = (2 * x0 - x0 * x0)
        * (0.0027 * (ext.universalGasConstant * ext.universalGasConstant)) := by
  rw [abar_eq, ChemicalScalar.val_sub, ex_amix_val ext x0 hs]
  simp only [ChemicalScalar.val_sum, ChemicalScalar.val_mul, ChemicalScalar.val_lift,
    ex_aij_val ext x0 hs, Finset.univ_unique, Finset.sum_singleton, ChemicalScalar.val_const,
    exampleCall_x]
  ring

end CubicEOS

/-! ## C1: Euler consistency of the mixing rule -/

namespace CubicEOS

open ChemicalScalar (const lift log)

variable {K : Type} [LinearOrderedField K] {n : Nat}

/-- The value of `amix` as a double sum of values. -/
theorem amix_val_sum (c : Call K n) :
    (amix c).val = ∑ i, ∑ j, (c.x i).val * (c.x j).val * (aij c i j).val := by
  rw [amix_eq_sum, ChemicalScalar.val_sum]
  simp [ChemicalScalar.val_sum]

/-- The value of row `i` of `abar`. -/
theorem abar_val (c : Call K n) (i : Fin n) :
    (abar c i).val = 2 * (∑ j, (c.x j).val * (aij c i j).val) - (amix c).val := by
  rw [abar_eq, ChemicalScalar.val_sub, ChemicalScalar.val_sum, Finset.mul_sum]
  simp [mul_assoc]

/-- For every composition, the weighted sum of the `abar` values is `amix` times two
minus the sum of the entries of the composition. -/
theorem sum_x_abar (c : Call K n) :
    ∑ i, (c.x i).val * (abar c i).val = (2 - ∑ i, (c.x i).val) * (amix c).val := by
  simp only [abar_val, mul_sub, Finset.sum_sub_distrib, ← Finset.sum_mul]
  rw [sub_mul, amix_val_sum]
  congr 1
  rw [Finset.mul_sum]
  refine Finset.sum_congr rfl fun i _ => ?_
  rw [Finset.mul_sum, Finset.mul_sum, Finset.mul_sum]
  refine Finset.sum_congr rfl fun j _ => ?_
  ring

/-- C1, as stated, fails: in the one-species example call with mole amount 2 (real
arithmetic, real square root), the sum of `x_i * abar_i` is 0 while `amix` is not. -/
theorem C1_counterexample :
    ∑ i, ((exampleCall
              (⟨8.3144621, Real.sqrt, Real.log, newtonModel⟩ : Externals ℝ) 2).x i).val
        * (abar (exampleCall
              (⟨8.3144621, Real.sqrt, Real.log, newtonModel⟩ : Externals ℝ) 2) i).val
      ≠ (amix (exampleCall
              (⟨8.3144621, Real.sqrt, Real.log, newtonModel⟩ : Externals ℝ) 2)).val := by
  rw [ex_amix_val ⟨8.3144621, Real.sqrt, Real.log, newtonModel⟩ 2 real_sqrt_mul_self]
  simp only [ex_abar_val ⟨8.3144621, Real.sqrt, Real.log, newtonModel⟩ 2 real_sqrt_mul_self,
    Finset.univ_unique, Finset.sum_singleton, exampleCall_x]
  norm_num

/-- C1, amended: for every species count, configuration and composition whose entries
sum to 1, the values assembled by `operator()` satisfy
`sum_i x_i * abar_i = amix`. -/
theorem C1_euler_consistency (c : Call K n) (hx : ∑ i, (c.x i).val = 1) :
    ∑ i, (c.x i).val * (abar c i).val = (amix c).val := by
  rw [sum_x_abar, hx]
  norm_num

/-- C1, amended, at the example call with mole amount 1. -/
theorem C1_euler_consistency_witness :
    ∑ i, ((exampleCall
              (⟨8.3144621, Real.sqrt, Real.log, newtonModel⟩ : Externals ℝ) 1).x i).val = 1
    ∧ ∑ i, ((exampleCall
              (⟨8.3144621, Real.sqrt, Real.log, newtonModel⟩ : Externals ℝ) 1).x i).val
        * (abar (exampleCall
              (⟨8.3144621, Real.sqrt, Real.log, newtonModel⟩ : Externals ℝ) 1) i).val
      = (amix (exampleCall
              (⟨8.3144621, Real.sqrt, Real.log, newtonModel⟩ : Externals ℝ) 1)).val :=
  ⟨by simp, C1_euler_consistency _ (by simp)⟩

end CubicEOS

/-! ## The example call evaluated: the cubic -/

namespace CubicEOS

open ChemicalScalar (const lift log)

variable {K : Type} [LinearOrderedField K] {n : Nat}

/-- The value of `bmix` in the example call. -/
theorem ex_bmix_val (ext : Externals K) (x0 : K) :
    (bmix (exampleCall ext x0)).val = x0 * (0.000005 * ext.universalGasConstant) := by
  rw [bmix_eq_sum]
  simp only [ChemicalScalar.val_sum, ChemicalScalar.val_mul, ChemicalScalar.val_lift,
    ThermoScalar.tval_const, Finset.univ_unique, Finset.sum_singleton, exampleCall_x]
  have hb : bValue (exampleCall ext x0) default = 0.000005 * ext.universalGasConstant := by
    simp only [bValue, Omega, internal.Omega, R, exampleCall, vecAt]
    norm_num
    ring
  rw [hb]

/-- The value of `beta` in the example call with mole amount 1. -/
theorem ex_beta_val (ext : Externals K) (hR : ext.universalGasConstant ≠ 0) :
    (beta (exampleCall ext 1)).val = 1 / 2 := by
  simp only [beta, ChemicalScalar.val_div, ChemicalScalar.val_mul, ChemicalScalar.val_lift,
    ThermoScalar.tval_mul, ThermoScalar.tval_const, ex_bmix_val]
  simp only [exampleCall, R]
  field_simp
  norm_num
  ring

/-- The value of `q` in the example call with mole amount 1. -/
theorem ex_q_val (ext : Externals K) (hs : ∀ y : K, 0 ≤ y → ext.sqrt (y * y) = y)
    (hR : ext.universalGasConstant ≠ 0) :
    (q (exampleCall ext 1)).val = 2 := by
  simp only [q, ChemicalScalar.val_div, ChemicalScalar.val_mul, ChemicalScalar.val_lift,
    ChemicalScalar.val_const, ex_bmix_val, ex_amix_val ext 1 hs]
  simp only [exampleCall, R]
  field_simp
  norm_num
  ring

/-- The constant `epsilon` of the example call. -/
theorem ex_eps (ext : Externals K) (x0 : K) : epsilon (exampleCall ext x0) = 0 := by
  norm_num [epsilon, internal.epsilon, exampleCall]

/-- The constant `sigma` of the example call. -/
theorem ex_sig (ext : Externals K) (x0 : K) : sigma (exampleCall ext x0) = 0 := by
  norm_num [sigma, internal.sigma, exampleCall]

/-- The value of `A` in the example call with mole amount 1. -/
theorem ex_A_val (ext : Externals K) (hR : ext.universalGasConstant ≠ 0) :
    (A (exampleCall ext 1)).val = -3 / 2 := by
  simp only [A, ChemicalScalar.val_sub, ChemicalScalar.val_mul, ChemicalScalar.val_const,
    ex_beta_val ext hR, ex_eps, ex_sig]
  norm_num

/-- The value of `B` in the example call with mole amount 1. -/
theorem ex_B_val (ext : Externals K) (hs : ∀ y : K, 0 ≤ y → ext.sqrt (y * y) = y)
    (hR : ext.universalGasConstant ≠ 0) :
    (B (exampleCall ext 1)).val = 1 := by
  simp only [B, ChemicalScalar.val_sub, ChemicalScalar.val_mul, ChemicalScalar.val_const,
    ex_beta_val ext hR, ex_q_val ext hs hR, ex_eps, ex_sig]
  norm_num

/-- The value of `C` in the example call with mole amount 1. -/
theorem ex_C_val (ext : Externals K) (hs : ∀ y : K, 0 ≤ y → ext.sqrt (y * y) = y)
    (hR : ext.universalGasConstant ≠ 0) :
    (C (exampleCall ext 1)).val = -1 / 2 := by
  simp only [C, ChemicalScalar.val_sub, ChemicalScalar.val_add, ChemicalScalar.val_mul,
    ChemicalScalar.val_const, ex_beta_val ext hR, ex_q_val ext hs hR, ex_eps, ex_sig]
  norm_num

/-- In the example call with mole amount 1 the initial guess 1 is a root of the cubic, and
the Newton iteration returns it. -/
theorem ex_Zval (ext : Externals K) (hs : ∀ y : K, 0 ≤ y → ext.sqrt (y * y) = y)
    (hR : ext.universalGasConstant ≠ 0) (hN : ext.newton = newtonModel) :
    Zval (exampleCall ext 1) = 1 := by
  have hZ0 : Z0 (exampleCall ext 1) = 1 := by
    norm_num [Z0, exampleCall]
  have hf : f (exampleCall ext 1) 1 = (0, 1) := by
    simp only [f, ex_A_val ext hR, ex_B_val ext hs hR, ex_C_val ext hs hR]
    norm_num
  simp only [Zval, exampleCall_ext, hN, hZ0, maxiter, newtonModel, hf, tolerance]
  norm_num

/-- In the example call with mole amount 1 the gradient of the cubic at `Z` is 1. -/
theorem ex_grad (ext : Externals K) (hs : ∀ y : K, 0 ≤ y → ext.sqrt (y * y) = y)
    (hR : ext.universalGasConstant ≠ 0) (hN : ext.newton = newtonModel) :
    3 * (Z (exampleCall ext 1)).val ^ 2
      + 2 * (A (exampleCall ext 1)).val * (Z (exampleCall ext 1)).val
      + (B (exampleCall ext 1)).val = 1 := by
  rw [Z_val, ex_Zval ext hs hR hN, ex_A_val ext hR, ex_B_val ext hs hR]
  norm_num

/-- The gas constant of the examples is not zero. -/
theorem real_R_ne_zero : (8.3144621 : ℝ) ≠ 0 := by norm_num

end CubicEOS

/-! ## C2: implicit differentiation of the compressibility factor -/

namespace CubicEOS

open ChemicalScalar (const lift log)

variable {K : Type} [LinearOrderedField K] {n : Nat}

/-- C2: whenever `3*Z^2 + 2*A*Z + B` is non-zero at the value `Z` returned by the root
finder, the derivative stored in `Z` for each direction `d` (temperature, pressure, each
mole amount) is `-(dA*Z^2 + dB*Z + dC)/(3*Z^2 + 2*A*Z + B)`, and it solves the
linearisation `(3*Z^2 + 2*A*Z + B)*dZ + dA*Z^2 + dB*Z + dC = 0` of the cubic. -/
theorem C2_implicit_differentiation (c : Call K n)
    (hD : 3 * (Z c).val ^ 2 + 2 * (A c).val * (Z c).val + (B c).val ≠ 0) :
    (Z c).val = c.ext.newton (f c) (Z0 c) tolerance maxiter
    ∧ (Z c).ddt = -((A c).ddt * (Z c).val ^ 2 + (B c).ddt * (Z c).val + (C c).ddt)
        / (3 * (Z c).val ^ 2 + 2 * (A c).val * (Z c).val + (B c).val)
    ∧ (Z c).ddp = -((A c).ddp * (Z c).val ^ 2 + (B c).ddp * (Z c).val + (C c).ddp)
        / (3 * (Z c).val ^ 2 + 2 * (A c).val * (Z c).val + (B c).val)
    ∧ (∀ i, (Z c).ddn i
        = -((A c).ddn i * (Z c).val ^ 2 + (B c).ddn i * (Z c).val + (C c).ddn i)
          / (3 * (Z c).val ^ 2 + 2 * (A c).val * (Z c).val + (B c).val))
    ∧ (3 * (Z c).val ^ 2 + 2 * (A c).val * (Z c).val + (B c).val) * (Z c).ddt
        + (A c).ddt * (Z c).val ^ 2 + (B c).ddt * (Z c).val + (C c).ddt = 0
    ∧ (3 * (Z c).val ^ 2 + 2 * (A c).val * (Z c).val + (B c).val) * (Z c).ddp
        + (A c).ddp * (Z c).val ^ 2 + (B c).ddp * (Z c).val + (C c).ddp = 0
    ∧ ∀ i, (3 * (Z c).val ^ 2 + 2 * (A c).val * (Z c).val + (B c).val) * (Z c).ddn i
        + (A c).ddn i * (Z c).val ^ 2 + (B c).ddn i * (Z c).val + (C c).ddn i = 0 := by
  rw [Z_eq] at hD ⊢
  simp only [Zfactor] at hD ⊢
  have hD' : 3 * Zval c * Zval c + 2 * (A c).val * Zval c + (B c).val ≠ 0 := by
    intro h
    apply hD
    rw [← h]
    ring
  refine ⟨rfl, ?_, ?_, ?_, ?_, ?_, ?_⟩
  · field_simp
    ring
  · field_simp
    ring
  · intro i
    field_simp
    ring
  · field_simp
    ring
  · field_simp
    ring
  · intro i
    field_simp
    ring

/-- C2 at the example call (one species, van der Waals, real arithmetic): the gradient
of the cubic at the root is non-zero and the temperature derivative of `Z` is the
implicit derivative. -/
theorem C2_implicit_differentiation_witness :
    3 * (Z (exampleCall
          (⟨8.3144621, Real.sqrt, Real.log, newtonModel⟩ : Externals ℝ) 1)).val ^ 2
      + 2 * (A (exampleCall
          (⟨8.3144621, Real.sqrt, Real.log, newtonModel⟩ : Externals ℝ) 1)).val
        * (Z (exampleCall
          (⟨8.3144621, Real.sqrt, Real.log, newtonModel⟩ : Externals ℝ) 1)).val
      + (B (exampleCall
          (⟨8.3144621, Real.sqrt, Real.log, newtonModel⟩ : Externals ℝ) 1)).val ≠ 0
    ∧ (3 * (Z (exampleCall
          (⟨8.3144621, Real.sqrt, Real.log, newtonModel⟩ : Externals ℝ) 1)).val ^ 2
      + 2 * (A (exampleCall
          (⟨8.3144621, Real.sqrt, Real.log, newtonModel⟩ : Externals ℝ) 1)).val
        * (Z (exampleCall
          (⟨8.3144621, Real.sqrt, Real.log, newtonModel⟩ : Externals ℝ) 1)).val
      + (B (exampleCall
          (⟨8.3144621, Real.sqrt, Real.log, newtonModel⟩ : Externals ℝ) 1)).val)
        * (Z (exampleCall
          (⟨8.3144621, Real.sqrt, Real.log, newtonModel⟩ : Externals ℝ) 1)).ddt
      + (A (exampleCall
          (⟨8.3144621, Real.sqrt, Real.log, newtonModel⟩ : Externals ℝ) 1)).ddt
        * (Z (exampleCall
          (⟨8.3144621, Real.sqrt, Real.log, newtonModel⟩ : Externals ℝ) 1)).val ^ 2
      + (B (exampleCall
          (⟨8.3144621, Real.sqrt, Real.log, newtonModel⟩ : Externals ℝ) 1)).ddt
        * (Z (exampleCall
          (⟨8.3144621, Real.sqrt, Real.log, newtonModel⟩ : Externals ℝ) 1)).val
      + (C (exampleCall
          (⟨8.3144621, Real.sqrt, Real.log, newtonModel⟩ : Externals ℝ) 1)).ddt = 0 :=
  have h : 3 * (Z (exampleCall
          (⟨8.3144621, Real.sqrt, Real.log, newtonModel⟩ : Externals ℝ) 1)).val ^ 2
      + 2 * (A (exampleCall
          (⟨8.3144621, Real.sqrt, Real.log, newtonModel⟩ : Externals ℝ) 1)).val
        * (Z (exampleCall
          (⟨8.3144621, Real.sqrt, Real.log, newtonModel⟩ : Externals ℝ) 1)).val
      + (B (exampleCall
          (⟨8.3144621, Real.sqrt, Real.log, newtonModel⟩ : Externals ℝ) 1)).val ≠ 0 := by
    rw [ex_grad ⟨8.3144621, Real.sqrt, Real.log, newtonModel⟩ real_sqrt_mul_self
      real_R_ne_zero rfl]
    exact one_ne_zero
  ⟨h, (C2_implicit_differentiation _ h).2.2.2.2.1⟩

end CubicEOS

/-! ## C3: the residual heat capacity -/

namespace CubicEOS

open ChemicalScalar (const lift log)

variable {K : Type} [LinearOrderedField K] {n : Nat}

/-- The value that line 361 stores in `Cp_res`. -/
theorem Cp_res_val (c : Call K n) :
    (Cp_res c).val = R c * c.T.val
        * ((ZT c).val + (qT c).val * (I c).val + c.T.val * (qTT c).val
            + c.T.val * (qT c).val * (IT c).val)
      + (H_res c).val / c.T.val := by
  simp only [Cp_res, ChemicalScalar.val_add, ChemicalScalar.val_mul, ChemicalScalar.val_div,
    ChemicalScalar.val_lift, ThermoScalar.tval_mul, ThermoScalar.tval_const]

/-- The van der Waals `aT` is zero in value. -/
theorem ex_aT_val (ext : Externals K) (x0 : K) (i : Fin 1) :
    (aT (exampleCall ext x0) i).val = 0 := by
  have h : (exampleCall ext x0).self.model = Model.VanDerWaals := rfl
  simp only [aT_eq, alphaAt, internal.alpha, h, internal.alphaVDW, ThermoScalar.tval_mul,
    ThermoScalar.tval_const]
  norm_num

/-- The van der Waals `aTT` is zero in value. -/
theorem ex_aTT_val (ext : Externals K) (x0 : K) (i : Fin 1) :
    (aTT (exampleCall ext x0) i).val = 0 := by
  have h : (exampleCall ext x0).self.model = Model.VanDerWaals := rfl
  simp only [aTT_eq, alphaAt, internal.alpha, h, internal.alphaVDW, ThermoScalar.tval_mul,
    ThermoScalar.tval_const]
  norm_num

/-- The value of `amixT` in the example call. -/
theorem ex_amixT_val (ext : Externals K) (x0 : K) :
    (amixT (exampleCall ext x0)).val = 0 := by
  have hk : (kres (exampleCall ext x0)).kT = [] := rfl
  rw [amixT_eq_sum]
  simp only [ChemicalScalar.val_sum, ChemicalScalar.val_mul, ChemicalScalar.val_lift,
    aijT, rT, sT, hk, List.isEmpty_nil, if_true, ThermoScalar.tval_add, ThermoScalar.tval_mul,
    ThermoScalar.tval_div, ThermoScalar.tval_const, ex_aT_val]
  norm_num

/-- The value of `amixTT` in the example call. -/
theorem ex_amixTT_val (ext : Externals K) (x0 : K) :
    (amixTT (exampleCall ext x0)).val = 0 := by
  have hk : (kres (exampleCall ext x0)).kT = [] := rfl
  have hk2 : (kres (exampleCall ext x0)).kTT = [] := rfl
  rw [amixTT_eq_sum]
  simp only [ChemicalScalar.val_sum, ChemicalScalar.val_mul, ChemicalScalar.val_lift,
    aijTT, rT, rTT, sT, sTT, hk, hk2, List.isEmpty_nil, if_true, ThermoScalar.tval_add,
    ThermoScalar.tval_sub, ThermoScalar.tval_mul,
    ThermoScalar.tval_div, ThermoScalar.tval_const, ex_aT_val, ex_aTT_val]
  norm_num

/-- The value of `qT` in the example call with mole amount 1. -/
theorem ex_qT_val (ext : Externals K) (hs : ∀ y : K, 0 ≤ y → ext.sqrt (y * y) = y)
    (hR : ext.universalGasConstant ≠ 0) :
    (qT (exampleCall ext 1)).val = -2 / 270 := by
  simp only [qT, ChemicalScalar.val_mul, ChemicalScalar.val_sub, ChemicalScalar.val_div,
    ChemicalScalar.val_lift, ThermoScalar.tval_div, ThermoScalar.tval_const,
    ex_q_val ext hs hR, ex_amixT_val]
  norm_num [exampleCall]

/-- The value of `qTT` in the example call with mole amount 1. -/
theorem ex_qTT_val (ext : Externals K) (hs : ∀ y : K, 0 ≤ y → ext.sqrt (y * y) = y)
    (hR : ext.universalGasConstant ≠ 0) :
    (qTT (exampleCall ext 1)).val = 4 / (270 * 270) := by
  simp only [qTT, ChemicalScalar.val_mul, ChemicalScalar.val_sub, ChemicalScalar.val_add,
    ChemicalScalar.val_div,
    ChemicalScalar.val_lift, ThermoScalar.tval_div, ThermoScalar.tval_mul,
    ThermoScalar.tval_const,
    ex_q_val ext hs hR, ex_qT_val ext hs hR, ex_amixT_val, ex_amixTT_val]
  norm_num [exampleCall]

/-- The value of `I` in the example call with mole amount 1. -/
theorem ex_I_val (ext : Externals K) (hs : ∀ y : K, 0 ≤ y → ext.sqrt (y * y) = y)
    (hR : ext.universalGasConstant ≠ 0) (hN : ext.newton = newtonModel) :
    (I (exampleCall ext 1)).val = 1 / 2 := by
  simp only [I, ex_eps, ex_sig, ne_eq, not_true_eq_false, if_false, ChemicalScalar.val_div,
    ChemicalScalar.val_add, ChemicalScalar.val_mul, ChemicalScalar.val_const,
    ex_beta_val ext hR, Z_val, ex_Zval ext hs hR hN]
  norm_num

/-- The value of `Cp_res` exceeds the chain-rule derivative of `H_res` by
`R*T^2*qTT*(1 - I)`: the term `T*qTT` of line 361 lacks the factor `I`. -/
theorem Cp_res_val_sub (c : Call K n) :
    (Cp_res c).val
      - ((H_res c).val / c.T.val
          + R c * c.T.val
            * ((ZT c).val + (qT c).val * (I c).val + c.T.val * (qTT c).val * (I c).val
                + c.T.val * (qT c).val * (IT c).val))
      = R c * c.T.val * c.T.val * (qTT c).val * (1 - (I c).val) := by
  rw [Cp_res_val]
  ring

/-- C3, the code at the failing input (one species, van der Waals, 270 K, 27 MPa,
`x = [1]`, real arithmetic): the returned residual heat capacity exceeds
`H_res/T + R*T*(ZT + qT*I + T*qTT*I + T*qT*IT)` by twice the gas constant. -/
theorem C3_cp_res_at_failing_input :
    (result (exampleCall
          (⟨8.3144621, Real.sqrt, Real.log, newtonModel⟩ : Externals ℝ) 1)).residual_molar_heat_capacity_cp.val
      - ((result (exampleCall
          (⟨8.3144621, Real.sqrt, Real.log, newtonModel⟩ : Externals ℝ) 1)).residual_molar_enthalpy.val / ((exampleCall
          (⟨8.3144621, Real.sqrt, Real.log, newtonModel⟩ : Externals ℝ) 1)).T.val
          + R (exampleCall
          (⟨8.3144621, Real.sqrt, Real.log, newtonModel⟩ : Externals ℝ) 1) * ((exampleCall
          (⟨8.3144621, Real.sqrt, Real.log, newtonModel⟩ : Externals ℝ) 1)).T.val
            * ((ZT (exampleCall
          (⟨8.3144621, Real.sqrt, Real.log, newtonModel⟩ : Externals ℝ) 1)).val + (qT (exampleCall
          (⟨8.3144621, Real.sqrt, Real.log, newtonModel⟩ : Externals ℝ) 1)).val * (I (exampleCall
          (⟨8.3144621, Real.sqrt, Real.log, newtonModel⟩ : Externals ℝ) 1)).val
                + ((exampleCall
          (⟨8.3144621, Real.sqrt, Real.log, newtonModel⟩ : Externals ℝ) 1)).T.val * (qTT (exampleCall
          (⟨8.3144621, Real.sqrt, Real.log, newtonModel⟩ : Externals ℝ) 1)).val * (I (exampleCall
          (⟨8.3144621, Real.sqrt, Real.log, newtonModel⟩ : Externals ℝ) 1)).val
                + ((exampleCall
          (⟨8.3144621, Real.sqrt, Real.log, newtonModel⟩ : Externals ℝ) 1)).T.val * (qT (exampleCall
          (⟨8.3144621, Real.sqrt, Real.log, newtonModel⟩ : Externals ℝ) 1)).val * (IT (exampleCall
          (⟨8.3144621, Real.sqrt, Real.log, newtonModel⟩ : Externals ℝ) 1)).val))
      = 2 * 8.3144621 := by
  rw [result_eq]
  simp only []
  rw [Cp_res_val_sub,
    ex_qTT_val ⟨8.3144621, Real.sqrt, Real.log, newtonModel⟩ real_sqrt_mul_self
      real_R_ne_zero,
    ex_I_val ⟨8.3144621, Real.sqrt, Real.log, newtonModel⟩ real_sqrt_mul_self
      real_R_ne_zero rfl]
  norm_num [R, exampleCall]

end CubicEOS

/-! ## C4: single-species reduction -/

namespace CubicEOS

open ChemicalScalar (const lift log)

variable {K : Type} [LinearOrderedField K] {n : Nat}

/-- With one species of mole amount 1, `bmix` is the covolume of the species. -/
theorem one_bmix_val (c : Call K 1) (i : Fin 1) (hx : (c.x i).val = 1) :
    (bmix c).val = bValue c i := by
  rw [bmix_eq_sum]
  simp only [ChemicalScalar.val_sum, ChemicalScalar.val_mul, ChemicalScalar.val_lift,
    ThermoScalar.tval_const, Finset.univ_unique, Finset.sum_singleton]
  rw [Subsingleton.elim default i, hx, one_mul]

/-- With one species of mole amount 1, `betai` has the value of `beta`. -/
theorem one_betai_val (c : Call K 1) (i : Fin 1) (hx : (c.x i).val = 1) :
    (betai c i).val = (beta c).val := by
  simp only [betai, bi, bbar_eq, beta, ChemicalScalar.val_div, ChemicalScalar.val_mul,
    ChemicalScalar.val_lift, ThermoScalar.tval_div, ThermoScalar.tval_mul,
    ThermoScalar.tval_const, one_bmix_val c i hx]

/-- With one species of mole amount 1, `amix` has the value of `aij`. -/
theorem one_amix_val (c : Call K 1) (i : Fin 1) (hx : (c.x i).val = 1) :
    (amix c).val = (aij c i i).val := by
  rw [amix_val_sum]
  simp only [Finset.univ_unique, Finset.sum_singleton]
  rw [Subsingleton.elim default i, hx, one_mul, one_mul]

/-- With one species of mole amount 1, `abar` has the value of `amix`. -/
theorem one_ai_val (c : Call K 1) (i : Fin 1) (hx : (c.x i).val = 1) :
    (ai c i).val = (amix c).val := by
  rw [ai, abar_val, one_amix_val c i hx]
  simp only [Finset.univ_unique, Finset.sum_singleton]
  rw [Subsingleton.elim default i, hx]
  ring

/-- With one species of mole amount 1, `qi` has the value of `q`. -/
theorem one_qi_val (c : Call K 1) (i : Fin 1) (hx : (c.x i).val = 1) :
    (qi c i).val = (q c).val := by
  have hb : (bi c i).val = (bmix c).val := by
    rw [bi, bbar_eq, one_bmix_val c i hx]
    rfl
  simp only [qi, ChemicalScalar.val_mul, ChemicalScalar.val_add, ChemicalScalar.val_sub,
    ChemicalScalar.val_div, ChemicalScalar.val_const, ChemicalScalar.val_lift,
    one_ai_val c i hx, hb]
  by_cases ha : (amix c).val = 0
  · simp [q, ha]
  · by_cases hb0 : (bmix c).val = 0
    · simp [q, hb0]
    · rw [div_self ha, div_self hb0]
      ring


/-- With one species of mole amount 1 and `Z` a simple root of the cubic, `Zi` has the
value of `Z`. -/
theorem one_Zi_val (c : Call K 1) (i : Fin 1) (hx : (c.x i).val = 1)
    (hroot : (Z c).val ^ 3 + (A c).val * (Z c).val ^ 2 + (B c).val * (Z c).val
      + (C c).val = 0)
    (hD : 3 * (Z c).val ^ 2 + 2 * (A c).val * (Z c).val + (B c).val ≠ 0) :
    (Zi c i).val = (Z c).val := by
  have hAi : (Ai c i).val = (A c).val := by
    simp only [Ai, A, ThermoScalar.tval_sub, ThermoScalar.tval_mul, ThermoScalar.tval_const,
      ChemicalScalar.val_sub, ChemicalScalar.val_mul, ChemicalScalar.val_const,
      one_betai_val c i hx]
  have hBi : (Bi c i).val = (B c).val := by
    simp only [Bi, B, ChemicalScalar.val_sub, ChemicalScalar.val_mul,
      ChemicalScalar.val_const, ChemicalScalar.val_lift, one_betai_val c i hx,
      one_qi_val c i hx]
    ring
  have hCi : (Ci c i).val = (C c).val := by
    simp only [Ci, C, ChemicalScalar.val_sub, ChemicalScalar.val_add, ChemicalScalar.val_mul,
      ChemicalScalar.val_const, ChemicalScalar.val_lift, one_betai_val c i hx,
      one_qi_val c i hx]
    ring
  have hD' : 3 * (Z c).val * (Z c).val + 2 * (A c).val * (Z c).val + (B c).val ≠ 0 := by
    intro h
    apply hD
    rw [← h]
    ring
  simp only [Zi, ChemicalScalar.val_div, ChemicalScalar.val_neg, ChemicalScalar.val_add,
    ChemicalScalar.val_mul, ChemicalScalar.val_const, ChemicalScalar.val_lift, hAi, hBi, hCi]
  rw [div_eq_iff hD']
  linear_combination (-3 : K) * hroot

/-- With one species of mole amount 1 and `Z` a simple root of the cubic, `Ii` has the
value of `I`. -/
theorem one_Ii_val (c : Call K 1) (i : Fin 1) (hx : (c.x i).val = 1)
    (hroot : (Z c).val ^ 3 + (A c).val * (Z c).val ^ 2 + (B c).val * (Z c).val
      + (C c).val = 0)
    (hD : 3 * (Z c).val ^ 2 + 2 * (A c).val * (Z c).val + (B c).val ≠ 0)
    (h2 : (Z c).val + sigma c * (beta c).val ≠ 0)
    (h3 : (Z c).val + epsilon c * (beta c).val ≠ 0) :
    (Ii c i).val = (I c).val := by
  unfold Ii
  split
  · simp only [ChemicalScalar.val_add, ChemicalScalar.val_sub, ChemicalScalar.val_div,
      ChemicalScalar.val_mul, ChemicalScalar.val_const, ChemicalScalar.val_lift,
      ThermoScalar.tval_mul, ThermoScalar.tval_const, one_betai_val c i hx,
      one_Zi_val c i hx hroot hD, div_self h2, div_self h3]
    simp
  · rename_i he
    simp only [ChemicalScalar.val_add, ChemicalScalar.val_sub, ChemicalScalar.val_div,
      ChemicalScalar.val_mul, ChemicalScalar.val_const, ChemicalScalar.val_lift,
      ThermoScalar.tval_mul, ThermoScalar.tval_const, one_betai_val c i hx,
      one_Zi_val c i hx hroot hD, div_self h3]
    by_cases hb : (beta c).val = 0
    · have hI : (I c).val = 0 := by
        unfold I
        rw [if_neg he]
        simp [hb]
      rw [hI]
      ring
    · rw [div_self hb]
      ring

/-- With one species of mole amount 1 and `Z` a simple root of the cubic, `Gi_res` has
the value of `G_res`. -/
theorem one_Gi_val (c : Call K 1) (i : Fin 1) (hx : (c.x i).val = 1)
    (hroot : (Z c).val ^ 3 + (A c).val * (Z c).val ^ 2 + (B c).val * (Z c).val
      + (C c).val = 0)
    (hD : 3 * (Z c).val ^ 2 + 2 * (A c).val * (Z c).val + (B c).val ≠ 0)
    (h1 : (Z c).val - (beta c).val ≠ 0)
    (h2 : (Z c).val + sigma c * (beta c).val ≠ 0)
    (h3 : (Z c).val + epsilon c * (beta c).val ≠ 0) :
    (Gi_res c i).val = (G_res c).val := by
  simp only [Gi_res, G_res, ChemicalScalar.val_add, ChemicalScalar.val_sub,
    ChemicalScalar.val_div, ChemicalScalar.val_mul, ChemicalScalar.val_const,
    ChemicalScalar.val_lift, ChemicalScalar.val_log, ThermoScalar.tval_mul,
    ThermoScalar.tval_const, one_betai_val c i hx, one_Zi_val c i hx hroot hD,
    one_Ii_val c i hx hroot hD h2 h3, one_qi_val c i hx, div_self h1]
  ring

/-- In the example call with mole amount 1, `Z` is an exact root of the cubic. -/
theorem ex_root (ext : Externals K) (hs : ∀ y : K, 0 ≤ y → ext.sqrt (y * y) = y)
    (hR : ext.universalGasConstant ≠ 0) (hN : ext.newton = newtonModel) :
    (Z (exampleCall ext 1)).val ^ 3
      + (A (exampleCall ext 1)).val * (Z (exampleCall ext 1)).val ^ 2
      + (B (exampleCall ext 1)).val * (Z (exampleCall ext 1)).val
      + (C (exampleCall ext 1)).val = 0 := by
  rw [Z_val, ex_Zval ext hs hR hN, ex_A_val ext hR, ex_B_val ext hs hR, ex_C_val ext hs hR]
  norm_num

/-- In the example call with mole amount 1, `Z - beta` is one half. -/
theorem ex_Z_sub_beta (ext : Externals K) (hs : ∀ y : K, 0 ≤ y → ext.sqrt (y * y) = y)
    (hR : ext.universalGasConstant ≠ 0) (hN : ext.newton = newtonModel) :
    (Z (exampleCall ext 1)).val - (beta (exampleCall ext 1)).val = 1 / 2 := by
  rw [Z_val, ex_Zval ext hs hR hN, ex_beta_val ext hR]
  norm_num

/-- In the example call with mole amount 1, `Z + sigma*beta` is one. -/
theorem ex_Z_add_sigma_beta (ext : Externals K)
    (hs : ∀ y : K, 0 ≤ y → ext.sqrt (y * y) = y)
    (hR : ext.universalGasConstant ≠ 0) (hN : ext.newton = newtonModel) :
    (Z (exampleCall ext 1)).val
      + sigma (exampleCall ext 1) * (beta (exampleCall ext 1)).val = 1 := by
  rw [Z_val, ex_Zval ext hs hR hN, ex_sig]
  norm_num

/-- In the example call with mole amount 1, `Z + epsilon*beta` is one. -/
theorem ex_Z_add_epsilon_beta (ext : Externals K)
    (hs : ∀ y : K, 0 ≤ y → ext.sqrt (y * y) = y)
    (hR : ext.universalGasConstant ≠ 0) (hN : ext.newton = newtonModel) :
    (Z (exampleCall ext 1)).val
      + epsilon (exampleCall ext 1) * (beta (exampleCall ext 1)).val = 1 := by
  rw [Z_val, ex_Zval ext hs hR hN, ex_eps]
  norm_num

/-- C4: with one species, composition `x = [1]`, any model, and `Z` an exact root of the
cubic at which `3*Z^2 + 2*A*Z + B`, `Z - beta`, `Z + sigma*beta` and `Z + epsilon*beta`
are non-zero, the value of `ln_fugacity_coefficients[0]` computed by the per-species
path is the value of `residual_molar_gibbs_energy / (R*T)`, which for `R*T` non-zero is
the pure-component expression `Z - 1 - log(Z - beta) - q*I`. -/
theorem C4_single_species_reduction (c : Call K 1) (hx : (c.x 0).val = 1)
    (hroot : (Z c).val ^ 3 + (A c).val * (Z c).val ^ 2 + (B c).val * (Z c).val
      + (C c).val = 0)
    (hD : 3 * (Z c).val ^ 2 + 2 * (A c).val * (Z c).val + (B c).val ≠ 0)
    (h1 : (Z c).val - (beta c).val ≠ 0)
    (h2 : (Z c).val + sigma c * (beta c).val ≠ 0)
    (h3 : (Z c).val + epsilon c * (beta c).val ≠ 0) :
    ((result c).ln_fugacity_coefficients 0).val
        = (result c).residual_molar_gibbs_energy.val / (R c * c.T.val)
    ∧ (R c * c.T.val ≠ 0 →
        ((result c).ln_fugacity_coefficients 0).val
          = (Z c).val - 1 - c.ext.log ((Z c).val - (beta c).val)
              - (q c).val * (I c).val) := by
  rw [result_eq]
  simp only [ChemicalScalar.val_div, ChemicalScalar.val_lift, ThermoScalar.tval_mul,
    ThermoScalar.tval_const, one_Gi_val c 0 hx hroot hD h1 h2 h3]
  refine ⟨trivial, fun hRT => ?_⟩
  simp only [G_res, ChemicalScalar.val_sub, ChemicalScalar.val_mul, ChemicalScalar.val_const,
    ChemicalScalar.val_lift, ChemicalScalar.val_log, ThermoScalar.tval_mul,
    ThermoScalar.tval_const]
  field_simp

/-- C4 at the example call (one species, van der Waals, `x = [1]`, real arithmetic):
the hypotheses hold there and the fugacity coefficient is the pure-component one. -/
theorem C4_single_species_reduction_witness :
    (((exampleCall
        (⟨8.3144621, Real.sqrt, Real.log, newtonModel⟩ : Externals ℝ) 1).x 0).val = 1
      ∧ (Z (exampleCall
        (⟨8.3144621, Real.sqrt, Real.log, newtonModel⟩ : Externals ℝ) 1)).val ^ 3 + (A (exampleCall
        (⟨8.3144621, Real.sqrt, Real.log, newtonModel⟩ : Externals ℝ) 1)).val * (Z (exampleCall
        (⟨8.3144621, Real.sqrt, Real.log, newtonModel⟩ : Externals ℝ) 1)).val ^ 2 + (B (exampleCall
        (⟨8.3144621, Real.sqrt, Real.log, newtonModel⟩ : Externals ℝ) 1)).val * (Z (exampleCall
        (⟨8.3144621, Real.sqrt, Real.log, newtonModel⟩ : Externals ℝ) 1)).val
          + (C (exampleCall
        (⟨8.3144621, Real.sqrt, Real.log, newtonModel⟩ : Externals ℝ) 1)).val = 0
      ∧ 3 * (Z (exampleCall
        (⟨8.3144621, Real.sqrt, Real.log, newtonModel⟩ : Externals ℝ) 1)).val ^ 2 + 2 * (A (exampleCall
        (⟨8.3144621, Real.sqrt, Real.log, newtonModel⟩ : Externals ℝ) 1)).val * (Z (exampleCall
        (⟨8.3144621, Real.sqrt, Real.log, newtonModel⟩ : Externals ℝ) 1)).val + (B (exampleCall
        (⟨8.3144621, Real.sqrt, Real.log, newtonModel⟩ : Externals ℝ) 1)).val ≠ 0
      ∧ (Z (exampleCall
        (⟨8.3144621, Real.sqrt, Real.log, newtonModel⟩ : Externals ℝ) 1)).val - (beta (exampleCall
        (⟨8.3144621, Real.sqrt, Real.log, newtonModel⟩ : Externals ℝ) 1)).val ≠ 0
      ∧ (Z (exampleCall
        (⟨8.3144621, Real.sqrt, Real.log, newtonModel⟩ : Externals ℝ) 1)).val + sigma (exampleCall
        (⟨8.3144621, Real.sqrt, Real.log, newtonModel⟩ : Externals ℝ) 1) * (beta (exampleCall
        (⟨8.3144621, Real.sqrt, Real.log, newtonModel⟩ : Externals ℝ) 1)).val ≠ 0
      ∧ (Z (exampleCall
        (⟨8.3144621, Real.sqrt, Real.log, newtonModel⟩ : Externals ℝ) 1)).val + epsilon (exampleCall
        (⟨8.3144621, Real.sqrt, Real.log, newtonModel⟩ : Externals ℝ) 1) * (beta (exampleCall
        (⟨8.3144621, Real.sqrt, Real.log, newtonModel⟩ : Externals ℝ) 1)).val ≠ 0
      ∧ R (exampleCall
        (⟨8.3144621, Real.sqrt, Real.log, newtonModel⟩ : Externals ℝ) 1) * (exampleCall
        (⟨8.3144621, Real.sqrt, Real.log, newtonModel⟩ : Externals ℝ) 1).T.val ≠ 0)
    ∧ ((result (exampleCall
        (⟨8.3144621, Real.sqrt, Real.log, newtonModel⟩ : Externals ℝ) 1)).ln_fugacity_coefficients 0).val
        = (Z (exampleCall
        (⟨8.3144621, Real.sqrt, Real.log, newtonModel⟩ : Externals ℝ) 1)).val - 1 - Real.log ((Z (exampleCall
        (⟨8.3144621, Real.sqrt, Real.log, newtonModel⟩ : Externals ℝ) 1)).val - (beta (exampleCall
        (⟨8.3144621, Real.sqrt, Real.log, newtonModel⟩ : Externals ℝ) 1)).val)
            - (q (exampleCall
        (⟨8.3144621, Real.sqrt, Real.log, newtonModel⟩ : Externals ℝ) 1)).val * (I (exampleCall
        (⟨8.3144621, Real.sqrt, Real.log, newtonModel⟩ : Externals ℝ) 1)).val :=
  have hx : ((exampleCall
        (⟨8.3144621, Real.sqrt, Real.log, newtonModel⟩ : Externals ℝ) 1).x 0).val = 1 := rfl
  have hroot := ex_root ⟨8.3144621, Real.sqrt, Real.log, newtonModel⟩ real_sqrt_mul_self real_R_ne_zero rfl
  have hD : 3 * (Z (exampleCall
        (⟨8.3144621, Real.sqrt, Real.log, newtonModel⟩ : Externals ℝ) 1)).val ^ 2 + 2 * (A (exampleCall
        (⟨8.3144621, Real.sqrt, Real.log, newtonModel⟩ : Externals ℝ) 1)).val * (Z (exampleCall
        (⟨8.3144621, Real.sqrt, Real.log, newtonModel⟩ : Externals ℝ) 1)).val + (B (exampleCall
        (⟨8.3144621, Real.sqrt, Real.log, newtonModel⟩ : Externals ℝ) 1)).val ≠ 0 := by
    rw [ex_grad ⟨8.3144621, Real.sqrt, Real.log, newtonModel⟩ real_sqrt_mul_self real_R_ne_zero rfl]
    exact one_ne_zero
  have h1 : (Z (exampleCall
        (⟨8.3144621, Real.sqrt, Real.log, newtonModel⟩ : Externals ℝ) 1)).val - (beta (exampleCall
        (⟨8.3144621, Real.sqrt, Real.log, newtonModel⟩ : Externals ℝ) 1)).val ≠ 0 := by
    rw [ex_Z_sub_beta ⟨8.3144621, Real.sqrt, Real.log, newtonModel⟩ real_sqrt_mul_self real_R_ne_zero rfl]
    norm_num
  have h2 : (Z (exampleCall
        (⟨8.3144621, Real.sqrt, Real.log, newtonModel⟩ : Externals ℝ) 1)).val + sigma (exampleCall
        (⟨8.3144621, Real.sqrt, Real.log, newtonModel⟩ : Externals ℝ) 1) * (beta (exampleCall
        (⟨8.3144621, Real.sqrt, Real.log, newtonModel⟩ : Externals ℝ) 1)).val ≠ 0 := by
    rw [ex_Z_add_sigma_beta ⟨8.3144621, Real.sqrt, Real.log, newtonModel⟩ real_sqrt_mul_self real_R_ne_zero rfl]
    exact one_ne_zero
  have h3 : (Z (exampleCall
        (⟨8.3144621, Real.sqrt, Real.log, newtonModel⟩ : Externals ℝ) 1)).val + epsilon (exampleCall
        (⟨8.3144621, Real.sqrt, Real.log, newtonModel⟩ : Externals ℝ) 1) * (beta (exampleCall
        (⟨8.3144621, Real.sqrt, Real.log, newtonModel⟩ : Externals ℝ) 1)).val ≠ 0 := by
    rw [ex_Z_add_epsilon_beta ⟨8.3144621, Real.sqrt, Real.log, newtonModel⟩ real_sqrt_mul_self real_R_ne_zero rfl]
    exact one_ne_zero
  have hRT : R (exampleCall
        (⟨8.3144621, Real.sqrt, Real.log, newtonModel⟩ : Externals ℝ) 1) * (exampleCall
        (⟨8.3144621, Real.sqrt, Real.log, newtonModel⟩ : Externals ℝ) 1).T.val ≠ 0 := by
    norm_num [R, exampleCall]
  ⟨⟨hx, hroot, hD, h1, h2, h3, hRT⟩,
    (C4_single_species_reduction (exampleCall
        (⟨8.3144621, Real.sqrt, Real.log, newtonModel⟩ : Externals ℝ) 1) hx hroot hD h1 h2 h3).2 hRT⟩

end CubicEOS

/-! ## C5: assembly of the cubic -/

namespace CubicEOS

open ChemicalScalar (const lift log)

variable {K : Type} [LinearOrderedField K] {n : Nat}

/-- C5: for every model and all inputs with `R*T` and `bmix` non-zero, `operator()`
computes `beta = P*bmix/(R*T)`, `q = amix/(bmix*R*T)`,
`A = (eps + sig - 1)*beta - 1`, `B = (eps*sig - eps - sig)*beta^2 - (eps + sig - q)*beta`
and `C = -eps*sig*beta^3 - (eps*sig + q)*beta^2` with `eps`, `sig` the constants of the
selected model, and the function handed to the root finder is the cubic
`Z^3 + A*Z^2 + B*Z + C` (with its gradient) built from the values of `A`, `B`, `C`. -/
theorem C5_cubic_coefficients (c : Call K n) (_hRT : R c * c.T.val ≠ 0)
    (_hb : (bmix c).val ≠ 0) :
    epsilon c = internal.epsilon c.self.model
    ∧ sigma c = internal.sigma c.self.model
    ∧ (beta c).val = c.P.val * (bmix c).val / (R c * c.T.val)
    ∧ (q c).val = (amix c).val / ((bmix c).val * R c * c.T.val)
    ∧ (A c).val = (epsilon c + sigma c - 1) * (beta c).val - 1
    ∧ (B c).val = (epsilon c * sigma c - epsilon c - sigma c) * (beta c).val ^ 2
        - (epsilon c + sigma c - (q c).val) * (beta c).val
    ∧ (C c).val = -epsilon c * sigma c * (beta c).val ^ 3
        - (epsilon c * sigma c + (q c).val) * (beta c).val ^ 2
    ∧ (Z c).val = c.ext.newton
        (fun z => (z ^ 3 + (A c).val * z ^ 2 + (B c).val * z + (C c).val,
                   3 * z ^ 2 + 2 * (A c).val * z + (B c).val))
        (Z0 c) tolerance maxiter := by
  refine ⟨rfl, rfl, ?_, ?_, ?_, ?_, ?_, ?_⟩
  · simp only [beta, ChemicalScalar.val_div, ChemicalScalar.val_mul, ChemicalScalar.val_lift,
      ThermoScalar.tval_mul, ThermoScalar.tval_const]
  · simp only [q, ChemicalScalar.val_div, ChemicalScalar.val_mul, ChemicalScalar.val_lift,
      ChemicalScalar.val_const]
  · simp only [A, ChemicalScalar.val_sub, ChemicalScalar.val_mul, ChemicalScalar.val_const]
  · simp only [B, ChemicalScalar.val_sub, ChemicalScalar.val_mul, ChemicalScalar.val_const]
    ring
  · simp only [C, ChemicalScalar.val_sub, ChemicalScalar.val_add, ChemicalScalar.val_mul,
      ChemicalScalar.val_const]
    ring
  · rw [Z_val, Zval]
    congr 1
    funext z
    simp only [f, Prod.mk.injEq]
    constructor <;> ring

/-- C5 at the example call (one species, van der Waals, real arithmetic): `R*T` and
`bmix` are non-zero there, and `beta` is `P*bmix/(R*T)`. -/
theorem C5_cubic_coefficients_witness :
    (R (exampleCall
        (⟨8.3144621, Real.sqrt, Real.log, newtonModel⟩ : Externals ℝ) 1) * (exampleCall
        (⟨8.3144621, Real.sqrt, Real.log, newtonModel⟩ : Externals ℝ) 1).T.val ≠ 0 ∧ (bmix (exampleCall
        (⟨8.3144621, Real.sqrt, Real.log, newtonModel⟩ : Externals ℝ) 1)).val ≠ 0)
    ∧ (beta (exampleCall
        (⟨8.3144621, Real.sqrt, Real.log, newtonModel⟩ : Externals ℝ) 1)).val = (exampleCall
        (⟨8.3144621, Real.sqrt, Real.log, newtonModel⟩ : Externals ℝ) 1).P.val * (bmix (exampleCall
        (⟨8.3144621, Real.sqrt, Real.log, newtonModel⟩ : Externals ℝ) 1)).val / (R (exampleCall
        (⟨8.3144621, Real.sqrt, Real.log, newtonModel⟩ : Externals ℝ) 1) * (exampleCall
        (⟨8.3144621, Real.sqrt, Real.log, newtonModel⟩ : Externals ℝ) 1).T.val) :=
  have hRT : R (exampleCall
        (⟨8.3144621, Real.sqrt, Real.log, newtonModel⟩ : Externals ℝ) 1) * (exampleCall
        (⟨8.3144621, Real.sqrt, Real.log, newtonModel⟩ : Externals ℝ) 1).T.val ≠ 0 := by
    norm_num [R, exampleCall]
  have hb : (bmix (exampleCall
        (⟨8.3144621, Real.sqrt, Real.log, newtonModel⟩ : Externals ℝ) 1)).val ≠ 0 := by
    rw [ex_bmix_val]
    norm_num
  ⟨⟨hRT, hb⟩, (C5_cubic_coefficients (exampleCall
        (⟨8.3144621, Real.sqrt, Real.log, newtonModel⟩ : Externals ℝ) 1) hRT hb).2.2.1⟩

end CubicEOS

/-! ## C6: the mixing rule for the attraction parameter -/

namespace ThermoScalar

variable {K : Type} [Field K]

omit [Field K] in
/-- Two `ThermoScalar`s with equal components are equal. -/
theorem text_components {u v : ThermoScalar K} (h1 : u.val = v.val) (h2 : u.ddt = v.ddt)
    (h3 : u.ddp = v.ddp) : u = v := by
  cases u; cases v
  simp only [mk.injEq]
  exact ⟨h1, h2, h3⟩

end ThermoScalar

namespace CubicEOS

open ChemicalScalar (const lift log)

variable {K : Type} [LinearOrderedField K] {n : Nat}

end CubicEOS

namespace CubicEOS

open ChemicalScalar (const lift log)

variable {K : Type} [LinearOrderedField K] {n : Nat}

/-- The value of `amixT` as a double sum of values. -/
theorem amixT_val_sum (c : Call K n) :
    (amixT c).val = ∑ i, ∑ j, (c.x i).val * (c.x j).val * (aijT c i j).val := by
  rw [amixT_eq_sum, ChemicalScalar.val_sum]
  simp [ChemicalScalar.val_sum]

end CubicEOS

/-! ## C7, C8: the degenerate model and the divisions by `sigma - epsilon` -/

namespace internal

variable {K : Type} [LinearOrderedField K]

/-- The constants `sigma` and `epsilon` coincide for van der Waals only. -/
theorem sigma_eq_epsilon_iff (m : Model) :
    (sigma m : K) = epsilon m ↔ m = Model.VanDerWaals := by
  cases m <;> simp only [sigma, epsilon] <;> norm_num <;> exact fun h => Model.noConfusion h

end internal

namespace CubicEOS

open ChemicalScalar (const lift log)

variable {K : Type} [LinearOrderedField K] {n : Nat}

/-- The test `epsilon != sigma` of lines 339, 343 and 380 fails for van der Waals only. -/
theorem epsilon_ne_sigma_iff (c : Call K n) :
    epsilon c ≠ sigma c ↔ c.self.model ≠ Model.VanDerWaals := by
  unfold epsilon sigma
  rw [ne_comm, Ne, internal.sigma_eq_epsilon_iff]

/-- C7: when the model is van der Waals (`sigma = epsilon = 0`), `operator()` computes
`I = beta/(Z + epsilon*beta)` together with the matching closed forms of `IT` and of
every `Ii`, none of which contains a logarithm; for Redlich-Kwong, Soave-Redlich-Kwong
and Peng-Robinson it computes `I = log((Z + sigma*beta)/(Z + epsilon*beta))/(sigma -
epsilon)` and the matching forms of `IT` and `Ii`. -/
theorem C7_model_degeneracy (c : Call K n) :
    ((internal.sigma Model.VanDerWaals : K) = 0
      ∧ (internal.epsilon Model.VanDerWaals : K) = 0)
    ∧ I c =
      (if c.self.model = Model.VanDerWaals then
        beta c / (Z c + const (epsilon c) * beta c)
      else
        log c.ext.log
            ((Z c + const (sigma c) * beta c) / (Z c + const (epsilon c) * beta c))
          / const (sigma c - epsilon c))
    ∧ IT c =
      (if c.self.model = Model.VanDerWaals then
        I c * (betaT c / beta c
          - (ZT c + const (epsilon c) * betaT c) / (Z c + const (epsilon c) * beta c))
      else
        ((ZT c + const (sigma c) * betaT c) / (Z c + const (sigma c) * beta c)
            - (ZT c + const (epsilon c) * betaT c) / (Z c + const (epsilon c) * beta c))
          / const (sigma c - epsilon c))
    ∧ ∀ i, Ii c i =
      (if c.self.model = Model.VanDerWaals then
        I c * (const 1 + lift (betai c i) / beta c
          - (Zi c i + lift (ThermoScalar.const (epsilon c) * betai c i))
              / (Z c + const (epsilon c) * beta c))
      else
        I c + ((Zi c i + lift (ThermoScalar.const (sigma c) * betai c i))
                  / (Z c + const (sigma c) * beta c)
                - (Zi c i + lift (ThermoScalar.const (epsilon c) * betai c i))
                  / (Z c + const (epsilon c) * beta c))
              / const (sigma c - epsilon c)) := by
  refine ⟨⟨by norm_num [internal.sigma], by norm_num [internal.epsilon]⟩, ?_, ?_, ?_⟩
  · unfold I
    by_cases hm : c.self.model = Model.VanDerWaals
    · rw [if_neg (by rw [epsilon_ne_sigma_iff]; exact not_not.mpr hm), if_pos hm]
    · rw [if_pos ((epsilon_ne_sigma_iff c).mpr hm), if_neg hm]
  · unfold IT
    by_cases hm : c.self.model = Model.VanDerWaals
    · rw [if_neg (by rw [epsilon_ne_sigma_iff]; exact not_not.mpr hm), if_pos hm]
    · rw [if_pos ((epsilon_ne_sigma_iff c).mpr hm), if_neg hm]
  · intro i
    unfold Ii
    by_cases hm : c.self.model = Model.VanDerWaals
    · rw [if_neg (by rw [epsilon_ne_sigma_iff]; exact not_not.mpr hm), if_pos hm]
    · rw [if_pos ((epsilon_ne_sigma_iff c).mpr hm), if_neg hm]

/-- C8: for every model, each division by `sigma - epsilon` in `operator()` (in `I`, in
`IT` and in every `Ii`) is executed only when `sigma - epsilon` is non-zero: the
expressions with the division checked never fail and give `I`, `IT`, `Ii`; and
`sigma = epsilon` holds for van der Waals and for no other model. -/
theorem C8_no_division_by_zero (c : Call K n) :
    I_checked c = some (I c)
    ∧ IT_checked c = some (IT c)
    ∧ (∀ i, Ii_checked c i = some (Ii c i))
    ∧ ∀ m : Model, (internal.sigma m : K) = internal.epsilon m ↔ m = Model.VanDerWaals := by
  have key : epsilon c ≠ sigma c → ¬ (sigma c - epsilon c = 0) := by
    intro h h0
    exact h (sub_eq_zero.mp h0).symm
  refine ⟨?_, ?_, ?_, internal.sigma_eq_epsilon_iff⟩
  · unfold I_checked I divChecked
    by_cases h : epsilon c ≠ sigma c
    · rw [if_pos h, if_pos h, if_neg (key h)]
    · rw [if_neg h, if_neg h]
  · unfold IT_checked IT divChecked
    by_cases h : epsilon c ≠ sigma c
    · rw [if_pos h, if_pos h, if_neg (key h)]
    · rw [if_neg h, if_neg h]
  · intro i
    unfold Ii_checked Ii divChecked
    by_cases h : epsilon c ≠ sigma c
    · rw [if_pos h, if_pos h, if_neg (key h)]
      rfl
    · rw [if_neg h, if_neg h]

end CubicEOS

/-! ## C9: the alpha function of van der Waals -/

namespace internal

variable {K : Type} [LinearOrderedField K]

/-- The alpha function of van der Waals is constant. -/
theorem alpha_van_der_waals (sq : K → K) (Tr : ThermoScalar K) (omega : K) :
    alpha sq Model.VanDerWaals Tr omega = (⟨1, 0, 0⟩, ⟨0, 0, 0⟩, ⟨0, 0, 0⟩) := by
  simp only [alpha, alphaVDW, ThermoScalar.const]
  norm_num

/-- C9: for the van der Waals model the alpha function returns exactly
`(alpha, alphaT, alphaTT) = (1, 0, 0)`, each with zero temperature and pressure
derivative components, for every reduced temperature (whatever its value and its
derivative components) and every acentric factor. -/
theorem C9_alpha_van_der_waals (sq : K → K) (Tr : ThermoScalar K) (omega : K) :
    alpha sq Model.VanDerWaals Tr omega = (⟨1, 0, 0⟩, ⟨0, 0, 0⟩, ⟨0, 0, 0⟩) :=
  alpha_van_der_waals sq Tr omega

end internal

/-! ## C10: the alpha function returns its own temperature derivatives -/

namespace internal

open ThermoScalar

/-- The derivative of the square root of the reduced temperature with respect to the
temperature. -/
theorem sqrtTr_hasDerivAt (Tc t : ℝ) (hTc : 0 < Tc) (ht : 0 < t) :
    HasDerivAt (fun t : ℝ => Real.sqrt (t / Tc)) (1 / (2 * Tc * Real.sqrt (t / Tc))) t := by
  have h1 : HasDerivAt (fun t : ℝ => t / Tc) (1 / Tc) t := (hasDerivAt_id t).div_const Tc
  have h2 := h1.sqrt (div_pos ht hTc).ne'
  convert h2 using 1
  have hs : Real.sqrt (t / Tc) ≠ 0 := (Real.sqrt_pos.mpr (div_pos ht hTc)).ne'
  have hTc' := hTc.ne'
  generalize Real.sqrt (t / Tc) = s at hs ⊢
  field_simp
  ring

/-- The value of the Redlich-Kwong alpha. -/
theorem alphaRK_val (Tc omega t p : ℝ) :
    (alphaRK Real.sqrt (⟨t, 1, p⟩ / const Tc) omega).1.val = (Real.sqrt (t / Tc))⁻¹ := by
  simp only [alphaRK, tval_div, tval_const, tval_sqrt]
  norm_num

/-- The value of the second component returned by the Redlich-Kwong alpha function. -/
theorem alphaRK_ddt_val (Tc omega t p : ℝ) (hTc : 0 < Tc) :
    (alphaRK Real.sqrt (⟨t, 1, p⟩ / const Tc) omega).2.1.val
      = -(1 / 2) / (t / Tc) * (Real.sqrt (t / Tc))⁻¹ * (1 / Tc) := by
  simp only [alphaRK, tval_div, tval_mul, tval_const, tval_sqrt, tddt_div, tddt_const]
  have := hTc.ne'
  field_simp
  ring

/-- The value of the third component returned by the Redlich-Kwong alpha function. -/
theorem alphaRK_d2_val (Tc omega t p : ℝ) (hTc : 0 < Tc) :
    (alphaRK Real.sqrt (⟨t, 1, p⟩ / const Tc) omega).2.2.val
      = 3 / 4 / ((t / Tc) * (t / Tc)) * (Real.sqrt (t / Tc))⁻¹ * (1 / Tc) * (1 / Tc) := by
  simp only [alphaRK, tval_div, tval_mul, tval_sub, tval_const, tval_sqrt, tddt_div, tddt_const]
  have := hTc.ne'
  by_cases ht : t = 0
  · subst ht
    simp
  generalize Real.sqrt (t / Tc) = s
  by_cases hs : s = 0
  · subst hs
    simp
  field_simp
  ring


/-- The temperature derivative of the Redlich-Kwong alpha. -/
theorem rk_hasDerivAt (Tc t : ℝ) (hTc : 0 < Tc) (ht : 0 < t) :
    HasDerivAt (fun t : ℝ => (Real.sqrt (t / Tc))⁻¹)
      (-(1 / 2) / (t / Tc) * (Real.sqrt (t / Tc))⁻¹ * (1 / Tc)) t := by
  have hs : Real.sqrt (t / Tc) ≠ 0 := (Real.sqrt_pos.mpr (div_pos ht hTc)).ne'
  have hw : t / Tc = Real.sqrt (t / Tc) * Real.sqrt (t / Tc) :=
    (Real.mul_self_sqrt (div_pos ht hTc).le).symm
  have h := (sqrtTr_hasDerivAt Tc t hTc ht).inv hs
  convert h using 1
  have hTc' := hTc.ne'
  generalize Real.sqrt (t / Tc) = s at hs hw ⊢
  rw [hw]
  field_simp
  ring

/-- The temperature derivative of the second component of the Redlich-Kwong alpha
function. -/
theorem rk_ddt_hasDerivAt (Tc t : ℝ) (hTc : 0 < Tc) (ht : 0 < t) :
    HasDerivAt (fun t : ℝ => -(1 / 2) / (t / Tc) * (Real.sqrt (t / Tc))⁻¹ * (1 / Tc))
      (3 / 4 / ((t / Tc) * (t / Tc)) * (Real.sqrt (t / Tc))⁻¹ * (1 / Tc) * (1 / Tc)) t := by
  have hs : Real.sqrt (t / Tc) ≠ 0 := (Real.sqrt_pos.mpr (div_pos ht hTc)).ne'
  have hw : t / Tc = Real.sqrt (t / Tc) * Real.sqrt (t / Tc) :=
    (Real.mul_self_sqrt (div_pos ht hTc).le).symm
  have hne : t / Tc ≠ 0 := (div_pos ht hTc).ne'
  have h1 : HasDerivAt (fun t : ℝ => t / Tc) (1 / Tc) t := (hasDerivAt_id t).div_const Tc
  have hA := (hasDerivAt_const t (-(1 / 2) : ℝ)).div h1 hne
  have hB := rk_hasDerivAt Tc t hTc ht
  have h := (hA.mul hB).mul_const (1 / Tc)
  convert h using 1
  have hTc' := hTc.ne'
  generalize Real.sqrt (t / Tc) = s at hs hw ⊢
  rw [hw]
  field_simp
  ring


/-- The temperature derivative of an alpha of the Soave form with parameter `m`. -/
theorem soave_hasDerivAt (m Tc t : ℝ) (hTc : 0 < Tc) (ht : 0 < t) :
    HasDerivAt
      (fun t : ℝ => (1 + m * (1 - Real.sqrt (t / Tc))) * (1 + m * (1 - Real.sqrt (t / Tc))))
      (2 * (1 + m * (1 - Real.sqrt (t / Tc))) * (-(1 / 2) * m / Real.sqrt (t / Tc))
        * (1 / Tc)) t := by
  have hs : Real.sqrt (t / Tc) ≠ 0 := (Real.sqrt_pos.mpr (div_pos ht hTc)).ne'
  have hu := sqrtTr_hasDerivAt Tc t hTc ht
  have haux := ((hu.const_sub 1).const_mul m).const_add 1
  have h := haux.mul haux
  convert h using 1
  have hTc' := hTc.ne'
  generalize Real.sqrt (t / Tc) = s at hs ⊢
  field_simp
  ring

/-- The temperature derivative of the second component of an alpha function of the
Soave form with parameter `m`. -/
theorem soave_ddt_hasDerivAt (m Tc t : ℝ) (hTc : 0 < Tc) (ht : 0 < t) :
    HasDerivAt
      (fun t : ℝ => 2 * (1 + m * (1 - Real.sqrt (t / Tc)))
        * (-(1 / 2) * m / Real.sqrt (t / Tc)) * (1 / Tc))
      (2 * ((-(1 / 2) * m / Real.sqrt (t / Tc)) * (-(1 / 2) * m / Real.sqrt (t / Tc))
          + (1 + m * (1 - Real.sqrt (t / Tc)))
            * (1 / 4 * m / (t / Tc * Real.sqrt (t / Tc))))
        * (1 / Tc) * (1 / Tc)) t := by
  have hs : Real.sqrt (t / Tc) ≠ 0 := (Real.sqrt_pos.mpr (div_pos ht hTc)).ne'
  have hw : t / Tc = Real.sqrt (t / Tc) * Real.sqrt (t / Tc) :=
    (Real.mul_self_sqrt (div_pos ht hTc).le).symm
  have hu := sqrtTr_hasDerivAt Tc t hTc ht
  have haux := ((hu.const_sub 1).const_mul m).const_add 1
  have hq := (hasDerivAt_const t (-(1 / 2) * m : ℝ)).div hu hs
  have h := ((haux.const_mul 2).mul hq).mul_const (1 / Tc)
  convert h using 1
  have hTc' := hTc.ne'
  generalize Real.sqrt (t / Tc) = s at hs hw ⊢
  rw [hw]
  field_simp
  ring

/-- The values of the three components returned by the Soave-Redlich-Kwong alpha
function. -/
theorem alphaSRK_form (Tc omega t p m : ℝ) (hTc : 0 < Tc)
    (hm : m = 0.480 + 1.574 * omega - 0.176 * omega * omega) :
    (alphaSRK Real.sqrt (⟨t, 1, p⟩ / const Tc) omega).1.val
        = (1 + m * (1 - Real.sqrt (t / Tc))) * (1 + m * (1 - Real.sqrt (t / Tc)))
    ∧ (alphaSRK Real.sqrt (⟨t, 1, p⟩ / const Tc) omega).2.1.val
        = 2 * (1 + m * (1 - Real.sqrt (t / Tc))) * (-(1 / 2) * m / Real.sqrt (t / Tc))
          * (1 / Tc)
    ∧ (alphaSRK Real.sqrt (⟨t, 1, p⟩ / const Tc) omega).2.2.val
        = 2 * ((-(1 / 2) * m / Real.sqrt (t / Tc)) * (-(1 / 2) * m / Real.sqrt (t / Tc))
            + (1 + m * (1 - Real.sqrt (t / Tc)))
              * (1 / 4 * m / (t / Tc * Real.sqrt (t / Tc))))
          * (1 / Tc) * (1 / Tc) := by
  have hTc' := hTc.ne'
  simp only [alphaSRK, tval_div, tval_mul, tval_sub, tval_add, tval_const, tval_sqrt,
    tddt_div, tddt_const, ← hm]
  generalize Real.sqrt (t / Tc) = s
  refine ⟨by norm_num, ?_, ?_⟩
  · norm_num
  · norm_num
    field_simp


/-- The values of the three components returned by the Peng-Robinson alpha function. -/
theorem alphaPR_form (Tc omega t p m : ℝ) (hTc : 0 < Tc)
    (hm : m = if omega ≤ 0.491 then
        0.374640 + 1.54226 * omega - 0.269920 * omega * omega
      else
        0.379642 + 1.48503 * omega - 0.164423 * omega * omega
          + 0.016666 * omega * omega * omega) :
    (alphaPR Real.sqrt (⟨t, 1, p⟩ / const Tc) omega).1.val
        = (1 + m * (1 - Real.sqrt (t / Tc))) * (1 + m * (1 - Real.sqrt (t / Tc)))
    ∧ (alphaPR Real.sqrt (⟨t, 1, p⟩ / const Tc) omega).2.1.val
        = 2 * (1 + m * (1 - Real.sqrt (t / Tc))) * (-(1 / 2) * m / Real.sqrt (t / Tc))
          * (1 / Tc)
    ∧ (alphaPR Real.sqrt (⟨t, 1, p⟩ / const Tc) omega).2.2.val
        = 2 * ((-(1 / 2) * m / Real.sqrt (t / Tc)) * (-(1 / 2) * m / Real.sqrt (t / Tc))
            + (1 + m * (1 - Real.sqrt (t / Tc)))
              * (1 / 4 * m / (t / Tc * Real.sqrt (t / Tc))))
          * (1 / Tc) * (1 / Tc) := by
  have hTc' := hTc.ne'
  simp only [alphaPR, tval_div, tval_mul, tval_sub, tval_add, tval_const, tval_sqrt,
    tddt_div, tddt_const, ← hm]
  generalize Real.sqrt (t / Tc) = s
  refine ⟨by norm_num, ?_, ?_⟩
  · norm_num
  · norm_num
    field_simp

/-- First and second derivative of a function whose derivative is known on the positive
half-line. -/
theorem deriv_pair (g g1 : ℝ → ℝ) (d2 T : ℝ) (hT : 0 < T)
    (hg : ∀ t, 0 < t → HasDerivAt g (g1 t) t) (hg1 : HasDerivAt g1 d2 T) :
    deriv g T = g1 T ∧ deriv (deriv g) T = d2 := by
  refine ⟨(hg T hT).deriv, ?_⟩
  have hev : deriv g =ᶠ[nhds T] g1 := by
    filter_upwards [lt_mem_nhds hT] with t ht
    exact (hg t ht).deriv
  rw [hev.deriv_eq]
  exact hg1.deriv

/-- C10: the second and third components returned by the alpha function are the first
and second temperature derivatives of its first component: for every model (in
particular Redlich-Kwong, Soave-Redlich-Kwong and Peng-Robinson), every critical
temperature `Tc > 0`, every acentric factor and every `T > 0` supplied as the
independent variable (`T.ddt = 1`) with `Tr = T/Tc`, the value of the returned `ddt` is
the derivative in `T` of the value of `alpha(T/Tc, omega)`, and the value of the returned
`d2dt2` is its second derivative. -/
theorem C10_alpha_derivatives (m : Model) (Tc omega T p : ℝ) (hTc : 0 < Tc) (hT : 0 < T) :
    deriv (fun t : ℝ => (alpha Real.sqrt m (⟨t, 1, p⟩ / const Tc) omega).1.val) T
      = (alpha Real.sqrt m (⟨T, 1, p⟩ / const Tc) omega).2.1.val
    ∧ deriv (deriv fun t : ℝ => (alpha Real.sqrt m (⟨t, 1, p⟩ / const Tc) omega).1.val) T
      = (alpha Real.sqrt m (⟨T, 1, p⟩ / const Tc) omega).2.2.val := by
  cases m with
  | VanDerWaals =>
    have h := deriv_pair
      (fun t : ℝ => (alpha Real.sqrt Model.VanDerWaals (⟨t, 1, p⟩ / const Tc) omega).1.val)
      (fun t : ℝ => (alpha Real.sqrt Model.VanDerWaals (⟨t, 1, p⟩ / const Tc) omega).2.1.val)
      (alpha Real.sqrt Model.VanDerWaals (⟨T, 1, p⟩ / const Tc) omega).2.2.val T hT
      (fun t _ => by
        simp only [alpha_van_der_waals]
        exact hasDerivAt_const t 1)
      (by
        simp only [alpha_van_der_waals]
        exact hasDerivAt_const T 0)
    exact h
  | RedlichKwong =>
    have h := deriv_pair
      (fun t : ℝ => (alpha Real.sqrt Model.RedlichKwong (⟨t, 1, p⟩ / const Tc) omega).1.val)
      (fun t : ℝ => (alpha Real.sqrt Model.RedlichKwong (⟨t, 1, p⟩ / const Tc) omega).2.1.val)
      (alpha Real.sqrt Model.RedlichKwong (⟨T, 1, p⟩ / const Tc) omega).2.2.val T hT
      (fun t ht => by
        simp only [alpha, alphaRK_val, alphaRK_ddt_val _ _ _ _ hTc]
        exact rk_hasDerivAt Tc t hTc ht)
      (by
        simp only [alpha, alphaRK_ddt_val _ _ _ _ hTc, alphaRK_d2_val _ _ _ _ hTc]
        exact rk_ddt_hasDerivAt Tc T hTc hT)
    exact h
  | SoaveRedlichKwong =>
    have hf := fun t => alphaSRK_form Tc omega t p _ hTc rfl
    have h := deriv_pair
      (fun t : ℝ =>
        (alpha Real.sqrt Model.SoaveRedlichKwong (⟨t, 1, p⟩ / const Tc) omega).1.val)
      (fun t : ℝ =>
        (alpha Real.sqrt Model.SoaveRedlichKwong (⟨t, 1, p⟩ / const Tc) omega).2.1.val)
      (alpha Real.sqrt Model.SoaveRedlichKwong (⟨T, 1, p⟩ / const Tc) omega).2.2.val T hT
      (fun t ht => by
        simp only [alpha, (hf _).1, (hf _).2.1]
        exact soave_hasDerivAt _ Tc t hTc ht)
      (by
        simp only [alpha, (hf _).2.1, (hf _).2.2]
        exact soave_ddt_hasDerivAt _ Tc T hTc hT)
    exact h
  | PengRobinson =>
    have hf := fun t => alphaPR_form Tc omega t p _ hTc rfl
    have h := deriv_pair
      (fun t : ℝ =>
        (alpha Real.sqrt Model.PengRobinson (⟨t, 1, p⟩ / const Tc) omega).1.val)
      (fun t : ℝ =>
        (alpha Real.sqrt Model.PengRobinson (⟨t, 1, p⟩ / const Tc) omega).2.1.val)
      (alpha Real.sqrt Model.PengRobinson (⟨T, 1, p⟩ / const Tc) omega).2.2.val T hT
      (fun t ht => by
        simp only [alpha, (hf _).1, (hf _).2.1]
        exact soave_hasDerivAt _ Tc t hTc ht)
      (by
        simp only [alpha, (hf _).2.1, (hf _).2.2]
        exact soave_ddt_hasDerivAt _ Tc T hTc hT)
    exact h

/-- C10 at the Peng-Robinson model with the critical temperature and acentric factor of
methane, at 298.15 K. -/
theorem C10_alpha_derivatives_witness :
    ((0 : ℝ) < 190.6 ∧ (0 : ℝ) < 298.15)
    ∧ deriv (fun t : ℝ =>
          (alpha Real.sqrt Model.PengRobinson (⟨t, 1, 0⟩ / const 190.6) 0.008).1.val) 298.15
        = (alpha Real.sqrt Model.PengRobinson (⟨298.15, 1, 0⟩ / const 190.6) 0.008).2.1.val :=
  ⟨⟨by norm_num, by norm_num⟩,
    (C10_alpha_derivatives Model.PengRobinson 190.6 0.008 298.15 0 (by norm_num)
      (by norm_num)).1⟩

end internal

/-! ## C11: the alpha value of the Soave and Peng-Robinson models -/

namespace internal

open ThermoScalar Polynomial

variable {K : Type} [LinearOrderedField K]

/-- The value of the first component returned by `alphaSRK`. -/
theorem alphaSRK_value (sq : K → K) (Tr : ThermoScalar K) (omega : K) :
    (alphaSRK sq Tr omega).1.val = (1 + mSRK omega * (1 - sq Tr.val)) ^ 2 := by
  simp only [alphaSRK, mSRK, tval_mul, tval_add, tval_sub, tval_const, tval_sqrt]
  norm_num
  ring

/-- The value of the first component returned by `alphaPR`. -/
theorem alphaPR_value (sq : K → K) (Tr : ThermoScalar K) (omega : K) :
    (alphaPR sq Tr omega).1.val = (1 + mPR omega * (1 - sq Tr.val)) ^ 2 := by
  simp only [alphaPR, mPR, tval_mul, tval_add, tval_sub, tval_const, tval_sqrt]
  norm_num
  ring

/-- The first branch of `m` in `alphaPR` as the value of a polynomial. -/
theorem mPR_low_poly (omega : K) :
    (0.374640 + 1.54226 * omega - 0.269920 * omega * omega : K)
      = (C (-0.269920 : K) * X ^ 2 + C 1.54226 * X + C 0.374640).eval omega := by
  simp only [eval_add, eval_mul, eval_pow, eval_C, eval_X]
  ring

/-- The second branch of `m` in `alphaPR` as the value of a polynomial. -/
theorem mPR_high_poly (omega : K) :
    (0.379642 + 1.48503 * omega - 0.164423 * omega * omega
        + 0.016666 * omega * omega * omega : K)
      = (C (0.016666 : K) * X ^ 3 + C (-0.164423) * X ^ 2 + C 1.48503 * X
          + C 0.379642).eval omega := by
  simp only [eval_add, eval_mul, eval_pow, eval_C, eval_X]
  ring

/-- The polynomial of the first branch has degree two. -/
theorem mPR_low_natDegree :
    (C (-0.269920 : K) * X ^ 2 + C 1.54226 * X + C 0.374640).natDegree = 2 :=
  natDegree_quadratic (by norm_num)

/-- The polynomial of the second branch has degree three. -/
theorem mPR_high_natDegree :
    (C (0.016666 : K) * X ^ 3 + C (-0.164423) * X ^ 2 + C 1.48503 * X
          + C 0.379642).natDegree = 3 :=
  natDegree_cubic (by norm_num)

/-- C11.  For every `Tr > 0` and `omega`, the first component returned by the alpha
function has the value `(1 + m*(1 - sqrt(Tr)))^2`, where for Soave-Redlich-Kwong
`m = 0.480 + 1.574*omega - 0.176*omega^2`, and for Peng-Robinson `m` is selected by the
branch `omega <= 0.491` between the values of two polynomials in `omega`,
`0.374640 + 1.54226*omega - 0.269920*omega^2` on the branch `omega <= 0.491` and
`0.379642 + 1.48503*omega - 0.164423*omega^2 + 0.016666*omega^3` otherwise; both are
cubic polynomials, that is of degree at most three (the first has a zero coefficient of
`omega^3`). -/
theorem C11_alpha_value (sq : K → K) (Tr : ThermoScalar K) (omega : K)
    (_hTr : 0 < Tr.val) :
    (alpha sq Model.SoaveRedlichKwong Tr omega).1.val
        = (1 + mSRK omega * (1 - sq Tr.val)) ^ 2
    ∧ mSRK omega = 0.480 + 1.574 * omega - 0.176 * omega ^ 2
    ∧ (alpha sq Model.PengRobinson Tr omega).1.val
        = (1 + mPR omega * (1 - sq Tr.val)) ^ 2
    ∧ mPR omega =
        (if omega ≤ 0.491 then 0.374640 + 1.54226 * omega - 0.269920 * omega ^ 2
        else 0.379642 + 1.48503 * omega - 0.164423 * omega ^ 2 + 0.016666 * omega ^ 3)
    ∧ mPR omega =
        (if omega ≤ 0.491 then
          (C (-0.269920 : K) * X ^ 2 + C 1.54226 * X + C 0.374640).eval omega
        else
          (C (0.016666 : K) * X ^ 3 + C (-0.164423) * X ^ 2 + C 1.48503 * X
            + C 0.379642).eval omega)
    ∧ (C (-0.269920 : K) * X ^ 2 + C 1.54226 * X + C 0.374640).natDegree ≤ 3
    ∧ (C (0.016666 : K) * X ^ 3 + C (-0.164423) * X ^ 2 + C 1.48503 * X
          + C 0.379642).natDegree ≤ 3 := by
  refine ⟨alphaSRK_value sq Tr omega, ?_, alphaPR_value sq Tr omega, ?_, ?_, ?_, ?_⟩
  · unfold mSRK
    ring
  · unfold mPR
    split
    · ring
    · ring
  · rw [← mPR_low_poly, ← mPR_high_poly]
    rfl
  · rw [mPR_low_natDegree]
    decide
  · rw [mPR_high_natDegree]

/-- C11 at reduced temperature 2 and the acentric factor of methane, with the real
square root. -/
theorem C11_alpha_value_witness :
    (0 : ℝ) < (⟨2, 0, 0⟩ : ThermoScalar ℝ).val
    ∧ (alpha Real.sqrt Model.PengRobinson ⟨2, 0, 0⟩ 0.008).1.val
        = (1 + mPR 0.008 * (1 - Real.sqrt 2)) ^ 2 :=
  ⟨by norm_num, (C11_alpha_value Real.sqrt ⟨2, 0, 0⟩ 0.008 (by norm_num)).2.2.1⟩

end internal

/-! ## C12, C13, C14: the setters of the species data -/

/-- A positive lower bound of a folded minimum bounds the start and every entry. -/
theorem lt_foldl_min {K : Type} [LinearOrder K] (c : K) (vs : List K) (v : K) :
    c < vs.foldl min v ↔ c < v ∧ ∀ w ∈ vs, c < w := by
  induction vs generalizing v with
  | nil => simp
  | cons a l ih =>
    rw [List.foldl_cons, ih, lt_min_iff]
    simp only [List.mem_cons, forall_eq_or_imp]
    tauto

/-- The smallest entry of a non-empty vector is positive when all entries are. -/
theorem minOfVector_pos_iff {K : Type} [LinearOrderedField K] (values : List K)
    (hne : values ≠ []) : 0 < minOfVector values ↔ ∀ v ∈ values, 0 < v := by
  cases values with
  | nil => exact absurd rfl hne
  | cons v vs =>
    simp only [minOfVector, lt_foldl_min, List.mem_cons, forall_eq_or_imp]

/-- A text that contains a one-character text contains the character. -/
theorem mem_of_containsText (msg : String) (ch : Char)
    (h : containsText msg (String.singleton ch)) : ch ∈ msg.data := by
  obtain ⟨pre, post, h⟩ := h
  rw [h]
  simp [String.data_append, String.singleton]

/-- The reason given for a length mismatch contains both counts. -/
theorem length_ne_reason (k m : Nat) (tail : String) :
    containsText ("Expecting " ++ toString k ++ " values, but only " ++ toString m ++ tail)
        (toString k)
    ∧ containsText
        ("Expecting " ++ toString k ++ " values, but only " ++ toString m ++ tail)
        (toString m) := by
  refine ⟨⟨"Expecting ", " values, but only " ++ toString m ++ tail, ?_⟩,
    ⟨"Expecting " ++ toString k ++ " values, but only ", tail, ?_⟩⟩
  · simp only [String.append_assoc]
  · simp only [String.append_assoc]

/-- The outcome of a setter that is one of three cases. -/
theorem setter_cases {σ : Type} (out : Except Exception Unit × σ) (self upd : σ)
    (e1 e2 : Exception) (p q : Prop) [Decidable p] [Decidable q]
    (h : out = if p then (if q then (Except.ok (), upd) else (Except.error e1, self))
      else (Except.error e2, self)) :
    ((∃ e, out.1 = Except.error e) ↔ (¬ p ∨ ¬ q))
    ∧ (out.1 = Except.ok () → out.2 = upd)
    ∧ ((∃ e, out.1 = Except.error e) → out.2 = self) := by
  subst h
  by_cases hp : p
  · by_cases hq : q
    · simp [hp, hq]
    · simp [hp, hq]
  · simp [hp]

namespace CubicEOS

variable {K : Type} [LinearOrderedField K] {n : Nat}

/-- The method `setCriticalTemperatures` on an instance with at least one species, case
by case. -/
theorem setCriticalTemperatures_eq (self : Impl K n) (values : List K) (hn : 1 ≤ n) :
    setCriticalTemperatures self values =
      if values.length = n then
        if ∀ v ∈ values, 0 < v then
          (Except.ok (), { self with critical_temperatures := values })
        else
          (Except.error
            ⟨"Cannot set the critical temperatures of the species in the CubicEOS object.",
             "Expecting non-zero critical temperatures of the gases."⟩, self)
      else
        (Except.error
          ⟨"Cannot set the critical temperatures of the species in the CubicEOS object.",
           "Expecting " ++ toString n ++ " values, but only "
              ++ toString values.length ++ " were given."⟩, self) := by
  unfold setCriticalTemperatures Assert numSpecies Impl.nspecies
  by_cases h : values.length = n
  · have hne : values ≠ [] := by
      intro h0
      rw [h0] at h
      simp at h
      omega
    by_cases hp : ∀ v ∈ values, 0 < v
    · have hm : minOfVector values > 0 := (minOfVector_pos_iff values hne).mpr hp
      rw [if_pos h, if_pos hp]
      simp [h, hm]
    · have hm : ¬ minOfVector values > 0 := fun hm =>
        hp ((minOfVector_pos_iff values hne).mp hm)
      rw [if_pos h, if_neg hp]
      simp [h, hm]
  · rw [if_neg h]
    simp [h]

/-- The method `setCriticalPressures` on an instance with at least one species, case by
case. -/
theorem setCriticalPressures_eq (self : Impl K n) (values : List K) (hn : 1 ≤ n) :
    setCriticalPressures self values =
      if values.length = n then
        if ∀ v ∈ values, 0 < v then
          (Except.ok (), { self with critical_pressures := values })
        else
          (Except.error
            ⟨"Cannot set the critical pressures of the species in the CubicEOS object.",
             "Expecting non-zero critical pressures of the gases."⟩, self)
      else
        (Except.error
          ⟨"Cannot set the critical pressures of the species in the CubicEOS object.",
           "Expecting " ++ toString n ++ " values, but only "
              ++ toString values.length ++ " were given."⟩, self) := by
  unfold setCriticalPressures Assert numSpecies Impl.nspecies
  by_cases h : values.length = n
  · have hne : values ≠ [] := by
      intro h0
      rw [h0] at h
      simp at h
      omega
    by_cases hp : ∀ v ∈ values, 0 < v
    · have hm : minOfVector values > 0 := (minOfVector_pos_iff values hne).mpr hp
      rw [if_pos h, if_pos hp]
      simp [h, hm]
    · have hm : ¬ minOfVector values > 0 := fun hm =>
        hp ((minOfVector_pos_iff values hne).mp hm)
      rw [if_pos h, if_neg hp]
      simp [h, hm]
  · rw [if_neg h]
    simp [h]

omit [LinearOrderedField K] in
/-- The method `setAcentricFactors`, case by case. -/
theorem setAcentricFactors_eq (self : Impl K n) (values : List K) :
    setAcentricFactors self values =
      if values.length = n then
        (Except.ok (), { self with acentric_factors := values })
      else
        (Except.error
          ⟨"Cannot set the acentric factors of the species in CubicEOS.",
           "Expecting " ++ toString n ++ " values, but only "
              ++ toString values.length ++ " values were given."⟩, self) := by
  unfold setAcentricFactors Assert numSpecies Impl.nspecies
  by_cases h : values.length = n
  · simp [h]
  · simp [h]

/-- The exception of `setCriticalTemperatures` for a length mismatch. -/
theorem setCriticalTemperatures_length_ne (self : Impl K n) (values : List K)
    (h : values.length ≠ n) :
    (setCriticalTemperatures self values).1 = Except.error
      ⟨"Cannot set the critical temperatures of the species in the CubicEOS object.",
       "Expecting " ++ toString n ++ " values, but only "
          ++ toString values.length ++ " were given."⟩ := by
  unfold setCriticalTemperatures Assert numSpecies Impl.nspecies
  simp [h]

/-- The exception of `setCriticalPressures` for a length mismatch. -/
theorem setCriticalPressures_length_ne (self : Impl K n) (values : List K)
    (h : values.length ≠ n) :
    (setCriticalPressures self values).1 = Except.error
      ⟨"Cannot set the critical pressures of the species in the CubicEOS object.",
       "Expecting " ++ toString n ++ " values, but only "
          ++ toString values.length ++ " were given."⟩ := by
  unfold setCriticalPressures Assert numSpecies Impl.nspecies
  simp [h]

/-- C12: on an instance with at least one species, each of `setCriticalTemperatures` and
`setCriticalPressures` raises a validation error if and only if the length of `values`
differs from `nspecies` or some entry of `values` is not strictly positive; on success
the corresponding stored list is `values` and no other field changes; on failure the
instance is unchanged. -/
theorem C12_critical_setters (self : Impl K n) (values : List K) (hn : 1 ≤ n) :
    (((∃ e, (setCriticalTemperatures self values).1 = Except.error e)
        ↔ (values.length ≠ n ∨ ∃ v ∈ values, v ≤ 0))
      ∧ ((setCriticalTemperatures self values).1 = Except.ok () →
          (setCriticalTemperatures self values).2
            = { self with critical_temperatures := values })
      ∧ ((∃ e, (setCriticalTemperatures self values).1 = Except.error e) →
          (setCriticalTemperatures self values).2 = self))
    ∧ (((∃ e, (setCriticalPressures self values).1 = Except.error e)
        ↔ (values.length ≠ n ∨ ∃ v ∈ values, v ≤ 0))
      ∧ ((setCriticalPressures self values).1 = Except.ok () →
          (setCriticalPressures self values).2
            = { self with critical_pressures := values })
      ∧ ((∃ e, (setCriticalPressures self values).1 = Except.error e) →
          (setCriticalPressures self values).2 = self)) := by
  have hq : (¬ ∀ v ∈ values, 0 < v) ↔ ∃ v ∈ values, v ≤ 0 := by
    simp only [not_forall, not_lt, exists_prop]
  have ht := setter_cases _ _ _ _ _ _ _ (setCriticalTemperatures_eq self values hn)
  have hp := setter_cases _ _ _ _ _ _ _ (setCriticalPressures_eq self values hn)
  rw [hq] at ht hp
  exact ⟨ht, hp⟩

/-- C12 on a freshly constructed one-species instance and the critical temperature of
methane. -/
theorem C12_critical_setters_witness :
    1 ≤ 1
    ∧ ((∃ e, (setCriticalTemperatures (construct : Impl ℚ 1) [190.6]).1 = Except.error e)
        ↔ (([190.6] : List ℚ).length ≠ 1 ∨ ∃ v ∈ ([190.6] : List ℚ), v ≤ 0)) :=
  ⟨le_refl 1, (C12_critical_setters construct [190.6] (le_refl 1)).1.1⟩

/-- C13: `setAcentricFactors` raises a validation error if and only if the length of
`values` differs from `nspecies`; it imposes no sign condition, so a list of the right
length is stored unchanged whatever its entries (for instance `[0, -1, 0.5]` on three
species); on failure the instance is unchanged. -/
theorem C13_acentric_setter (self : Impl K n) (values : List K) :
    setAcentricFactors self values =
      (if values.length = n then
        (Except.ok (), { self with acentric_factors := values })
      else
        (Except.error
          ⟨"Cannot set the acentric factors of the species in CubicEOS.",
           "Expecting " ++ toString n ++ " values, but only "
              ++ toString values.length ++ " values were given."⟩, self))
    ∧ ((∃ e, (setAcentricFactors self values).1 = Except.error e) ↔ values.length ≠ n)
    ∧ (setAcentricFactors (construct : Impl K 3) [0, -1, 0.5]).1 = Except.ok ()
    ∧ (setAcentricFactors (construct : Impl K 3) [0, -1, 0.5]).2.acentric_factors
        = [0, -1, 0.5] := by
  refine ⟨setAcentricFactors_eq self values, ?_, ?_, ?_⟩
  · rw [setAcentricFactors_eq]
    by_cases h : values.length = n
    · simp [h]
    · simp [h]
  · rw [setAcentricFactors_eq]
    simp
  · rw [setAcentricFactors_eq]
    simp

/-- C14, as stated, fails: on a one-species instance, `setCriticalTemperatures([0])`
raises an exception whose error and reason contain neither the expected count nor the
actual count (both are 1). -/
theorem C14_counterexample :
    ∃ e, (setCriticalTemperatures (construct : Impl ℚ 1) [0]).1 = Except.error e
      ∧ ¬ containsText e.reason (toString (numSpecies (construct : Impl ℚ 1)))
      ∧ ¬ containsText e.error (toString (numSpecies (construct : Impl ℚ 1)))
      ∧ ¬ containsText e.reason (toString ([0] : List ℚ).length)
      ∧ ¬ containsText e.error (toString ([0] : List ℚ).length) := by
  refine ⟨⟨"Cannot set the critical temperatures of the species in the CubicEOS object.",
    "Expecting non-zero critical temperatures of the gases."⟩, ?_, ?_, ?_, ?_, ?_⟩
  · rw [setCriticalTemperatures_eq _ _ (le_refl 1)]
    simp
  · intro h
    exact absurd (mem_of_containsText _ _ h) (by decide)
  · intro h
    exact absurd (mem_of_containsText _ _ h) (by decide)
  · intro h
    exact absurd (mem_of_containsText _ _ h) (by decide)
  · intro h
    exact absurd (mem_of_containsText _ _ h) (by decide)

/-- C14, amended: every validation error raised for a length mismatch by
`setCriticalTemperatures`, `setCriticalPressures` and `setAcentricFactors` carries a
reason that contains the expected count (`nspecies`, in decimal) and the actual count
(the length of the supplied list, in decimal); the error raised for a non-positive
critical property carries the fixed reason `Expecting non-zero critical temperatures of
the gases.` (or `pressures`), which names no count. -/
theorem C14_error_messages (self : Impl K n) (values : List K) :
    (values.length ≠ n →
      (∃ e, (setCriticalTemperatures self values).1 = Except.error e
        ∧ containsText e.reason (toString n)
        ∧ containsText e.reason (toString values.length))
      ∧ (∃ e, (setCriticalPressures self values).1 = Except.error e
        ∧ containsText e.reason (toString n)
        ∧ containsText e.reason (toString values.length))
      ∧ (∃ e, (setAcentricFactors self values).1 = Except.error e
        ∧ containsText e.reason (toString n)
        ∧ containsText e.reason (toString values.length)))
    ∧ (1 ≤ n → values.length = n → (∃ v ∈ values, v ≤ 0) →
      (setCriticalTemperatures self values).1 = Except.error
        ⟨"Cannot set the critical temperatures of the species in the CubicEOS object.",
         "Expecting non-zero critical temperatures of the gases."⟩
      ∧ (setCriticalPressures self values).1 = Except.error
        ⟨"Cannot set the critical pressures of the species in the CubicEOS object.",
         "Expecting non-zero critical pressures of the gases."⟩) := by
  refine ⟨fun h => ⟨?_, ?_, ?_⟩, fun hn hlen hneg => ?_⟩
  · exact ⟨_, setCriticalTemperatures_length_ne self values h,
      (length_ne_reason _ _ _).1, (length_ne_reason _ _ _).2⟩
  · exact ⟨_, setCriticalPressures_length_ne self values h,
      (length_ne_reason _ _ _).1, (length_ne_reason _ _ _).2⟩
  · have he : (setAcentricFactors self values).1 = Except.error
        ⟨"Cannot set the acentric factors of the species in CubicEOS.",
         "Expecting " ++ toString n ++ " values, but only "
            ++ toString values.length ++ " values were given."⟩ := by
      rw [setAcentricFactors_eq, if_neg h]
    exact ⟨_, he, (length_ne_reason _ _ _).1, (length_ne_reason _ _ _).2⟩
  · have hq : ¬ ∀ v ∈ values, 0 < v := by
      obtain ⟨v, hv, hv0⟩ := hneg
      exact fun hall => absurd (hall v hv) (not_lt.mpr hv0)
    rw [setCriticalTemperatures_eq self values hn, setCriticalPressures_eq self values hn,
      if_pos hlen, if_neg hq, if_pos hlen, if_neg hq]
    exact ⟨rfl, rfl⟩

/-- C14, amended, on a freshly constructed one-species instance and the empty list. -/
theorem C14_error_messages_witness :
    ([] : List ℚ).length ≠ 1
    ∧ ∃ e, (setCriticalTemperatures (construct : Impl ℚ 1) []).1 = Except.error e
        ∧ containsText e.reason (toString 1)
        ∧ containsText e.reason (toString ([] : List ℚ).length) :=
  ⟨by decide, ((C14_error_messages (construct : Impl ℚ 1) []).1 (by decide)).1⟩

end CubicEOS

/-! ## Calls with the same inputs -/

namespace CubicEOS

open ChemicalScalar (const lift log)

variable {K : Type} [LinearOrderedField K] {n : Nat}

/-- Two calls with the same inputs have the same `R`. -/
theorem same_R {c1 c2 : Call K n} (h : SameInputs c1 c2) :
    R c1 = R c2 := by
  simp only [R, h.ext, h.T, h.P, h.x, h.model, h.critical_temperatures, h.critical_pressures,
    h.acentric_factors, h.r, h.rT, h.rTT]

/-- Two calls with the same inputs have the same `Psi`. -/
theorem same_Psi {c1 c2 : Call K n} (h : SameInputs c1 c2) :
    Psi c1 = Psi c2 := by
  simp only [Psi, h.ext, h.T, h.P, h.x, h.model, h.critical_temperatures, h.critical_pressures,
    h.acentric_factors, h.r, h.rT, h.rTT, same_R h]

/-- Two calls with the same inputs have the same `Omega`. -/
theorem same_Omega {c1 c2 : Call K n} (h : SameInputs c1 c2) :
    Omega c1 = Omega c2 := by
  simp only [Omega, h.ext, h.T, h.P, h.x, h.model, h.critical_temperatures, h.critical_pressures,
    h.acentric_factors, h.r, h.rT, h.rTT, same_R h, same_Psi h]

/-- Two calls with the same inputs have the same `epsilon`. -/
theorem same_epsilon {c1 c2 : Call K n} (h : SameInputs c1 c2) :
    epsilon c1 = epsilon c2 := by
  simp only [epsilon, h.ext, h.T, h.P, h.x, h.model, h.critical_temperatures, h.critical_pressures,
    h.acentric_factors, h.r, h.rT, h.rTT, same_R h, same_Psi h, same_Omega h]

/-- Two calls with the same inputs have the same `sigma`. -/
theorem same_sigma {c1 c2 : Call K n} (h : SameInputs c1 c2) :
    sigma c1 = sigma c2 := by
  simp only [sigma, h.ext, h.T, h.P, h.x, h.model, h.critical_temperatures, h.critical_pressures,
    h.acentric_factors, h.r, h.rT, h.rTT, same_R h, same_Psi h, same_Omega h, same_epsilon h]

/-- Two calls with the same inputs have the same `factor`. -/
theorem same_factor {c1 c2 : Call K n} (h : SameInputs c1 c2) :
    factor c1 = factor c2 := by
  funext i
  simp only [factor, h.ext, h.T, h.P, h.x, h.model, h.critical_temperatures, h.critical_pressures,
    h.acentric_factors, h.r, h.rT, h.rTT, same_R h, same_Psi h, same_Omega h, same_epsilon h,
    same_sigma h]

/-- Two calls with the same inputs have the same `Tr`. -/
theorem same_Tr {c1 c2 : Call K n} (h : SameInputs c1 c2) :
    Tr c1 = Tr c2 := by
  funext i
  simp only [Tr, h.ext, h.T, h.P, h.x, h.model, h.critical_temperatures, h.critical_pressures,
    h.acentric_factors, h.r, h.rT, h.rTT, same_R h, same_Psi h, same_Omega h, same_epsilon h,
    same_sigma h, same_factor h]

/-- Two calls with the same inputs have the same `alphaAt`. -/
theorem same_alphaAt {c1 c2 : Call K n} (h : SameInputs c1 c2) :
    alphaAt c1 = alphaAt c2 := by
  funext i
  simp only [alphaAt, h.ext, h.T, h.P, h.x, h.model, h.critical_temperatures, h.critical_pressures,
    h.acentric_factors, h.r, h.rT, h.rTT, same_R h, same_Psi h, same_Omega h, same_epsilon h,
    same_sigma h, same_factor h, same_Tr h]

/-- Two calls with the same inputs have the same `a`. -/
theorem same_a {c1 c2 : Call K n} (h : SameInputs c1 c2) :
    a c1 = a c2 := by
  simp only [a, h.ext, h.T, h.P, h.x, h.model, h.critical_temperatures, h.critical_pressures,
    h.acentric_factors, h.r, h.rT, h.rTT, same_R h, same_Psi h, same_Omega h, same_epsilon h,
    same_sigma h, same_factor h, same_Tr h, same_alphaAt h]

/-- Two calls with the same inputs have the same `aT`. -/
theorem same_aT {c1 c2 : Call K n} (h : SameInputs c1 c2) :
    aT c1 = aT c2 := by
  simp only [aT, h.ext, h.T, h.P, h.x, h.model, h.critical_temperatures, h.critical_pressures,
    h.acentric_factors, h.r, h.rT, h.rTT, same_R h, same_Psi h, same_Omega h, same_epsilon h,
    same_sigma h, same_factor h, same_Tr h, same_alphaAt h, same_a h]

/-- Two calls with the same inputs have the same `aTT`. -/
theorem same_aTT {c1 c2 : Call K n} (h : SameInputs c1 c2) :
    aTT c1 = aTT c2 := by
  simp only [aTT, h.ext, h.T, h.P, h.x, h.model, h.critical_temperatures, h.critical_pressures,
    h.acentric_factors, h.r, h.rT, h.rTT, same_R h, same_Psi h, same_Omega h, same_epsilon h,
    same_sigma h, same_factor h, same_Tr h, same_alphaAt h, same_a h, same_aT h]

/-- Two calls with the same inputs have the same `bValue`. -/
theorem same_bValue {c1 c2 : Call K n} (h : SameInputs c1 c2) :
    bValue c1 = bValue c2 := by
  funext i
  simp only [bValue, h.ext, h.T, h.P, h.x, h.model, h.critical_temperatures, h.critical_pressures,
    h.acentric_factors, h.r, h.rT, h.rTT, same_R h, same_Psi h, same_Omega h, same_epsilon h,
    same_sigma h, same_factor h, same_Tr h, same_alphaAt h, same_a h, same_aT h, same_aTT h]

/-- Two calls with the same inputs have the same `b`. -/
theorem same_b {c1 c2 : Call K n} (h : SameInputs c1 c2) :
    b c1 = b c2 := by
  simp only [b, h.ext, h.T, h.P, h.x, h.model, h.critical_temperatures, h.critical_pressures,
    h.acentric_factors, h.r, h.rT, h.rTT, same_R h, same_Psi h, same_Omega h, same_epsilon h,
    same_sigma h, same_factor h, same_Tr h, same_alphaAt h, same_a h, same_aT h, same_aTT h,
    same_bValue h]

/-- Two calls with the same inputs have the same `s`. -/
theorem same_s {c1 c2 : Call K n} (h : SameInputs c1 c2) :
    s c1 = s c2 := by
  funext i
  funext j
  simp only [s, h.ext, h.T, h.P, h.x, h.model, h.critical_temperatures, h.critical_pressures,
    h.acentric_factors, h.r, h.rT, h.rTT, same_R h, same_Psi h, same_Omega h, same_epsilon h,
    same_sigma h, same_factor h, same_Tr h, same_alphaAt h, same_a h, same_aT h, same_aTT h,
    same_bValue h, same_b h]

/-- Two calls with the same inputs have the same `sT`. -/
theorem same_sT {c1 c2 : Call K n} (h : SameInputs c1 c2) :
    sT c1 = sT c2 := by
  funext i
  funext j
  simp only [sT, h.ext, h.T, h.P, h.x, h.model, h.critical_temperatures, h.critical_pressures,
    h.acentric_factors, h.r, h.rT, h.rTT, same_R h, same_Psi h, same_Omega h, same_epsilon h,
    same_sigma h, same_factor h, same_Tr h, same_alphaAt h, same_a h, same_aT h, same_aTT h,
    same_bValue h, same_b h, same_s h]

/-- Two calls with the same inputs have the same `sTT`. -/
theorem same_sTT {c1 c2 : Call K n} (h : SameInputs c1 c2) :
    sTT c1 = sTT c2 := by
  funext i
  funext j
  simp only [sTT, h.ext, h.T, h.P, h.x, h.model, h.critical_temperatures, h.critical_pressures,
    h.acentric_factors, h.r, h.rT, h.rTT, same_R h, same_Psi h, same_Omega h, same_epsilon h,
    same_sigma h, same_factor h, same_Tr h, same_alphaAt h, same_a h, same_aT h, same_aTT h,
    same_bValue h, same_b h, same_s h, same_sT h]

/-- Two calls with the same inputs have the same `aij`. -/
theorem same_aij {c1 c2 : Call K n} (h : SameInputs c1 c2) :
    aij c1 = aij c2 := by
  funext i
  funext j
  simp only [aij, h.ext, h.T, h.P, h.x, h.model, h.critical_temperatures, h.critical_pressures,
    h.acentric_factors, h.r, h.rT, h.rTT, same_R h, same_Psi h, same_Omega h, same_epsilon h,
    same_sigma h, same_factor h, same_Tr h, same_alphaAt h, same_a h, same_aT h, same_aTT h,
    same_bValue h, same_b h, same_s h, same_sT h, same_sTT h]

/-- Two calls with the same inputs have the same `aijT`. -/
theorem same_aijT {c1 c2 : Call K n} (h : SameInputs c1 c2) :
    aijT c1 = aijT c2 := by
  funext i
  funext j
  simp only [aijT, h.ext, h.T, h.P, h.x, h.model, h.critical_temperatures, h.critical_pressures,
    h.acentric_factors, h.r, h.rT, h.rTT, same_R h, same_Psi h, same_Omega h, same_epsilon h,
    same_sigma h, same_factor h, same_Tr h, same_alphaAt h, same_a h, same_aT h, same_aTT h,
    same_bValue h, same_b h, same_s h, same_sT h, same_sTT h, same_aij h]

/-- Two calls with the same inputs have the same `aijTT`. -/
theorem same_aijTT {c1 c2 : Call K n} (h : SameInputs c1 c2) :
    aijTT c1 = aijTT c2 := by
  funext i
  funext j
  simp only [aijTT, h.ext, h.T, h.P, h.x, h.model, h.critical_temperatures, h.critical_pressures,
    h.acentric_factors, h.r, h.rT, h.rTT, same_R h, same_Psi h, same_Omega h, same_epsilon h,
    same_sigma h, same_factor h, same_Tr h, same_alphaAt h, same_a h, same_aT h, same_aTT h,
    same_bValue h, same_b h, same_s h, same_sT h, same_sTT h, same_aij h, same_aijT h]

/-- Two calls with the same inputs have the same `mixBody`. -/
theorem same_mixBody {c1 c2 : Call K n} (h : SameInputs c1 c2) :
    mixBody c1 = mixBody c2 := by
  funext i
  funext j
  funext m
  simp only [mixBody, h.ext, h.T, h.P, h.x, h.model, h.critical_temperatures, h.critical_pressures,
    h.acentric_factors, h.r, h.rT, h.rTT, same_R h, same_Psi h, same_Omega h, same_epsilon h,
    same_sigma h, same_factor h, same_Tr h, same_alphaAt h, same_a h, same_aT h, same_aTT h,
    same_bValue h, same_b h, same_s h, same_sT h, same_sTT h, same_aij h, same_aijT h,
    same_aijTT h]

/-- Two calls with the same inputs have the same `mixLoop`. -/
theorem same_mixLoop {c1 c2 : Call K n} (h : SameInputs c1 c2) :
    mixLoop c1 = mixLoop c2 := by
  simp only [mixLoop, h.ext, h.T, h.P, h.x, h.model, h.critical_temperatures, h.critical_pressures,
    h.acentric_factors, h.r, h.rT, h.rTT, same_R h, same_Psi h, same_Omega h, same_epsilon h,
    same_sigma h, same_factor h, same_Tr h, same_alphaAt h, same_a h, same_aT h, same_aTT h,
    same_bValue h, same_b h, same_s h, same_sT h, same_sTT h, same_aij h, same_aijT h,
    same_aijTT h, same_mixBody h]

/-- Two calls with the same inputs have the same `amix`. -/
theorem same_amix {c1 c2 : Call K n} (h : SameInputs c1 c2) :
    amix c1 = amix c2 := by
  simp only [amix, h.ext, h.T, h.P, h.x, h.model, h.critical_temperatures, h.critical_pressures,
    h.acentric_factors, h.r, h.rT, h.rTT, same_R h, same_Psi h, same_Omega h, same_epsilon h,
    same_sigma h, same_factor h, same_Tr h, same_alphaAt h, same_a h, same_aT h, same_aTT h,
    same_bValue h, same_b h, same_s h, same_sT h, same_sTT h, same_aij h, same_aijT h,
    same_aijTT h, same_mixBody h, same_mixLoop h]

/-- Two calls with the same inputs have the same `amixT`. -/
theorem same_amixT {c1 c2 : Call K n} (h : SameInputs c1 c2) :
    amixT c1 = amixT c2 := by
  simp only [amixT, h.ext, h.T, h.P, h.x, h.model, h.critical_temperatures, h.critical_pressures,
    h.acentric_factors, h.r, h.rT, h.rTT, same_R h, same_Psi h, same_Omega h, same_epsilon h,
    same_sigma h, same_factor h, same_Tr h, same_alphaAt h, same_a h, same_aT h, same_aTT h,
    same_bValue h, same_b h, same_s h, same_sT h, same_sTT h, same_aij h, same_aijT h,
    same_aijTT h, same_mixBody h, same_mixLoop h, same_amix h]

/-- Two calls with the same inputs have the same `amixTT`. -/
theorem same_amixTT {c1 c2 : Call K n} (h : SameInputs c1 c2) :
    amixTT c1 = amixTT c2 := by
  simp only [amixTT, h.ext, h.T, h.P, h.x, h.model, h.critical_temperatures, h.critical_pressures,
    h.acentric_factors, h.r, h.rT, h.rTT, same_R h, same_Psi h, same_Omega h, same_epsilon h,
    same_sigma h, same_factor h, same_Tr h, same_alphaAt h, same_a h, same_aT h, same_aTT h,
    same_bValue h, same_b h, same_s h, same_sT h, same_sTT h, same_aij h, same_aijT h,
    same_aijTT h, same_mixBody h, same_mixLoop h, same_amix h, same_amixT h]

/-- Two calls with the same inputs have the same `abar`. -/
theorem same_abar {c1 c2 : Call K n} (h : SameInputs c1 c2) :
    abar c1 = abar c2 := by
  simp only [abar, h.ext, h.T, h.P, h.x, h.model, h.critical_temperatures, h.critical_pressures,
    h.acentric_factors, h.r, h.rT, h.rTT, same_R h, same_Psi h, same_Omega h, same_epsilon h,
    same_sigma h, same_factor h, same_Tr h, same_alphaAt h, same_a h, same_aT h, same_aTT h,
    same_bValue h, same_b h, same_s h, same_sT h, same_sTT h, same_aij h, same_aijT h,
    same_aijTT h, same_mixBody h, same_mixLoop h, same_amix h, same_amixT h, same_amixTT h]

/-- Two calls with the same inputs have the same `abarT`. -/
theorem same_abarT {c1 c2 : Call K n} (h : SameInputs c1 c2) :
    abarT c1 = abarT c2 := by
  simp only [abarT, h.ext, h.T, h.P, h.x, h.model, h.critical_temperatures, h.critical_pressures,
    h.acentric_factors, h.r, h.rT, h.rTT, same_R h, same_Psi h, same_Omega h, same_epsilon h,
    same_sigma h, same_factor h, same_Tr h, same_alphaAt h, same_a h, same_aT h, same_aTT h,
    same_bValue h, same_b h, same_s h, same_sT h, same_sTT h, same_aij h, same_aijT h,
    same_aijTT h, same_mixBody h, same_mixLoop h, same_amix h, same_amixT h, same_amixTT h,
    same_abar h]

/-- Two calls with the same inputs have the same `bmixLoop`. -/
theorem same_bmixLoop {c1 c2 : Call K n} (h : SameInputs c1 c2) :
    bmixLoop c1 = bmixLoop c2 := by
  simp only [bmixLoop, h.ext, h.T, h.P, h.x, h.model, h.critical_temperatures, h.critical_pressures,
    h.acentric_factors, h.r, h.rT, h.rTT, same_R h, same_Psi h, same_Omega h, same_epsilon h,
    same_sigma h, same_factor h, same_Tr h, same_alphaAt h, same_a h, same_aT h, same_aTT h,
    same_bValue h, same_b h, same_s h, same_sT h, same_sTT h, same_aij h, same_aijT h,
    same_aijTT h, same_mixBody h, same_mixLoop h, same_amix h, same_amixT h, same_amixTT h,
    same_abar h, same_abarT h]

/-- Two calls with the same inputs have the same `bmix`. -/
theorem same_bmix {c1 c2 : Call K n} (h : SameInputs c1 c2) :
    bmix c1 = bmix c2 := by
  simp only [bmix, h.ext, h.T, h.P, h.x, h.model, h.critical_temperatures, h.critical_pressures,
    h.acentric_factors, h.r, h.rT, h.rTT, same_R h, same_Psi h, same_Omega h, same_epsilon h,
    same_sigma h, same_factor h, same_Tr h, same_alphaAt h, same_a h, same_aT h, same_aTT h,
    same_bValue h, same_b h, same_s h, same_sT h, same_sTT h, same_aij h, same_aijT h,
    same_aijTT h, same_mixBody h, same_mixLoop h, same_amix h, same_amixT h, same_amixTT h,
    same_abar h, same_abarT h, same_bmixLoop h]

/-- Two calls with the same inputs have the same `bbar`. -/
theorem same_bbar {c1 c2 : Call K n} (h : SameInputs c1 c2) :
    bbar c1 = bbar c2 := by
  simp only [bbar, h.ext, h.T, h.P, h.x, h.model, h.critical_temperatures, h.critical_pressures,
    h.acentric_factors, h.r, h.rT, h.rTT, same_R h, same_Psi h, same_Omega h, same_epsilon h,
    same_sigma h, same_factor h, same_Tr h, same_alphaAt h, same_a h, same_aT h, same_aTT h,
    same_bValue h, same_b h, same_s h, same_sT h, same_sTT h, same_aij h, same_aijT h,
    same_aijTT h, same_mixBody h, same_mixLoop h, same_amix h, same_amixT h, same_amixTT h,
    same_abar h, same_abarT h, same_bmixLoop h, same_bmix h]

/-- Two calls with the same inputs have the same `beta`. -/
theorem same_beta {c1 c2 : Call K n} (h : SameInputs c1 c2) :
    beta c1 = beta c2 := by
  simp only [beta, h.ext, h.T, h.P, h.x, h.model, h.critical_temperatures, h.critical_pressures,
    h.acentric_factors, h.r, h.rT, h.rTT, same_R h, same_Psi h, same_Omega h, same_epsilon h,
    same_sigma h, same_factor h, same_Tr h, same_alphaAt h, same_a h, same_aT h, same_aTT h,
    same_bValue h, same_b h, same_s h, same_sT h, same_sTT h, same_aij h, same_aijT h,
    same_aijTT h, same_mixBody h, same_mixLoop h, same_amix h, same_amixT h, same_amixTT h,
    same_abar h, same_abarT h, same_bmixLoop h, same_bmix h, same_bbar h]

/-- Two calls with the same inputs have the same `betaT`. -/
theorem same_betaT {c1 c2 : Call K n} (h : SameInputs c1 c2) :
    betaT c1 = betaT c2 := by
  simp only [betaT, h.ext, h.T, h.P, h.x, h.model, h.critical_temperatures, h.critical_pressures,
    h.acentric_factors, h.r, h.rT, h.rTT, same_R h, same_Psi h, same_Omega h, same_epsilon h,
    same_sigma h, same_factor h, same_Tr h, same_alphaAt h, same_a h, same_aT h, same_aTT h,
    same_bValue h, same_b h, same_s h, same_sT h, same_sTT h, same_aij h, same_aijT h,
    same_aijTT h, same_mixBody h, same_mixLoop h, same_amix h, same_amixT h, same_amixTT h,
    same_abar h, same_abarT h, same_bmixLoop h, same_bmix h, same_bbar h, same_beta h]

/-- Two calls with the same inputs have the same `q`. -/
theorem same_q {c1 c2 : Call K n} (h : SameInputs c1 c2) :
    q c1 = q c2 := by
  simp only [q, h.ext, h.T, h.P, h.x, h.model, h.critical_temperatures, h.critical_pressures,
    h.acentric_factors, h.r, h.rT, h.rTT, same_R h, same_Psi h, same_Omega h, same_epsilon h,
    same_sigma h, same_factor h, same_Tr h, same_alphaAt h, same_a h, same_aT h, same_aTT h,
    same_bValue h, same_b h, same_s h, same_sT h, same_sTT h, same_aij h, same_aijT h,
    same_aijTT h, same_mixBody h, same_mixLoop h, same_amix h, same_amixT h, same_amixTT h,
    same_abar h, same_abarT h, same_bmixLoop h, same_bmix h, same_bbar h, same_beta h,
    same_betaT h]

/-- Two calls with the same inputs have the same `qT`. -/
theorem same_qT {c1 c2 : Call K n} (h : SameInputs c1 c2) :
    qT c1 = qT c2 := by
  simp only [qT, h.ext, h.T, h.P, h.x, h.model, h.critical_temperatures, h.critical_pressures,
    h.acentric_factors, h.r, h.rT, h.rTT, same_R h, same_Psi h, same_Omega h, same_epsilon h,
    same_sigma h, same_factor h, same_Tr h, same_alphaAt h, same_a h, same_aT h, same_aTT h,
    same_bValue h, same_b h, same_s h, same_sT h, same_sTT h, same_aij h, same_aijT h,
    same_aijTT h, same_mixBody h, same_mixLoop h, same_amix h, same_amixT h, same_amixTT h,
    same_abar h, same_abarT h, same_bmixLoop h, same_bmix h, same_bbar h, same_beta h,
    same_betaT h, same_q h]

/-- Two calls with the same inputs have the same `qTT`. -/
theorem same_qTT {c1 c2 : Call K n} (h : SameInputs c1 c2) :
    qTT c1 = qTT c2 := by
  simp only [qTT, h.ext, h.T, h.P, h.x, h.model, h.critical_temperatures, h.critical_pressures,
    h.acentric_factors, h.r, h.rT, h.rTT, same_R h, same_Psi h, same_Omega h, same_epsilon h,
    same_sigma h, same_factor h, same_Tr h, same_alphaAt h, same_a h, same_aT h, same_aTT h,
    same_bValue h, same_b h, same_s h, same_sT h, same_sTT h, same_aij h, same_aijT h,
    same_aijTT h, same_mixBody h, same_mixLoop h, same_amix h, same_amixT h, same_amixTT h,
    same_abar h, same_abarT h, same_bmixLoop h, same_bmix h, same_bbar h, same_beta h,
    same_betaT h, same_q h, same_qT h]

/-- Two calls with the same inputs have the same `A`. -/
theorem same_A {c1 c2 : Call K n} (h : SameInputs c1 c2) :
    A c1 = A c2 := by
  simp only [A, h.ext, h.T, h.P, h.x, h.model, h.critical_temperatures, h.critical_pressures,
    h.acentric_factors, h.r, h.rT, h.rTT, same_R h, same_Psi h, same_Omega h, same_epsilon h,
    same_sigma h, same_factor h, same_Tr h, same_alphaAt h, same_a h, same_aT h, same_aTT h,
    same_bValue h, same_b h, same_s h, same_sT h, same_sTT h, same_aij h, same_aijT h,
    same_aijTT h, same_mixBody h, same_mixLoop h, same_amix h, same_amixT h, same_amixTT h,
    same_abar h, same_abarT h, same_bmixLoop h, same_bmix h, same_bbar h, same_beta h,
    same_betaT h, same_q h, same_qT h, same_qTT h]

/-- Two calls with the same inputs have the same `B`. -/
theorem same_B {c1 c2 : Call K n} (h : SameInputs c1 c2) :
    B c1 = B c2 := by
  simp only [B, h.ext, h.T, h.P, h.x, h.model, h.critical_temperatures, h.critical_pressures,
    h.acentric_factors, h.r, h.rT, h.rTT, same_R h, same_Psi h, same_Omega h, same_epsilon h,
    same_sigma h, same_factor h, same_Tr h, same_alphaAt h, same_a h, same_aT h, same_aTT h,
    same_bValue h, same_b h, same_s h, same_sT h, same_sTT h, same_aij h, same_aijT h,
    same_aijTT h, same_mixBody h, same_mixLoop h, same_amix h, same_amixT h, same_amixTT h,
    same_abar h, same_abarT h, same_bmixLoop h, same_bmix h, same_bbar h, same_beta h,
    same_betaT h, same_q h, same_qT h, same_qTT h, same_A h]

/-- Two calls with the same inputs have the same `C`. -/
theorem same_C {c1 c2 : Call K n} (h : SameInputs c1 c2) :
    C c1 = C c2 := by
  simp only [C, h.ext, h.T, h.P, h.x, h.model, h.critical_temperatures, h.critical_pressures,
    h.acentric_factors, h.r, h.rT, h.rTT, same_R h, same_Psi h, same_Omega h, same_epsilon h,
    same_sigma h, same_factor h, same_Tr h, same_alphaAt h, same_a h, same_aT h, same_aTT h,
    same_bValue h, same_b h, same_s h, same_sT h, same_sTT h, same_aij h, same_aijT h,
    same_aijTT h, same_mixBody h, same_mixLoop h, same_amix h, same_amixT h, same_amixTT h,
    same_abar h, same_abarT h, same_bmixLoop h, same_bmix h, same_bbar h, same_beta h,
    same_betaT h, same_q h, same_qT h, same_qTT h, same_A h, same_B h]

/-- Two calls with the same inputs have the same `AT`. -/
theorem same_AT {c1 c2 : Call K n} (h : SameInputs c1 c2) :
    AT c1 = AT c2 := by
  simp only [AT, h.ext, h.T, h.P, h.x, h.model, h.critical_temperatures, h.critical_pressures,
    h.acentric_factors, h.r, h.rT, h.rTT, same_R h, same_Psi h, same_Omega h, same_epsilon h,
    same_sigma h, same_factor h, same_Tr h, same_alphaAt h, same_a h, same_aT h, same_aTT h,
    same_bValue h, same_b h, same_s h, same_sT h, same_sTT h, same_aij h, same_aijT h,
    same_aijTT h, same_mixBody h, same_mixLoop h, same_amix h, same_amixT h, same_amixTT h,
    same_abar h, same_abarT h, same_bmixLoop h, same_bmix h, same_bbar h, same_beta h,
    same_betaT h, same_q h, same_qT h, same_qTT h, same_A h, same_B h, same_C h]

/-- Two calls with the same inputs have the same `BT`. -/
theorem same_BT {c1 c2 : Call K n} (h : SameInputs c1 c2) :
    BT c1 = BT c2 := by
  simp only [BT, h.ext, h.T, h.P, h.x, h.model, h.critical_temperatures, h.critical_pressures,
    h.acentric_factors, h.r, h.rT, h.rTT, same_R h, same_Psi h, same_Omega h, same_epsilon h,
    same_sigma h, same_factor h, same_Tr h, same_alphaAt h, same_a h, same_aT h, same_aTT h,
    same_bValue h, same_b h, same_s h, same_sT h, same_sTT h, same_aij h, same_aijT h,
    same_aijTT h, same_mixBody h, same_mixLoop h, same_amix h, same_amixT h, same_amixTT h,
    same_abar h, same_abarT h, same_bmixLoop h, same_bmix h, same_bbar h, same_beta h,
    same_betaT h, same_q h, same_qT h, same_qTT h, same_A h, same_B h, same_C h, same_AT h]

/-- Two calls with the same inputs have the same `CT`. -/
theorem same_CT {c1 c2 : Call K n} (h : SameInputs c1 c2) :
    CT c1 = CT c2 := by
  simp only [CT, h.ext, h.T, h.P, h.x, h.model, h.critical_temperatures, h.critical_pressures,
    h.acentric_factors, h.r, h.rT, h.rTT, same_R h, same_Psi h, same_Omega h, same_epsilon h,
    same_sigma h, same_factor h, same_Tr h, same_alphaAt h, same_a h, same_aT h, same_aTT h,
    same_bValue h, same_b h, same_s h, same_sT h, same_sTT h, same_aij h, same_aijT h,
    same_aijTT h, same_mixBody h, same_mixLoop h, same_amix h, same_amixT h, same_amixTT h,
    same_abar h, same_abarT h, same_bmixLoop h, same_bmix h, same_bbar h, same_beta h,
    same_betaT h, same_q h, same_qT h, same_qTT h, same_A h, same_B h, same_C h, same_AT h,
    same_BT h]

/-- Two calls with the same inputs have the same `f`. -/
theorem same_f {c1 c2 : Call K n} (h : SameInputs c1 c2) :
    f c1 = f c2 := by
  funext z
  simp only [f, h.ext, h.T, h.P, h.x, h.model, h.critical_temperatures, h.critical_pressures,
    h.acentric_factors, h.r, h.rT, h.rTT, same_R h, same_Psi h, same_Omega h, same_epsilon h,
    same_sigma h, same_factor h, same_Tr h, same_alphaAt h, same_a h, same_aT h, same_aTT h,
    same_bValue h, same_b h, same_s h, same_sT h, same_sTT h, same_aij h, same_aijT h,
    same_aijTT h, same_mixBody h, same_mixLoop h, same_amix h, same_amixT h, same_amixTT h,
    same_abar h, same_abarT h, same_bmixLoop h, same_bmix h, same_bbar h, same_beta h,
    same_betaT h, same_q h, same_qT h, same_qTT h, same_A h, same_B h, same_C h, same_AT h,
    same_BT h, same_CT h]

/-- Two calls with the same inputs have the same `bi`. -/
theorem same_bi {c1 c2 : Call K n} (h : SameInputs c1 c2) :
    bi c1 = bi c2 := by
  funext i
  simp only [bi, h.ext, h.T, h.P, h.x, h.model, h.critical_temperatures, h.critical_pressures,
    h.acentric_factors, h.r, h.rT, h.rTT, same_R h, same_Psi h, same_Omega h, same_epsilon h,
    same_sigma h, same_factor h, same_Tr h, same_alphaAt h, same_a h, same_aT h, same_aTT h,
    same_bValue h, same_b h, same_s h, same_sT h, same_sTT h, same_aij h, same_aijT h,
    same_aijTT h, same_mixBody h, same_mixLoop h, same_amix h, same_amixT h, same_amixTT h,
    same_abar h, same_abarT h, same_bmixLoop h, same_bmix h, same_bbar h, same_beta h,
    same_betaT h, same_q h, same_qT h, same_qTT h, same_A h, same_B h, same_C h, same_AT h,
    same_BT h, same_CT h, same_f h]

/-- Two calls with the same inputs have the same `betai`. -/
theorem same_betai {c1 c2 : Call K n} (h : SameInputs c1 c2) :
    betai c1 = betai c2 := by
  funext i
  simp only [betai, h.ext, h.T, h.P, h.x, h.model, h.critical_temperatures, h.critical_pressures,
    h.acentric_factors, h.r, h.rT, h.rTT, same_R h, same_Psi h, same_Omega h, same_epsilon h,
    same_sigma h, same_factor h, same_Tr h, same_alphaAt h, same_a h, same_aT h, same_aTT h,
    same_bValue h, same_b h, same_s h, same_sT h, same_sTT h, same_aij h, same_aijT h,
    same_aijTT h, same_mixBody h, same_mixLoop h, same_amix h, same_amixT h, same_amixTT h,
    same_abar h, same_abarT h, same_bmixLoop h, same_bmix h, same_bbar h, same_beta h,
    same_betaT h, same_q h, same_qT h, same_qTT h, same_A h, same_B h, same_C h, same_AT h,
    same_BT h, same_CT h, same_f h, same_bi h]

/-- Two calls with the same inputs have the same `ai`. -/
theorem same_ai {c1 c2 : Call K n} (h : SameInputs c1 c2) :
    ai c1 = ai c2 := by
  funext i
  simp only [ai, h.ext, h.T, h.P, h.x, h.model, h.critical_temperatures, h.critical_pressures,
    h.acentric_factors, h.r, h.rT, h.rTT, same_R h, same_Psi h, same_Omega h, same_epsilon h,
    same_sigma h, same_factor h, same_Tr h, same_alphaAt h, same_a h, same_aT h, same_aTT h,
    same_bValue h, same_b h, same_s h, same_sT h, same_sTT h, same_aij h, same_aijT h,
    same_aijTT h, same_mixBody h, same_mixLoop h, same_amix h, same_amixT h, same_amixTT h,
    same_abar h, same_abarT h, same_bmixLoop h, same_bmix h, same_bbar h, same_beta h,
    same_betaT h, same_q h, same_qT h, same_qTT h, same_A h, same_B h, same_C h, same_AT h,
    same_BT h, same_CT h, same_f h, same_bi h, same_betai h]

/-- Two calls with the same inputs have the same `aiT`. -/
theorem same_aiT {c1 c2 : Call K n} (h : SameInputs c1 c2) :
    aiT c1 = aiT c2 := by
  funext i
  simp only [aiT, h.ext, h.T, h.P, h.x, h.model, h.critical_temperatures, h.critical_pressures,
    h.acentric_factors, h.r, h.rT, h.rTT, same_R h, same_Psi h, same_Omega h, same_epsilon h,
    same_sigma h, same_factor h, same_Tr h, same_alphaAt h, same_a h, same_aT h, same_aTT h,
    same_bValue h, same_b h, same_s h, same_sT h, same_sTT h, same_aij h, same_aijT h,
    same_aijTT h, same_mixBody h, same_mixLoop h, same_amix h, same_amixT h, same_amixTT h,
    same_abar h, same_abarT h, same_bmixLoop h, same_bmix h, same_bbar h, same_beta h,
    same_betaT h, same_q h, same_qT h, same_qTT h, same_A h, same_B h, same_C h, same_AT h,
    same_BT h, same_CT h, same_f h, same_bi h, same_betai h, same_ai h]

/-- Two calls with the same inputs have the same `qi`. -/
theorem same_qi {c1 c2 : Call K n} (h : SameInputs c1 c2) :
    qi c1 = qi c2 := by
  funext i
  simp only [qi, h.ext, h.T, h.P, h.x, h.model, h.critical_temperatures, h.critical_pressures,
    h.acentric_factors, h.r, h.rT, h.rTT, same_R h, same_Psi h, same_Omega h, same_epsilon h,
    same_sigma h, same_factor h, same_Tr h, same_alphaAt h, same_a h, same_aT h, same_aTT h,
    same_bValue h, same_b h, same_s h, same_sT h, same_sTT h, same_aij h, same_aijT h,
    same_aijTT h, same_mixBody h, same_mixLoop h, same_amix h, same_amixT h, same_amixTT h,
    same_abar h, same_abarT h, same_bmixLoop h, same_bmix h, same_bbar h, same_beta h,
    same_betaT h, same_q h, same_qT h, same_qTT h, same_A h, same_B h, same_C h, same_AT h,
    same_BT h, same_CT h, same_f h, same_bi h, same_betai h, same_ai h, same_aiT h]

/-- Two calls with the same inputs have the same `qiT`. -/
theorem same_qiT {c1 c2 : Call K n} (h : SameInputs c1 c2) :
    qiT c1 = qiT c2 := by
  funext i
  simp only [qiT, h.ext, h.T, h.P, h.x, h.model, h.critical_temperatures, h.critical_pressures,
    h.acentric_factors, h.r, h.rT, h.rTT, same_R h, same_Psi h, same_Omega h, same_epsilon h,
    same_sigma h, same_factor h, same_Tr h, same_alphaAt h, same_a h, same_aT h, same_aTT h,
    same_bValue h, same_b h, same_s h, same_sT h, same_sTT h, same_aij h, same_aijT h,
    same_aijTT h, same_mixBody h, same_mixLoop h, same_amix h, same_amixT h, same_amixTT h,
    same_abar h, same_abarT h, same_bmixLoop h, same_bmix h, same_bbar h, same_beta h,
    same_betaT h, same_q h, same_qT h, same_qTT h, same_A h, same_B h, same_C h, same_AT h,
    same_BT h, same_CT h, same_f h, same_bi h, same_betai h, same_ai h, same_aiT h, same_qi h]

/-- Two calls with the same inputs have the same `Ai`. -/
theorem same_Ai {c1 c2 : Call K n} (h : SameInputs c1 c2) :
    Ai c1 = Ai c2 := by
  funext i
  simp only [Ai, h.ext, h.T, h.P, h.x, h.model, h.critical_temperatures, h.critical_pressures,
    h.acentric_factors, h.r, h.rT, h.rTT, same_R h, same_Psi h, same_Omega h, same_epsilon h,
    same_sigma h, same_factor h, same_Tr h, same_alphaAt h, same_a h, same_aT h, same_aTT h,
    same_bValue h, same_b h, same_s h, same_sT h, same_sTT h, same_aij h, same_aijT h,
    same_aijTT h, same_mixBody h, same_mixLoop h, same_amix h, same_amixT h, same_amixTT h,
    same_abar h, same_abarT h, same_bmixLoop h, same_bmix h, same_bbar h, same_beta h,
    same_betaT h, same_q h, same_qT h, same_qTT h, same_A h, same_B h, same_C h, same_AT h,
    same_BT h, same_CT h, same_f h, same_bi h, same_betai h, same_ai h, same_aiT h, same_qi h,
    same_qiT h]

/-- Two calls with the same inputs have the same `Bi`. -/
theorem same_Bi {c1 c2 : Call K n} (h : SameInputs c1 c2) :
    Bi c1 = Bi c2 := by
  funext i
  simp only [Bi, h.ext, h.T, h.P, h.x, h.model, h.critical_temperatures, h.critical_pressures,
    h.acentric_factors, h.r, h.rT, h.rTT, same_R h, same_Psi h, same_Omega h, same_epsilon h,
    same_sigma h, same_factor h, same_Tr h, same_alphaAt h, same_a h, same_aT h, same_aTT h,
    same_bValue h, same_b h, same_s h, same_sT h, same_sTT h, same_aij h, same_aijT h,
    same_aijTT h, same_mixBody h, same_mixLoop h, same_amix h, same_amixT h, same_amixTT h,
    same_abar h, same_abarT h, same_bmixLoop h, same_bmix h, same_bbar h, same_beta h,
    same_betaT h, same_q h, same_qT h, same_qTT h, same_A h, same_B h, same_C h, same_AT h,
    same_BT h, same_CT h, same_f h, same_bi h, same_betai h, same_ai h, same_aiT h, same_qi h,
    same_qiT h, same_Ai h]

/-- Two calls with the same inputs have the same `Ci`. -/
theorem same_Ci {c1 c2 : Call K n} (h : SameInputs c1 c2) :
    Ci c1 = Ci c2 := by
  funext i
  simp only [Ci, h.ext, h.T, h.P, h.x, h.model, h.critical_temperatures, h.critical_pressures,
    h.acentric_factors, h.r, h.rT, h.rTT, same_R h, same_Psi h, same_Omega h, same_epsilon h,
    same_sigma h, same_factor h, same_Tr h, same_alphaAt h, same_a h, same_aT h, same_aTT h,
    same_bValue h, same_b h, same_s h, same_sT h, same_sTT h, same_aij h, same_aijT h,
    same_aijTT h, same_mixBody h, same_mixLoop h, same_amix h, same_amixT h, same_amixTT h,
    same_abar h, same_abarT h, same_bmixLoop h, same_bmix h, same_bbar h, same_beta h,
    same_betaT h, same_q h, same_qT h, same_qTT h, same_A h, same_B h, same_C h, same_AT h,
    same_BT h, same_CT h, same_f h, same_bi h, same_betai h, same_ai h, same_aiT h, same_qi h,
    same_qiT h, same_Ai h, same_Bi h]

/-- Two calls with the same inputs and the same root have the same `Zfactor`. -/
theorem same_Zfactor {c1 c2 : Call K n} (h : SameInputs c1 c2) (hZ : Zval c1 = Zval c2) :
    Zfactor c1 = Zfactor c2 := by
  simp only [Zfactor, hZ, h.ext, h.T, h.P, h.x, h.model, h.critical_temperatures, h.critical_pressures,
    h.acentric_factors, h.r, h.rT, h.rTT, same_R h, same_Psi h, same_Omega h, same_epsilon h,
    same_sigma h, same_factor h, same_Tr h, same_alphaAt h, same_a h, same_aT h, same_aTT h,
    same_bValue h, same_b h, same_s h, same_sT h, same_sTT h, same_aij h, same_aijT h,
    same_aijTT h, same_mixBody h, same_mixLoop h, same_amix h, same_amixT h, same_amixTT h,
    same_abar h, same_abarT h, same_bmixLoop h, same_bmix h, same_bbar h, same_beta h,
    same_betaT h, same_q h, same_qT h, same_qTT h, same_A h, same_B h, same_C h, same_AT h,
    same_BT h, same_CT h, same_f h, same_bi h, same_betai h, same_ai h, same_aiT h, same_qi h,
    same_qiT h, same_Ai h, same_Bi h, same_Ci h]

/-- Two calls with the same inputs and the same root have the same `Z`. -/
theorem same_Z {c1 c2 : Call K n} (h : SameInputs c1 c2) (hZ : Zval c1 = Zval c2) :
    Z c1 = Z c2 := by
  simp only [Z, hZ, h.ext, h.T, h.P, h.x, h.model, h.critical_temperatures, h.critical_pressures,
    h.acentric_factors, h.r, h.rT, h.rTT, same_R h, same_Psi h, same_Omega h, same_epsilon h,
    same_sigma h, same_factor h, same_Tr h, same_alphaAt h, same_a h, same_aT h, same_aTT h,
    same_bValue h, same_b h, same_s h, same_sT h, same_sTT h, same_aij h, same_aijT h,
    same_aijTT h, same_mixBody h, same_mixLoop h, same_amix h, same_amixT h, same_amixTT h,
    same_abar h, same_abarT h, same_bmixLoop h, same_bmix h, same_bbar h, same_beta h,
    same_betaT h, same_q h, same_qT h, same_qTT h, same_A h, same_B h, same_C h, same_AT h,
    same_BT h, same_CT h, same_f h, same_bi h, same_betai h, same_ai h, same_aiT h, same_qi h,
    same_qiT h, same_Ai h, same_Bi h, same_Ci h, same_Zfactor h hZ]

/-- Two calls with the same inputs and the same root have the same `ZT`. -/
theorem same_ZT {c1 c2 : Call K n} (h : SameInputs c1 c2) (hZ : Zval c1 = Zval c2) :
    ZT c1 = ZT c2 := by
  simp only [ZT, hZ, h.ext, h.T, h.P, h.x, h.model, h.critical_temperatures, h.critical_pressures,
    h.acentric_factors, h.r, h.rT, h.rTT, same_R h, same_Psi h, same_Omega h, same_epsilon h,
    same_sigma h, same_factor h, same_Tr h, same_alphaAt h, same_a h, same_aT h, same_aTT h,
    same_bValue h, same_b h, same_s h, same_sT h, same_sTT h, same_aij h, same_aijT h,
    same_aijTT h, same_mixBody h, same_mixLoop h, same_amix h, same_amixT h, same_amixTT h,
    same_abar h, same_abarT h, same_bmixLoop h, same_bmix h, same_bbar h, same_beta h,
    same_betaT h, same_q h, same_qT h, same_qTT h, same_A h, same_B h, same_C h, same_AT h,
    same_BT h, same_CT h, same_f h, same_bi h, same_betai h, same_ai h, same_aiT h, same_qi h,
    same_qiT h, same_Ai h, same_Bi h, same_Ci h, same_Zfactor h hZ, same_Z h hZ]

/-- Two calls with the same inputs and the same root have the same `I`. -/
theorem same_I {c1 c2 : Call K n} (h : SameInputs c1 c2) (hZ : Zval c1 = Zval c2) :
    I c1 = I c2 := by
  simp only [I, hZ, h.ext, h.T, h.P, h.x, h.model, h.critical_temperatures, h.critical_pressures,
    h.acentric_factors, h.r, h.rT, h.rTT, same_R h, same_Psi h, same_Omega h, same_epsilon h,
    same_sigma h, same_factor h, same_Tr h, same_alphaAt h, same_a h, same_aT h, same_aTT h,
    same_bValue h, same_b h, same_s h, same_sT h, same_sTT h, same_aij h, same_aijT h,
    same_aijTT h, same_mixBody h, same_mixLoop h, same_amix h, same_amixT h, same_amixTT h,
    same_abar h, same_abarT h, same_bmixLoop h, same_bmix h, same_bbar h, same_beta h,
    same_betaT h, same_q h, same_qT h, same_qTT h, same_A h, same_B h, same_C h, same_AT h,
    same_BT h, same_CT h, same_f h, same_bi h, same_betai h, same_ai h, same_aiT h, same_qi h,
    same_qiT h, same_Ai h, same_Bi h, same_Ci h, same_Zfactor h hZ, same_Z h hZ, same_ZT h hZ]

/-- Two calls with the same inputs and the same root have the same `IT`. -/
theorem same_IT {c1 c2 : Call K n} (h : SameInputs c1 c2) (hZ : Zval c1 = Zval c2) :
    IT c1 = IT c2 := by
  simp only [IT, hZ, h.ext, h.T, h.P, h.x, h.model, h.critical_temperatures, h.critical_pressures,
    h.acentric_factors, h.r, h.rT, h.rTT, same_R h, same_Psi h, same_Omega h, same_epsilon h,
    same_sigma h, same_factor h, same_Tr h, same_alphaAt h, same_a h, same_aT h, same_aTT h,
    same_bValue h, same_b h, same_s h, same_sT h, same_sTT h, same_aij h, same_aijT h,
    same_aijTT h, same_mixBody h, same_mixLoop h, same_amix h, same_amixT h, same_amixTT h,
    same_abar h, same_abarT h, same_bmixLoop h, same_bmix h, same_bbar h, same_beta h,
    same_betaT h, same_q h, same_qT h, same_qTT h, same_A h, same_B h, same_C h, same_AT h,
    same_BT h, same_CT h, same_f h, same_bi h, same_betai h, same_ai h, same_aiT h, same_qi h,
    same_qiT h, same_Ai h, same_Bi h, same_Ci h, same_Zfactor h hZ, same_Z h hZ, same_ZT h hZ,
    same_I h hZ]

/-- Two calls with the same inputs and the same root have the same `V`. -/
theorem same_V {c1 c2 : Call K n} (h : SameInputs c1 c2) (hZ : Zval c1 = Zval c2) :
    V c1 = V c2 := by
  simp only [V, hZ, h.ext, h.T, h.P, h.x, h.model, h.critical_temperatures, h.critical_pressures,
    h.acentric_factors, h.r, h.rT, h.rTT, same_R h, same_Psi h, same_Omega h, same_epsilon h,
    same_sigma h, same_factor h, same_Tr h, same_alphaAt h, same_a h, same_aT h, same_aTT h,
    same_bValue h, same_b h, same_s h, same_sT h, same_sTT h, same_aij h, same_aijT h,
    same_aijTT h, same_mixBody h, same_mixLoop h, same_amix h, same_amixT h, same_amixTT h,
    same_abar h, same_abarT h, same_bmixLoop h, same_bmix h, same_bbar h, same_beta h,
    same_betaT h, same_q h, same_qT h, same_qTT h, same_A h, same_B h, same_C h, same_AT h,
    same_BT h, same_CT h, same_f h, same_bi h, same_betai h, same_ai h, same_aiT h, same_qi h,
    same_qiT h, same_Ai h, same_Bi h, same_Ci h, same_Zfactor h hZ, same_Z h hZ, same_ZT h hZ,
    same_I h hZ, same_IT h hZ]

/-- Two calls with the same inputs and the same root have the same `G_res`. -/
theorem same_G_res {c1 c2 : Call K n} (h : SameInputs c1 c2) (hZ : Zval c1 = Zval c2) :
    G_res c1 = G_res c2 := by
  simp only [G_res, hZ, h.ext, h.T, h.P, h.x, h.model, h.critical_temperatures, h.critical_pressures,
    h.acentric_factors, h.r, h.rT, h.rTT, same_R h, same_Psi h, same_Omega h, same_epsilon h,
    same_sigma h, same_factor h, same_Tr h, same_alphaAt h, same_a h, same_aT h, same_aTT h,
    same_bValue h, same_b h, same_s h, same_sT h, same_sTT h, same_aij h, same_aijT h,
    same_aijTT h, same_mixBody h, same_mixLoop h, same_amix h, same_amixT h, same_amixTT h,
    same_abar h, same_abarT h, same_bmixLoop h, same_bmix h, same_bbar h, same_beta h,
    same_betaT h, same_q h, same_qT h, same_qTT h, same_A h, same_B h, same_C h, same_AT h,
    same_BT h, same_CT h, same_f h, same_bi h, same_betai h, same_ai h, same_aiT h, same_qi h,
    same_qiT h, same_Ai h, same_Bi h, same_Ci h, same_Zfactor h hZ, same_Z h hZ, same_ZT h hZ,
    same_I h hZ, same_IT h hZ, same_V h hZ]

/-- Two calls with the same inputs and the same root have the same `H_res`. -/
theorem same_H_res {c1 c2 : Call K n} (h : SameInputs c1 c2) (hZ : Zval c1 = Zval c2) :
    H_res c1 = H_res c2 := by
  simp only [H_res, hZ, h.ext, h.T, h.P, h.x, h.model, h.critical_temperatures, h.critical_pressures,
    h.acentric_factors, h.r, h.rT, h.rTT, same_R h, same_Psi h, same_Omega h, same_epsilon h,
    same_sigma h, same_factor h, same_Tr h, same_alphaAt h, same_a h, same_aT h, same_aTT h,
    same_bValue h, same_b h, same_s h, same_sT h, same_sTT h, same_aij h, same_aijT h,
    same_aijTT h, same_mixBody h, same_mixLoop h, same_amix h, same_amixT h, same_amixTT h,
    same_abar h, same_abarT h, same_bmixLoop h, same_bmix h, same_bbar h, same_beta h,
    same_betaT h, same_q h, same_qT h, same_qTT h, same_A h, same_B h, same_C h, same_AT h,
    same_BT h, same_CT h, same_f h, same_bi h, same_betai h, same_ai h, same_aiT h, same_qi h,
    same_qiT h, same_Ai h, same_Bi h, same_Ci h, same_Zfactor h hZ, same_Z h hZ, same_ZT h hZ,
    same_I h hZ, same_IT h hZ, same_V h hZ, same_G_res h hZ]

/-- Two calls with the same inputs and the same root have the same `Cp_res`. -/
theorem same_Cp_res {c1 c2 : Call K n} (h : SameInputs c1 c2) (hZ : Zval c1 = Zval c2) :
    Cp_res c1 = Cp_res c2 := by
  simp only [Cp_res, hZ, h.ext, h.T, h.P, h.x, h.model, h.critical_temperatures, h.critical_pressures,
    h.acentric_factors, h.r, h.rT, h.rTT, same_R h, same_Psi h, same_Omega h, same_epsilon h,
    same_sigma h, same_factor h, same_Tr h, same_alphaAt h, same_a h, same_aT h, same_aTT h,
    same_bValue h, same_b h, same_s h, same_sT h, same_sTT h, same_aij h, same_aijT h,
    same_aijTT h, same_mixBody h, same_mixLoop h, same_amix h, same_amixT h, same_amixTT h,
    same_abar h, same_abarT h, same_bmixLoop h, same_bmix h, same_bbar h, same_beta h,
    same_betaT h, same_q h, same_qT h, same_qTT h, same_A h, same_B h, same_C h, same_AT h,
    same_BT h, same_CT h, same_f h, same_bi h, same_betai h, same_ai h, same_aiT h, same_qi h,
    same_qiT h, same_Ai h, same_Bi h, same_Ci h, same_Zfactor h hZ, same_Z h hZ, same_ZT h hZ,
    same_I h hZ, same_IT h hZ, same_V h hZ, same_G_res h hZ, same_H_res h hZ]

/-- Two calls with the same inputs and the same root have the same `dPdT`. -/
theorem same_dPdT {c1 c2 : Call K n} (h : SameInputs c1 c2) (hZ : Zval c1 = Zval c2) :
    dPdT c1 = dPdT c2 := by
  simp only [dPdT, hZ, h.ext, h.T, h.P, h.x, h.model, h.critical_temperatures, h.critical_pressures,
    h.acentric_factors, h.r, h.rT, h.rTT, same_R h, same_Psi h, same_Omega h, same_epsilon h,
    same_sigma h, same_factor h, same_Tr h, same_alphaAt h, same_a h, same_aT h, same_aTT h,
    same_bValue h, same_b h, same_s h, same_sT h, same_sTT h, same_aij h, same_aijT h,
    same_aijTT h, same_mixBody h, same_mixLoop h, same_amix h, same_amixT h, same_amixTT h,
    same_abar h, same_abarT h, same_bmixLoop h, same_bmix h, same_bbar h, same_beta h,
    same_betaT h, same_q h, same_qT h, same_qTT h, same_A h, same_B h, same_C h, same_AT h,
    same_BT h, same_CT h, same_f h, same_bi h, same_betai h, same_ai h, same_aiT h, same_qi h,
    same_qiT h, same_Ai h, same_Bi h, same_Ci h, same_Zfactor h hZ, same_Z h hZ, same_ZT h hZ,
    same_I h hZ, same_IT h hZ, same_V h hZ, same_G_res h hZ, same_H_res h hZ, same_Cp_res h hZ]

/-- Two calls with the same inputs and the same root have the same `dVdT`. -/
theorem same_dVdT {c1 c2 : Call K n} (h : SameInputs c1 c2) (hZ : Zval c1 = Zval c2) :
    dVdT c1 = dVdT c2 := by
  simp only [dVdT, hZ, h.ext, h.T, h.P, h.x, h.model, h.critical_temperatures, h.critical_pressures,
    h.acentric_factors, h.r, h.rT, h.rTT, same_R h, same_Psi h, same_Omega h, same_epsilon h,
    same_sigma h, same_factor h, same_Tr h, same_alphaAt h, same_a h, same_aT h, same_aTT h,
    same_bValue h, same_b h, same_s h, same_sT h, same_sTT h, same_aij h, same_aijT h,
    same_aijTT h, same_mixBody h, same_mixLoop h, same_amix h, same_amixT h, same_amixTT h,
    same_abar h, same_abarT h, same_bmixLoop h, same_bmix h, same_bbar h, same_beta h,
    same_betaT h, same_q h, same_qT h, same_qTT h, same_A h, same_B h, same_C h, same_AT h,
    same_BT h, same_CT h, same_f h, same_bi h, same_betai h, same_ai h, same_aiT h, same_qi h,
    same_qiT h, same_Ai h, same_Bi h, same_Ci h, same_Zfactor h hZ, same_Z h hZ, same_ZT h hZ,
    same_I h hZ, same_IT h hZ, same_V h hZ, same_G_res h hZ, same_H_res h hZ, same_Cp_res h hZ,
    same_dPdT h hZ]

/-- Two calls with the same inputs and the same root have the same `Cv_res`. -/
theorem same_Cv_res {c1 c2 : Call K n} (h : SameInputs c1 c2) (hZ : Zval c1 = Zval c2) :
    Cv_res c1 = Cv_res c2 := by
  simp only [Cv_res, hZ, h.ext, h.T, h.P, h.x, h.model, h.critical_temperatures, h.critical_pressures,
    h.acentric_factors, h.r, h.rT, h.rTT, same_R h, same_Psi h, same_Omega h, same_epsilon h,
    same_sigma h, same_factor h, same_Tr h, same_alphaAt h, same_a h, same_aT h, same_aTT h,
    same_bValue h, same_b h, same_s h, same_sT h, same_sTT h, same_aij h, same_aijT h,
    same_aijTT h, same_mixBody h, same_mixLoop h, same_amix h, same_amixT h, same_amixTT h,
    same_abar h, same_abarT h, same_bmixLoop h, same_bmix h, same_bbar h, same_beta h,
    same_betaT h, same_q h, same_qT h, same_qTT h, same_A h, same_B h, same_C h, same_AT h,
    same_BT h, same_CT h, same_f h, same_bi h, same_betai h, same_ai h, same_aiT h, same_qi h,
    same_qiT h, same_Ai h, same_Bi h, same_Ci h, same_Zfactor h hZ, same_Z h hZ, same_ZT h hZ,
    same_I h hZ, same_IT h hZ, same_V h hZ, same_G_res h hZ, same_H_res h hZ, same_Cp_res h hZ,
    same_dPdT h hZ, same_dVdT h hZ]

/-- Two calls with the same inputs and the same root have the same `Zi`. -/
theorem same_Zi {c1 c2 : Call K n} (h : SameInputs c1 c2) (hZ : Zval c1 = Zval c2) :
    Zi c1 = Zi c2 := by
  funext i
  simp only [Zi, hZ, h.ext, h.T, h.P, h.x, h.model, h.critical_temperatures, h.critical_pressures,
    h.acentric_factors, h.r, h.rT, h.rTT, same_R h, same_Psi h, same_Omega h, same_epsilon h,
    same_sigma h, same_factor h, same_Tr h, same_alphaAt h, same_a h, same_aT h, same_aTT h,
    same_bValue h, same_b h, same_s h, same_sT h, same_sTT h, same_aij h, same_aijT h,
    same_aijTT h, same_mixBody h, same_mixLoop h, same_amix h, same_amixT h, same_amixTT h,
    same_abar h, same_abarT h, same_bmixLoop h, same_bmix h, same_bbar h, same_beta h,
    same_betaT h, same_q h, same_qT h, same_qTT h, same_A h, same_B h, same_C h, same_AT h,
    same_BT h, same_CT h, same_f h, same_bi h, same_betai h, same_ai h, same_aiT h, same_qi h,
    same_qiT h, same_Ai h, same_Bi h, same_Ci h, same_Zfactor h hZ, same_Z h hZ, same_ZT h hZ,
    same_I h hZ, same_IT h hZ, same_V h hZ, same_G_res h hZ, same_H_res h hZ, same_Cp_res h hZ,
    same_dPdT h hZ, same_dVdT h hZ, same_Cv_res h hZ]

/-- Two calls with the same inputs and the same root have the same `Ii`. -/
theorem same_Ii {c1 c2 : Call K n} (h : SameInputs c1 c2) (hZ : Zval c1 = Zval c2) :
    Ii c1 = Ii c2 := by
  funext i
  simp only [Ii, hZ, h.ext, h.T, h.P, h.x, h.model, h.critical_temperatures, h.critical_pressures,
    h.acentric_factors, h.r, h.rT, h.rTT, same_R h, same_Psi h, same_Omega h, same_epsilon h,
    same_sigma h, same_factor h, same_Tr h, same_alphaAt h, same_a h, same_aT h, same_aTT h,
    same_bValue h, same_b h, same_s h, same_sT h, same_sTT h, same_aij h, same_aijT h,
    same_aijTT h, same_mixBody h, same_mixLoop h, same_amix h, same_amixT h, same_amixTT h,
    same_abar h, same_abarT h, same_bmixLoop h, same_bmix h, same_bbar h, same_beta h,
    same_betaT h, same_q h, same_qT h, same_qTT h, same_A h, same_B h, same_C h, same_AT h,
    same_BT h, same_CT h, same_f h, same_bi h, same_betai h, same_ai h, same_aiT h, same_qi h,
    same_qiT h, same_Ai h, same_Bi h, same_Ci h, same_Zfactor h hZ, same_Z h hZ, same_ZT h hZ,
    same_I h hZ, same_IT h hZ, same_V h hZ, same_G_res h hZ, same_H_res h hZ, same_Cp_res h hZ,
    same_dPdT h hZ, same_dVdT h hZ, same_Cv_res h hZ, same_Zi h hZ]

/-- Two calls with the same inputs and the same root have the same `Vi`. -/
theorem same_Vi {c1 c2 : Call K n} (h : SameInputs c1 c2) (hZ : Zval c1 = Zval c2) :
    Vi c1 = Vi c2 := by
  funext i
  simp only [Vi, hZ, h.ext, h.T, h.P, h.x, h.model, h.critical_temperatures, h.critical_pressures,
    h.acentric_factors, h.r, h.rT, h.rTT, same_R h, same_Psi h, same_Omega h, same_epsilon h,
    same_sigma h, same_factor h, same_Tr h, same_alphaAt h, same_a h, same_aT h, same_aTT h,
    same_bValue h, same_b h, same_s h, same_sT h, same_sTT h, same_aij h, same_aijT h,
    same_aijTT h, same_mixBody h, same_mixLoop h, same_amix h, same_amixT h, same_amixTT h,
    same_abar h, same_abarT h, same_bmixLoop h, same_bmix h, same_bbar h, same_beta h,
    same_betaT h, same_q h, same_qT h, same_qTT h, same_A h, same_B h, same_C h, same_AT h,
    same_BT h, same_CT h, same_f h, same_bi h, same_betai h, same_ai h, same_aiT h, same_qi h,
    same_qiT h, same_Ai h, same_Bi h, same_Ci h, same_Zfactor h hZ, same_Z h hZ, same_ZT h hZ,
    same_I h hZ, same_IT h hZ, same_V h hZ, same_G_res h hZ, same_H_res h hZ, same_Cp_res h hZ,
    same_dPdT h hZ, same_dVdT h hZ, same_Cv_res h hZ, same_Zi h hZ, same_Ii h hZ]

/-- Two calls with the same inputs and the same root have the same `Gi_res`. -/
theorem same_Gi_res {c1 c2 : Call K n} (h : SameInputs c1 c2) (hZ : Zval c1 = Zval c2) :
    Gi_res c1 = Gi_res c2 := by
  funext i
  simp only [Gi_res, hZ, h.ext, h.T, h.P, h.x, h.model, h.critical_temperatures, h.critical_pressures,
    h.acentric_factors, h.r, h.rT, h.rTT, same_R h, same_Psi h, same_Omega h, same_epsilon h,
    same_sigma h, same_factor h, same_Tr h, same_alphaAt h, same_a h, same_aT h, same_aTT h,
    same_bValue h, same_b h, same_s h, same_sT h, same_sTT h, same_aij h, same_aijT h,
    same_aijTT h, same_mixBody h, same_mixLoop h, same_amix h, same_amixT h, same_amixTT h,
    same_abar h, same_abarT h, same_bmixLoop h, same_bmix h, same_bbar h, same_beta h,
    same_betaT h, same_q h, same_qT h, same_qTT h, same_A h, same_B h, same_C h, same_AT h,
    same_BT h, same_CT h, same_f h, same_bi h, same_betai h, same_ai h, same_aiT h, same_qi h,
    same_qiT h, same_Ai h, same_Bi h, same_Ci h, same_Zfactor h hZ, same_Z h hZ, same_ZT h hZ,
    same_I h hZ, same_IT h hZ, same_V h hZ, same_G_res h hZ, same_H_res h hZ, same_Cp_res h hZ,
    same_dPdT h hZ, same_dVdT h hZ, same_Cv_res h hZ, same_Zi h hZ, same_Ii h hZ, same_Vi h hZ]

/-- Two calls with the same inputs and the same root have the same `Hi_res`. -/
theorem same_Hi_res {c1 c2 : Call K n} (h : SameInputs c1 c2) (hZ : Zval c1 = Zval c2) :
    Hi_res c1 = Hi_res c2 := by
  funext i
  simp only [Hi_res, hZ, h.ext, h.T, h.P, h.x, h.model, h.critical_temperatures, h.critical_pressures,
    h.acentric_factors, h.r, h.rT, h.rTT, same_R h, same_Psi h, same_Omega h, same_epsilon h,
    same_sigma h, same_factor h, same_Tr h, same_alphaAt h, same_a h, same_aT h, same_aTT h,
    same_bValue h, same_b h, same_s h, same_sT h, same_sTT h, same_aij h, same_aijT h,
    same_aijTT h, same_mixBody h, same_mixLoop h, same_amix h, same_amixT h, same_amixTT h,
    same_abar h, same_abarT h, same_bmixLoop h, same_bmix h, same_bbar h, same_beta h,
    same_betaT h, same_q h, same_qT h, same_qTT h, same_A h, same_B h, same_C h, same_AT h,
    same_BT h, same_CT h, same_f h, same_bi h, same_betai h, same_ai h, same_aiT h, same_qi h,
    same_qiT h, same_Ai h, same_Bi h, same_Ci h, same_Zfactor h hZ, same_Z h hZ, same_ZT h hZ,
    same_I h hZ, same_IT h hZ, same_V h hZ, same_G_res h hZ, same_H_res h hZ, same_Cp_res h hZ,
    same_dPdT h hZ, same_dVdT h hZ, same_Cv_res h hZ, same_Zi h hZ, same_Ii h hZ, same_Vi h hZ,
    same_Gi_res h hZ]

/-- Two calls with the same inputs and the same phase flag start the root finder at the
same guess. -/
theorem same_Z0 {c1 c2 : Call K n} (h : SameInputs c1 c2)
    (hv : c1.self.isvapor = c2.self.isvapor) : Z0 c1 = Z0 c2 := by
  simp only [Z0, hv, same_beta h]

/-- Two calls with the same inputs and the same phase flag get the same root. -/
theorem same_Zval {c1 c2 : Call K n} (h : SameInputs c1 c2)
    (hv : c1.self.isvapor = c2.self.isvapor) : Zval c1 = Zval c2 := by
  simp only [Zval, h.ext, same_f h, same_Z0 h hv]

/-- Two calls with the same inputs and the same root return the same `Result`, whatever
their stored results. -/
theorem same_result {c1 c2 : Call K n} (h : SameInputs c1 c2) (hZ : Zval c1 = Zval c2) :
    result c1 = result c2 := by
  rw [result_eq, result_eq]
  simp only [h.ext, h.T, h.P, h.x, h.model, h.critical_temperatures, h.critical_pressures,
    h.acentric_factors, h.r, h.rT, h.rTT, same_R h, same_Psi h, same_Omega h, same_epsilon h,
    same_sigma h, same_factor h, same_Tr h, same_alphaAt h, same_a h, same_aT h, same_aTT h,
    same_bValue h, same_b h, same_s h, same_sT h, same_sTT h, same_aij h, same_aijT h,
    same_aijTT h, same_mixBody h, same_mixLoop h, same_amix h, same_amixT h, same_amixTT h,
    same_abar h, same_abarT h, same_bmixLoop h, same_bmix h, same_bbar h, same_beta h,
    same_betaT h, same_q h, same_qT h, same_qTT h, same_A h, same_B h, same_C h, same_AT h,
    same_BT h, same_CT h, same_f h, same_bi h, same_betai h, same_ai h, same_aiT h, same_qi h,
    same_qiT h, same_Ai h, same_Bi h, same_Ci h, same_Zfactor h hZ, same_Z h hZ, same_ZT h hZ,
    same_I h hZ, same_IT h hZ, same_V h hZ, same_G_res h hZ, same_H_res h hZ, same_Cp_res h hZ,
    same_dPdT h hZ, same_dVdT h hZ, same_Cv_res h hZ, same_Zi h hZ, same_Ii h hZ, same_Vi h hZ,
    same_Gi_res h hZ, same_Hi_res h hZ]

end CubicEOS

/-! ## C15, C16: the stored result -/

namespace CubicEOS

open ChemicalScalar (const lift log)

variable {K : Type} [LinearOrderedField K] {n : Nat}

/-- C15: the `Result` returned by `operator()` does not depend on the contents of the
member `result` left behind by an earlier call: whatever is stored there, the same
`Result` is returned; in particular a second call with the same inputs, made on the
instance as the first call left it, returns the same `Result` as the first. -/
theorem C15_idempotence (c : Call K n) (stored : Result K n) :
    result { c with self := { c.self with result := stored } } = result c
    ∧ (call { c with self := { c.self with result := stored } }).1 = (call c).1
    ∧ (call { c with self := (call c).2 }).1 = (call c).1 := by
  have h : ∀ st : Result K n,
      result { c with self := { c.self with result := st } } = result c := by
    intro st
    apply same_result
    · exact ⟨rfl, rfl, rfl, rfl, rfl, rfl, rfl, rfl, fun _ _ => rfl, fun _ _ => rfl,
        fun _ _ => rfl⟩
    · rfl
  exact ⟨h stored, h stored, h (result c)⟩

/-- C16, as stated, fails: after the example call (one species, van der Waals, real
arithmetic) the instance differs from the instance before the call, because the member
`result` has been written. -/
theorem C16_counterexample :
    (call (exampleCall
        (⟨8.3144621, Real.sqrt, Real.log, newtonModel⟩ : Externals ℝ) 1)).2 ≠ (exampleCall
        (⟨8.3144621, Real.sqrt, Real.log, newtonModel⟩ : Externals ℝ) 1).self := by
  intro h
  have hv := congrArg (fun st : Impl ℝ 1 => st.result.molar_volume.val) h
  simp only [call, result_eq, V, ChemicalScalar.val_div, ChemicalScalar.val_mul,
    ChemicalScalar.val_const, ChemicalScalar.val_lift, Z_val, ex_Zval ⟨8.3144621, Real.sqrt, Real.log, newtonModel⟩ real_sqrt_mul_self real_R_ne_zero rfl] at hv
  norm_num [R, exampleCall, initialResult] at hv

/-- C16, amended: `operator()` writes no configuration field of the instance (species
count, phase flag, model, critical temperatures, critical pressures, acentric factors,
interaction function); it writes the member `result`, which after the call holds the
`Result` that is returned. -/
theorem C16_writes_result_only (c : Call K n) :
    (call c).2 = { c.self with result := (call c).1 }
    ∧ (call c).2.nspecies = c.self.nspecies
    ∧ (call c).2.isvapor = c.self.isvapor
    ∧ (call c).2.model = c.self.model
    ∧ (call c).2.critical_temperatures = c.self.critical_temperatures
    ∧ (call c).2.critical_pressures = c.self.critical_pressures
    ∧ (call c).2.acentric_factors = c.self.acentric_factors
    ∧ (call c).2.calculate_interaction_params = c.self.calculate_interaction_params
    ∧ (call c).2.result = (call c).1 :=
  ⟨rfl, rfl, rfl, rfl, rfl, rfl, rfl, rfl, rfl⟩

end CubicEOS

/-! ## C17: the phase flag -/

namespace CubicEOS

open ChemicalScalar (const lift log)

variable {K : Type} [LinearOrderedField K] {n : Nat}

/-- The constant `tolerance` is one millionth. -/
theorem tolerance_eq : (tolerance : K) = 1 / 1000000 := by
  norm_num [tolerance]

/-- In the phase example `beta` is 1. -/
theorem ph_beta_val (ext : Externals K) (hR : ext.universalGasConstant ≠ 0) (b : Bool) :
    (beta (phaseExampleCall ext b)).val = 1 := by
  have hb : (bmix (phaseExampleCall ext b)).val = (bmix (exampleCall ext 1)).val := rfl
  simp only [beta, ChemicalScalar.val_div, ChemicalScalar.val_mul, ChemicalScalar.val_lift,
    ThermoScalar.tval_mul, ThermoScalar.tval_const, hb, ex_bmix_val]
  simp only [phaseExampleCall, exampleCall, R]
  field_simp
  norm_num
  ring

/-- In the phase example the liquid and the vapor instance get the same root, because
both start the root finder at 1 on the same cubic. -/
theorem ph_Zval (ext : Externals K) (hR : ext.universalGasConstant ≠ 0) :
    Zval { phaseExampleCall ext true with
        self := { (phaseExampleCall ext true).self with isvapor := false } }
      = Zval (phaseExampleCall ext true) := by
  have h0 : Z0 { phaseExampleCall ext true with
        self := { (phaseExampleCall ext true).self with isvapor := false } }
      = Z0 (phaseExampleCall ext true) := by
    have hb := ph_beta_val ext hR true
    have hb' : (beta { phaseExampleCall ext true with
        self := { (phaseExampleCall ext true).self with isvapor := false } }).val
        = (beta (phaseExampleCall ext true)).val := rfl
    simp only [Z0, hb', hb]
    norm_num [phaseExampleCall]
  have hf : f { phaseExampleCall ext true with
        self := { (phaseExampleCall ext true).self with isvapor := false } }
      = f (phaseExampleCall ext true) := rfl
  simp only [Zval, h0, hf]

/-- C17: the phase flag is used only to choose the initial guess of the root finder:
`operator()` passes `Z0 = 1` when the phase is vapor and `Z0 = beta.val` when it is
liquid, with tolerance one millionth and at most 10 iterations in both cases; and for two
instances that differ only in the phase flag (set to `b` in one of them) and inputs for
which the root finder returns the same `Z`, the two `Result`s are equal. -/
theorem C17_phase_flag (c : Call K n) (b : Bool) :
    Z0 c = (if c.self.isvapor = true then 1 else (beta c).val)
    ∧ (Z c).val = c.ext.newton (f c) (Z0 c) (1 / 1000000) 10
    ∧ (Zval { c with self := { c.self with isvapor := b } } = Zval c →
        result { c with self := { c.self with isvapor := b } } = result c
        ∧ (call { c with self := { c.self with isvapor := b } }).1 = (call c).1) := by
  refine ⟨?_, ?_, fun hZ => ?_⟩
  · unfold Z0
    split <;> norm_num
  · rw [Z_val, Zval, tolerance_eq]
    rfl
  · have hs : SameInputs { c with self := { c.self with isvapor := b } } c :=
      ⟨rfl, rfl, rfl, rfl, rfl, rfl, rfl, rfl, fun _ _ => rfl, fun _ _ => rfl,
        fun _ _ => rfl⟩
    have hr := same_result hs hZ
    exact ⟨hr, hr⟩

/-- C17 at the phase example (one species, van der Waals, 270 K, 54 MPa, real
arithmetic): the liquid and the vapor instance get the same root and return the same
`Result`. -/
theorem C17_phase_flag_witness :
    Zval { (phaseExampleCall
        (⟨8.3144621, Real.sqrt, Real.log, newtonModel⟩ : Externals ℝ) true) with self := { (phaseExampleCall
        (⟨8.3144621, Real.sqrt, Real.log, newtonModel⟩ : Externals ℝ) true).self with isvapor := false } } = Zval (phaseExampleCall
        (⟨8.3144621, Real.sqrt, Real.log, newtonModel⟩ : Externals ℝ) true)
    ∧ result { (phaseExampleCall
        (⟨8.3144621, Real.sqrt, Real.log, newtonModel⟩ : Externals ℝ) true) with self := { (phaseExampleCall
        (⟨8.3144621, Real.sqrt, Real.log, newtonModel⟩ : Externals ℝ) true).self with isvapor := false } } = result (phaseExampleCall
        (⟨8.3144621, Real.sqrt, Real.log, newtonModel⟩ : Externals ℝ) true) :=
  ⟨ph_Zval _ real_R_ne_zero,
    ((C17_phase_flag (phaseExampleCall
        (⟨8.3144621, Real.sqrt, Real.log, newtonModel⟩ : Externals ℝ) true) false).2.2 (ph_Zval _ real_R_ne_zero)).1⟩

end CubicEOS

/-! ## C18: no interaction function means zero interaction parameters -/

namespace CubicEOS

open ChemicalScalar (const lift log)

variable {K : Type} [LinearOrderedField K] {n : Nat}

/-- Every read of the zero table yields the zero scalar. -/
theorem zeroTable_at (i j : Nat) : (zeroTable K n).at i j = ThermoScalar.const 0 := by
  simp only [zeroTable, Table2D.at, List.getD_eq_getElem?_getD, List.getElem?_replicate]
  by_cases hi : i < n
  · simp only [hi, if_true, Option.getD_some, List.getElem?_replicate]
    by_cases hj : j < n
    · simp only [hj, if_true, Option.getD_some]
    · simp only [hj, if_false, Option.getD_none]
  · simp only [hi, if_false, Option.getD_none, List.getElem?_nil]

/-- With no interaction function the factors are `r = 1`, `rT = 0`, `rTT = 0`. -/
theorem r_of_none (c : Call K n) (hc : c.self.calculate_interaction_params = none)
    (i j : Fin n) :
    r c i j = ThermoScalar.const 1 ∧ rT c i j = ThermoScalar.const 0
      ∧ rTT c i j = ThermoScalar.const 0 := by
  simp only [r, rT, rTT, kres, hc, List.isEmpty_nil, if_true]
  refine ⟨?_, ?_, ?_⟩ <;> apply ThermoScalar.text_components <;> norm_num

/-- With the zero interaction function the factors are `r = 1`, `rT = 0`, `rTT = 0`. -/
theorem r_of_zero (c : Call K n)
    (hc : c.self.calculate_interaction_params = some zeroInteraction) (i j : Fin n) :
    r c i j = ThermoScalar.const 1 ∧ rT c i j = ThermoScalar.const 0
      ∧ rTT c i j = ThermoScalar.const 0 := by
  simp only [r, rT, rTT, kres, hc, zeroInteraction, zeroTable_at]
  refine ⟨?_, ?_, ?_⟩ <;> split <;> apply ThermoScalar.text_components <;> norm_num

/-- With `r = 1`, `rT = 0`, `rTT = 0` the binary parameter and its temperature
derivatives are those of `sqrt(a_i*a_j)`. -/
theorem aij_of_r_one (c : Call K n) (i j : Fin n) (h1 : r c i j = ThermoScalar.const 1)
    (h2 : rT c i j = ThermoScalar.const 0) (h3 : rTT c i j = ThermoScalar.const 0) :
    aij c i j = s c i j ∧ aijT c i j = sT c i j ∧ aijTT c i j = sTT c i j := by
  simp only [aij, aijT, aijTT, h1, h2, h3]
  refine ⟨?_, ?_, ?_⟩ <;> apply ThermoScalar.text_components <;>
    simp only [ThermoScalar.tval_mul, ThermoScalar.tval_add, ThermoScalar.tval_const,
      ThermoScalar.tddt_mul, ThermoScalar.tddt_add, ThermoScalar.tddt_const,
      ThermoScalar.tddp_mul, ThermoScalar.tddp_add, ThermoScalar.tddp_const] <;> ring

/-- C18: for every configuration and input, `operator()` with no interaction function
set returns the same `Result` as with an interaction function that returns
`nspecies x nspecies` tables `k`, `kT`, `kTT` of zeros; in both cases
`a_ij = sqrt(a_i*a_j)`, and `aijT`, `aijTT` are the temperature derivatives `sT`, `sTT` of
`sqrt(a_i*a_j)`. -/
theorem C18_no_interaction_is_zero (c : Call K n) :
    result { c with self := { c.self with calculate_interaction_params := none } }
      = result { c with
          self := { c.self with calculate_interaction_params := some zeroInteraction } }
    ∧ (call { c with self := { c.self with calculate_interaction_params := none } }).1
      = (call { c with
          self := { c.self with calculate_interaction_params := some zeroInteraction } }).1
    ∧ (∀ i j,
        aij { c with self := { c.self with calculate_interaction_params := none } } i j
          = s { c with self := { c.self with calculate_interaction_params := none } } i j
        ∧ aijT { c with self := { c.self with calculate_interaction_params := none } } i j
          = sT { c with self := { c.self with calculate_interaction_params := none } } i j
        ∧ aijTT { c with self := { c.self with calculate_interaction_params := none } } i j
          = sTT { c with self := { c.self with calculate_interaction_params := none } } i j)
    ∧ ∀ i j,
        aij { c with
              self := { c.self with calculate_interaction_params := some zeroInteraction } }
            i j
          = s { c with
              self := { c.self with calculate_interaction_params := some zeroInteraction } }
            i j
        ∧ aijT { c with
              self := { c.self with calculate_interaction_params := some zeroInteraction } }
            i j
          = sT { c with
              self := { c.self with calculate_interaction_params := some zeroInteraction } }
            i j
        ∧ aijTT { c with
              self := { c.self with calculate_interaction_params := some zeroInteraction } }
            i j
          = sTT { c with
              self := { c.self with calculate_interaction_params := some zeroInteraction } }
            i j := by
  have h0 := r_of_none { c with self := { c.self with calculate_interaction_params := none } }
    rfl
  have hz := r_of_zero
    { c with self := { c.self with calculate_interaction_params := some zeroInteraction } } rfl
  have hs : SameInputs
      { c with self := { c.self with calculate_interaction_params := none } }
      { c with self := { c.self with calculate_interaction_params := some zeroInteraction } } :=
    ⟨rfl, rfl, rfl, rfl, rfl, rfl, rfl, rfl,
      fun i j => (h0 i j).1.trans (hz i j).1.symm,
      fun i j => (h0 i j).2.1.trans (hz i j).2.1.symm,
      fun i j => (h0 i j).2.2.trans (hz i j).2.2.symm⟩
  have hr := same_result hs (same_Zval hs rfl)
  exact ⟨hr, hr,
    fun i j => aij_of_r_one _ i j (h0 i j).1 (h0 i j).2.1 (h0 i j).2.2,
    fun i j => aij_of_r_one _ i j (hz i j).1 (hz i j).2.1 (hz i j).2.2⟩

end CubicEOS

/-! ## C19: the covolume mixing rule -/

namespace CubicEOS

open ChemicalScalar (const lift log)

variable {K : Type} [LinearOrderedField K] {n : Nat}

/-- C19: for every species count, composition and model, `operator()` computes
`bmix = sum_i x_i * b_i` with `b_i = Omega*R*Tc_i/Pc_i`; the parameter `bbar_i` used in
the properties of the species (the local `bi`) equals `b_i` for every `i`; both have zero
temperature and pressure derivative components; and the temperature derivative of `bmix`
used in `betaT` is 0, so that `betaT` has the value `-beta/T`. -/
theorem C19_covolume (c : Call K n) :
    bmix c = ∑ i, c.x i * lift (b c i)
    ∧ (bmix c).val = ∑ i, (c.x i).val
        * (internal.Omega c.self.model * c.ext.universalGasConstant
            * vecAt c.self.critical_temperatures i / vecAt c.self.critical_pressures i)
    ∧ (∀ i, b c i = ThermoScalar.const
        (internal.Omega c.self.model * c.ext.universalGasConstant
            * vecAt c.self.critical_temperatures i / vecAt c.self.critical_pressures i))
    ∧ (∀ i, bbar c i = b c i ∧ bi c i = b c i)
    ∧ (∀ i, (b c i).ddt = 0 ∧ (b c i).ddp = 0 ∧ (bbar c i).ddt = 0 ∧ (bbar c i).ddp = 0)
    ∧ (bmixT : K) = 0
    ∧ betaT c = beta c * (const bmixT / bmix c - lift (ThermoScalar.const 1.0 / c.T))
    ∧ (betaT c).val = -(beta c).val / c.T.val := by
  refine ⟨?_, ?_, ?_, ?_, ?_, ?_, rfl, ?_⟩
  · rw [bmix_eq_sum]
    simp only [b_eq]
  · rw [bmix_eq_sum, ChemicalScalar.val_sum]
    rfl
  · intro i
    rw [b_eq]
    rfl
  · intro i
    rw [bi, bbar_eq, b_eq]
    exact ⟨rfl, rfl⟩
  · intro i
    rw [bbar_eq, b_eq]
    exact ⟨rfl, rfl, rfl, rfl⟩
  · norm_num [bmixT]
  · simp only [betaT, bmixT, ChemicalScalar.val_mul, ChemicalScalar.val_sub,
      ChemicalScalar.val_div, ChemicalScalar.val_const, ChemicalScalar.val_lift,
      ThermoScalar.tval_div, ThermoScalar.tval_const]
    norm_num
    ring

end CubicEOS

/-! ## C20: the row views of a `ThermoVector` -/

namespace Reaktor

/-- C20: for every `ThermoVector` `v` with `N` rows, every `i < N` and every scalar `s`,
assigning `s` through the mutable row view `row(i)` makes `v.val[i]`, `v.ddt[i]`,
`v.ddp[i]` equal to `s.val`, `s.ddt`, `s.ddp`; a read of `row(i)` afterwards returns `s`;
every other row (in all three component vectors) is unchanged; and so is the length
`N`. -/
theorem C20_row_view_aliases {K : Type} [Zero K] (v : ThermoVector K) (N i : Nat)
    (hval : v.val.length = N) (hddt : v.ddt.length = N) (hddp : v.ddp.length = N)
    (hi : i < N) (s : ThermoScalar K) :
    ((v.row i).assign s v).val[i]? = some s.val
    ∧ ((v.row i).assign s v).ddt[i]? = some s.ddt
    ∧ ((v.row i).assign s v).ddp[i]? = some s.ddp
    ∧ ((v.row i).assign s v).constRow i = s
    ∧ (∀ j, j ≠ i →
        ((v.row i).assign s v).val[j]? = v.val[j]?
        ∧ ((v.row i).assign s v).ddt[j]? = v.ddt[j]?
        ∧ ((v.row i).assign s v).ddp[j]? = v.ddp[j]?
        ∧ ((v.row i).assign s v).constRow j = v.constRow j)
    ∧ ((v.row i).assign s v).val.length = N
    ∧ ((v.row i).assign s v).ddt.length = N
    ∧ ((v.row i).assign s v).ddp.length = N := by
  have h1 : i < v.val.length := hval ▸ hi
  have h2 : i < v.ddt.length := hddt ▸ hi
  have h3 : i < v.ddp.length := hddp ▸ hi
  simp only [ThermoVector.row, ThermoVectorRow.assign, ThermoVector.constRow,
    List.length_set, hval, hddt, hddp, List.getD_eq_getElem?_getD]
  refine ⟨?_, ?_, ?_, ?_, ?_, trivial, trivial, trivial⟩
  · simp [List.getElem?_set, h1]
  · simp [List.getElem?_set, h2]
  · simp [List.getElem?_set, h3]
  · simp [List.getElem?_set, h1, h2, h3]
  · intro j hj
    have hj' : ¬ i = j := fun h => hj h.symm
    simp [List.getElem?_set, hj']

/-- C20 on a vector of three rows, assigning `(7, 8, 9)` through the view of row 1. -/
theorem C20_row_view_aliases_witness :
    (([1, 2, 3] : List ℚ).length = 3 ∧ ([0, 0, 0] : List ℚ).length = 3
      ∧ ([4, 5, 6] : List ℚ).length = 3 ∧ 1 < 3)
    ∧ (((⟨[1, 2, 3], [0, 0, 0], [4, 5, 6]⟩ : ThermoVector ℚ).row 1).assign ⟨7, 8, 9⟩
        ⟨[1, 2, 3], [0, 0, 0], [4, 5, 6]⟩).constRow 1 = ⟨7, 8, 9⟩ :=
  ⟨⟨rfl, rfl, rfl, by decide⟩,
    (C20_row_view_aliases ⟨[1, 2, 3], [0, 0, 0], [4, 5, 6]⟩ 3 1 rfl rfl rfl (by decide)
      ⟨7, 8, 9⟩).2.2.2.1⟩

end Reaktor

/-! ## C25: the storage layout of the tridiagonal matrix -/

namespace Transport

namespace TridiagonalMatrix

/-- C25.  Storage layout of `TridiagonalMatrix`: for every size `n ≥ 1` the matrix holds
`3 * n` coefficients; `row(i)` is the three consecutive positions `3 * i`, `3 * i + 1`,
`3 * i + 2`; the views `a()`, `b()`, `c()` have `n - 1`, `n`, `n - 1` entries, the `k`-th
at the positions `3 * (k + 1)`, `3 * k + 1`, `3 * k + 2`, which are the first position of
row `k + 1`, the middle one of row `k` and the last one of row `k`; every position of a
row or of a view lies below `3 * n`, and no position belongs to two of the three views. -/
theorem C25_tridiagonal_layout (K : Type) [Zero K] (n : Nat) (hn : 1 ≤ n) :
    (ofSize n : TridiagonalMatrix K).data.length = 3 * n ∧
    (∀ i, i < n →
      ((ofSize n : TridiagonalMatrix K).row i).positions = [3 * i, 3 * i + 1, 3 * i + 2] ∧
      ∀ p ∈ ((ofSize n : TridiagonalMatrix K).row i).positions, p < 3 * n) ∧
    ((ofSize n : TridiagonalMatrix K).a.size = n - 1 ∧
      (ofSize n : TridiagonalMatrix K).b.size = n ∧
      (ofSize n : TridiagonalMatrix K).c.size = n - 1) ∧
    (∀ k,
      (ofSize n : TridiagonalMatrix K).a.position k = 3 * (k + 1) ∧
      (ofSize n : TridiagonalMatrix K).b.position k = 3 * k + 1 ∧
      (ofSize n : TridiagonalMatrix K).c.position k = 3 * k + 2 ∧
      (ofSize n : TridiagonalMatrix K).a.position k =
        ((ofSize n : TridiagonalMatrix K).row (k + 1)).position 0 ∧
      (ofSize n : TridiagonalMatrix K).b.position k =
        ((ofSize n : TridiagonalMatrix K).row k).position 1 ∧
      (ofSize n : TridiagonalMatrix K).c.position k =
        ((ofSize n : TridiagonalMatrix K).row k).position 2) ∧
    ((∀ p ∈ (ofSize n : TridiagonalMatrix K).a.positions, p < 3 * n) ∧
      (∀ p ∈ (ofSize n : TridiagonalMatrix K).b.positions, p < 3 * n) ∧
      (∀ p ∈ (ofSize n : TridiagonalMatrix K).c.positions, p < 3 * n)) ∧
    (∀ p, ¬ (p ∈ (ofSize n : TridiagonalMatrix K).a.positions ∧
          p ∈ (ofSize n : TridiagonalMatrix K).b.positions) ∧
        ¬ (p ∈ (ofSize n : TridiagonalMatrix K).a.positions ∧
          p ∈ (ofSize n : TridiagonalMatrix K).c.positions) ∧
        ¬ (p ∈ (ofSize n : TridiagonalMatrix K).b.positions ∧
          p ∈ (ofSize n : TridiagonalMatrix K).c.positions)) := by
  have hpos : ∀ (v : VectorStridedRef) (p : Nat),
      p ∈ v.positions ↔ ∃ k, k < v.size ∧ v.offset + v.stride * k = p := by
    intro v p
    simp [VectorStridedRef.positions, VectorStridedRef.position]
  refine ⟨by simp [ofSize, data]; omega, ?_, ⟨rfl, rfl, rfl⟩, ?_, ⟨?_, ?_, ?_⟩, ?_⟩
  · intro i hi
    refine ⟨by simp [row, VectorStridedRef.positions, VectorStridedRef.position,
      List.range_succ], ?_⟩
    intro p hp
    obtain ⟨k, hk, rfl⟩ := (hpos _ p).1 hp
    simp only [row] at hk ⊢
    omega
  · intro k
    simp only [a, b, c, row, VectorStridedRef.position]
    refine ⟨by omega, by omega, by omega, by omega, by omega, by omega⟩
  · intro p hp
    obtain ⟨k, hk, rfl⟩ := (hpos _ p).1 hp
    simp only [a, size, ofSize] at hk ⊢
    omega
  · intro p hp
    obtain ⟨k, hk, rfl⟩ := (hpos _ p).1 hp
    simp only [b, size, ofSize] at hk ⊢
    omega
  · intro p hp
    obtain ⟨k, hk, rfl⟩ := (hpos _ p).1 hp
    simp only [c, size, ofSize] at hk ⊢
    omega
  · intro p
    refine ⟨?_, ?_, ?_⟩
    · rintro ⟨h1, h2⟩
      obtain ⟨k, _, rfl⟩ := (hpos _ p).1 h1
      obtain ⟨k2, _, h⟩ := (hpos _ _).1 h2
      simp only [a, b] at h
      omega
    · rintro ⟨h1, h2⟩
      obtain ⟨k, _, rfl⟩ := (hpos _ p).1 h1
      obtain ⟨k2, _, h⟩ := (hpos _ _).1 h2
      simp only [a, c] at h
      omega
    · rintro ⟨h1, h2⟩
      obtain ⟨k, _, rfl⟩ := (hpos _ p).1 h1
      obtain ⟨k2, _, h⟩ := (hpos _ _).1 h2
      simp only [b, c] at h
      omega

/-- C25 at the size 2. -/
theorem C25_tridiagonal_layout_witness :
    1 ≤ 2 ∧ (ofSize 2 : TridiagonalMatrix ℚ).data.length = 3 * 2 ∧
      (ofSize 2 : TridiagonalMatrix ℚ).a.positions = [3] ∧
      (ofSize 2 : TridiagonalMatrix ℚ).b.positions = [1, 4] ∧
      (ofSize 2 : TridiagonalMatrix ℚ).c.positions = [2] :=
  ⟨by decide, (C25_tridiagonal_layout ℚ 2 (by decide)).1, by decide, by decide, by decide⟩

end TridiagonalMatrix

end Transport

/-! ## C26: the list constructors of the matrix plugin -/

namespace EigenMatrixPlugin

namespace Matrix

variable {K : Type}

theorem position_injective {r i j i2 j2 : Nat} (hi : i < r) (hi2 : i2 < r)
    (h : i + j * r = i2 + j2 * r) : i = i2 ∧ j = j2 := by
  have hr : 0 < r := by omega
  have h1 : (i + j * r) % r = (i2 + j2 * r) % r := by rw [h]
  have h2 : (i + j * r) / r = (i2 + j2 * r) / r := by rw [h]
  rw [Nat.add_mul_mod_self_right, Nat.add_mul_mod_self_right, Nat.mod_eq_of_lt hi,
    Nat.mod_eq_of_lt hi2] at h1
  rw [Nat.add_mul_div_right _ _ hr, Nat.add_mul_div_right _ _ hr, Nat.div_eq_of_lt hi,
    Nat.div_eq_of_lt hi2] at h2
  exact ⟨h1, by omega⟩

theorem position_lt {r c i j : Nat} (hi : i < r) (hj : j < c) : i + j * r < r * c := by
  have h1 : (j + 1) * r ≤ c * r := Nat.mul_le_mul_right r hj
  have h2 : (j + 1) * r = j * r + r := by ring
  have h3 : c * r = r * c := Nat.mul_comm c r
  omega

theorem coeff_setCoeff [Zero K] (m : Matrix K) (i j i2 j2 : Nat) (v : K)
    (hi : i < m.rows) (hi2 : i2 < m.rows) :
    (m.setCoeff i j v).coeff i2 j2 =
      if i2 = i ∧ j2 = j ∧ i + j * m.rows < m.data.length then v else m.coeff i2 j2 := by
  simp only [coeff, setCoeff, List.getD_eq_getElem?_getD, List.getElem?_set]
  by_cases h : i + j * m.rows = i2 + j2 * m.rows
  · obtain ⟨h1, h2⟩ := position_injective hi hi2 h
    subst h1 h2
    by_cases hl : i + j * m.rows < m.data.length
    · simp [hl]
    · simp [hl]
      rw [List.getElem?_eq_none (by omega)]
      rfl
  · have : ¬ (i2 = i ∧ j2 = j ∧ i + j * m.rows < m.data.length) := by
      rintro ⟨h1, h2, _⟩
      exact h (by rw [h1, h2])
    simp [h, this]

theorem fillRow_spec [Zero K] (i : Nat) (row : List K) :
    ∀ (m : Matrix K) (j0 : Nat), i < m.rows →
      (fillRow i row (m, j0)).1.rows = m.rows ∧
      (fillRow i row (m, j0)).1.cols = m.cols ∧
      (fillRow i row (m, j0)).1.data.length = m.data.length ∧
      ∀ i2 j2, i2 < m.rows →
        (fillRow i row (m, j0)).1.coeff i2 j2 =
          if i2 = i ∧ j0 ≤ j2 ∧ j2 < j0 + row.length ∧ i + j2 * m.rows < m.data.length
          then row.getD (j2 - j0) 0 else m.coeff i2 j2 := by
  induction row with
  | nil =>
    intro m j0 _
    simp only [fillRow, List.foldl_nil, List.length_nil, Nat.add_zero, true_and]
    intro i2 j2 _
    rw [if_neg]
    rintro ⟨_, h1, h2, _⟩
    omega
  | cons e row ih =>
    intro m j0 hi
    have hstep : fillRow i (e :: row) (m, j0) = fillRow i row (m.setCoeff i j0 e, j0 + 1) := by
      simp [fillRow]
    obtain ⟨h1, h2, h3, h4⟩ := ih (m.setCoeff i j0 e) (j0 + 1) hi
    rw [hstep]
    refine ⟨h1, h2, by rw [h3]; simp [setCoeff], ?_⟩
    intro i2 j2 hi2
    rw [h4 i2 j2 hi2, coeff_setCoeff m i j0 i2 j2 e hi hi2]
    have hl : (m.setCoeff i j0 e).data.length = m.data.length := by simp [setCoeff]
    have hr : (m.setCoeff i j0 e).rows = m.rows := rfl
    rw [hl, hr]
    by_cases hA : i2 = i ∧ j0 + 1 ≤ j2 ∧ j2 < j0 + 1 + row.length ∧
        i + j2 * m.rows < m.data.length
    · obtain ⟨a1, a2, a3, a4⟩ := hA
      have hB : i2 = i ∧ j0 ≤ j2 ∧ j2 < j0 + (e :: row).length ∧
          i + j2 * m.rows < m.data.length := ⟨a1, by omega, by simp; omega, a4⟩
      rw [if_pos ⟨a1, a2, a3, a4⟩, if_pos hB]
      have : j2 - j0 = (j2 - (j0 + 1)) + 1 := by omega
      rw [this, List.getD_cons_succ]
    · rw [if_neg hA]
      by_cases hC : i2 = i ∧ j2 = j0 ∧ i + j0 * m.rows < m.data.length
      · obtain ⟨c1, c2, c3⟩ := hC
        subst c2
        rw [if_pos ⟨c1, rfl, c3⟩, if_pos ⟨c1, le_refl _, by simp, c3⟩]
        simp
      · rw [if_neg hC, if_neg]
        rintro ⟨b1, b2, b3, b4⟩
        simp at b3
        by_cases hj : j2 = j0
        · subst hj
          exact hC ⟨b1, rfl, b4⟩
        · exact hA ⟨b1, by omega, by omega, b4⟩

theorem fillRows_spec [Zero K] (c : Nat) (list : List (List K)) :
    ∀ (m : Matrix K) (i0 : Nat), (∀ row ∈ list, row.length = c) →
      i0 + list.length ≤ m.rows → m.cols = c → m.data.length = m.rows * c →
      (fillRows list (m, i0, 0)).1.rows = m.rows ∧
      (fillRows list (m, i0, 0)).1.cols = m.cols ∧
      ∀ i2 j2, i2 < m.rows → j2 < c →
        (fillRows list (m, i0, 0)).1.coeff i2 j2 =
          if i0 ≤ i2 ∧ i2 < i0 + list.length
          then (list.getD (i2 - i0) []).getD j2 0 else m.coeff i2 j2 := by
  induction list with
  | nil =>
    intro m i0 _ _ _ _
    simp only [fillRows, List.foldl_nil, List.length_nil, Nat.add_zero, true_and]
    intro i2 j2 _ _
    rw [if_neg]
    rintro ⟨h1, h2⟩
    omega
  | cons row list ih =>
    intro m i0 hrow hlen hcols hdata
    have hstep : fillRows (row :: list) (m, i0, 0) =
        fillRows list ((fillRow i0 row (m, 0)).1, i0 + 1, 0) := by
      simp [fillRows]
    have hi0 : i0 < m.rows := by simp at hlen; omega
    obtain ⟨f1, f2, f3, f4⟩ := fillRow_spec i0 row m 0 hi0
    have hrl : row.length = c := hrow row (by simp)
    obtain ⟨h1, h2, h3⟩ := ih (fillRow i0 row (m, 0)).1 (i0 + 1)
      (fun r hr => hrow r (by simp [hr])) (by rw [f1]; simp at hlen; omega)
      (by rw [f2, hcols]) (by rw [f3, f1, hdata])
    rw [hstep]
    refine ⟨by rw [h1, f1], by rw [h2, f2], ?_⟩
    intro i2 j2 hi2 hj2
    rw [h3 i2 j2 (by rw [f1]; exact hi2) hj2, f4 i2 j2 hi2]
    have hp : i0 + j2 * m.rows < m.data.length := by
      rw [hdata]; exact position_lt hi0 hj2
    by_cases hA : i0 + 1 ≤ i2 ∧ i2 < i0 + 1 + list.length
    · rw [if_pos hA, if_pos ⟨by omega, by simp; omega⟩]
      have : i2 - i0 = (i2 - (i0 + 1)) + 1 := by omega
      rw [this, List.getD_cons_succ]
    · rw [if_neg hA]
      by_cases hB : i2 = i0
      · subst hB
        rw [if_pos ⟨rfl, Nat.zero_le _, by omega, hp⟩, if_pos ⟨le_refl _, by simp⟩]
        simp
      · rw [if_neg (fun h => hB h.1), if_neg]
        rintro ⟨b1, b2⟩
        simp at b2
        exact hA ⟨by omega, by omega⟩

theorem ofList_spec [Zero K] (list : List K) :
    ∀ (m : Matrix K) (i0 : Nat),
      (list.foldl (fun (st : Matrix K × Nat) entry => (st.1.setData st.2 entry, st.2 + 1))
        (m, i0)).1.rows = m.rows ∧
      (list.foldl (fun (st : Matrix K × Nat) entry => (st.1.setData st.2 entry, st.2 + 1))
        (m, i0)).1.cols = m.cols ∧
      ∀ p, i0 + list.length ≤ m.data.length →
        (list.foldl (fun (st : Matrix K × Nat) entry => (st.1.setData st.2 entry, st.2 + 1))
          (m, i0)).1.data.getD p 0 =
          if i0 ≤ p ∧ p < i0 + list.length then list.getD (p - i0) 0
          else m.data.getD p 0 := by
  induction list with
  | nil =>
    intro m i0
    simp only [List.foldl_nil, List.length_nil, Nat.add_zero, true_and]
    intro p _
    rw [if_neg]
    rintro ⟨h1, h2⟩
    omega
  | cons e list ih =>
    intro m i0
    obtain ⟨h1, h2, h3⟩ := ih (m.setData i0 e) (i0 + 1)
    simp only [List.foldl_cons]
    refine ⟨h1, h2, ?_⟩
    intro p hp
    have hl : (m.setData i0 e).data.length = m.data.length := by simp [setData]
    rw [h3 p (by rw [hl]; simp at hp; omega)]
    by_cases hA : i0 + 1 ≤ p ∧ p < i0 + 1 + list.length
    · rw [if_pos hA, if_pos ⟨by omega, by simp; omega⟩]
      have : p - i0 = (p - (i0 + 1)) + 1 := by omega
      rw [this, List.getD_cons_succ]
    · rw [if_neg hA]
      by_cases hB : p = i0
      · subst hB
        rw [if_pos ⟨le_refl _, by simp⟩]
        simp at hp
        have hlt : p < m.data.length := by omega
        simp [setData, List.getD_eq_getElem?_getD, List.getElem?_set, hlt]
      · rw [if_neg]
        · have hne : ¬ i0 = p := fun h => hB h.symm
          simp [setData, List.getD_eq_getElem?_getD, List.getElem?_set, hne]
        · rintro ⟨b1, b2⟩
          simp at b2
          exact hA ⟨by omega, by omega⟩

/-- C26.  List-based matrix construction: for a nested list whose rows all have the same
length `c`, the matrix has as many rows as the list and `c` columns, and its entry
`(i, j)` is the `j`-th element of the `i`-th row; the empty list gives a matrix with no
rows and no columns; the column count is the length of the first row, whatever the other
rows are; and the matrix of a flat list of `n` scalars has `n` rows and one column, with
the `i`-th scalar as its `i`-th entry. -/
theorem C26_list_construction (K : Type) [Zero K] :
    (∀ (list : List (List K)) (c : Nat), (∀ row ∈ list, row.length = c) →
      (ofLists list).rows = list.length ∧
      (ofLists list).cols = (if list.length ≠ 0 then c else 0) ∧
      ∀ i j, i < list.length → j < c →
        (ofLists list).coeff i j = (list.getD i []).getD j 0) ∧
    ((ofLists ([] : List (List K))).rows = 0 ∧ (ofLists ([] : List (List K))).cols = 0) ∧
    (∀ (row : List K) (rest : List (List K)), (ofLists (row :: rest)).cols = row.length) ∧
    (∀ list : List K,
      (ofList list).rows = list.length ∧ (ofList list).cols = 1 ∧
      ∀ i, i < list.length → (ofList list).coeff i 0 = list.getD i 0) := by
  have hcols : ∀ list : List (List K), (ofLists list).cols =
      (if list.length ≠ 0 then (list.headD []).length else 0) := by
    intro list
    have h : ∀ (l : List (List K)) (st : Matrix K × Nat × Nat),
        (fillRows l st).1.cols = st.1.cols := by
      intro l
      induction l with
      | nil => intro st; rfl
      | cons row l ih =>
        intro st
        have hstep : fillRows (row :: l) st =
            fillRows l ((fillRow st.2.1 row (st.1, st.2.2)).1, st.2.1 + 1, 0) := by
          simp [fillRows]
        rw [hstep, ih]
        have hr : ∀ (r : List K) (s : Matrix K × Nat), (fillRow st.2.1 r s).1.cols = s.1.cols := by
          intro r
          induction r with
          | nil => intro s; rfl
          | cons e r ihr =>
            intro s
            have hs : fillRow st.2.1 (e :: r) s =
                fillRow st.2.1 r (s.1.setCoeff st.2.1 s.2 e, s.2 + 1) := by
              simp [fillRow]
            rw [hs, ihr]
            rfl
        exact hr row _
    rw [ofLists, h]
    rfl
  refine ⟨?_, ⟨rfl, rfl⟩, ?_, ?_⟩
  · intro list c hrow
    have hc : (if list.length ≠ 0 then (list.headD []).length else 0) =
        (if list.length ≠ 0 then c else 0) := by
      cases list with
      | nil => rfl
      | cons row rest => simpa using hrow row (by simp)
    by_cases hl : list.length = 0
    · have : list = [] := List.length_eq_zero.mp hl
      subst this
      refine ⟨rfl, rfl, ?_⟩
      intro i j hi
      simp at hi
    · have hc2 : (if list.length ≠ 0 then (list.headD []).length else 0) = c := by
        rw [hc, if_pos hl]
      obtain ⟨h1, h2, h3⟩ := fillRows_spec c list
        (ofDims list.length (if list.length ≠ 0 then (list.headD []).length else 0)) 0
        hrow (by simp [ofDims]) (by simp only [ofDims]; exact hc2)
        (by simp only [ofDims, List.length_replicate]; rw [hc2])
      refine ⟨h1, ?_, ?_⟩
      · rw [hcols, hc]
      · intro i j hi hj
        have := h3 i j hi hj
        rw [if_pos (show 0 ≤ i ∧ i < 0 + list.length from ⟨Nat.zero_le _, by omega⟩)] at this
        exact this
  · intro row rest
    rw [hcols]
    simp
  · intro list
    obtain ⟨h1, h2, h3⟩ := ofList_spec list (ofDims list.length 1) 0
    refine ⟨h1, h2, ?_⟩
    intro i hi
    have := h3 i (by simp [ofDims])
    rw [if_pos (show 0 ≤ i ∧ i < 0 + list.length from ⟨Nat.zero_le _, by omega⟩)] at this
    have hr : (ofList list).rows = list.length := h1
    rw [coeff, hr, Nat.zero_mul]
    exact this

/-- C26 at the lists `[[1, 2, 3], [4, 5, 6]]` and `[7, 8, 9]`; the rows `[[1], [2, 3]]`
of unequal length give a matrix with one column. -/
theorem C26_list_construction_witness :
    (∀ row ∈ [[(1 : ℤ), 2, 3], [4, 5, 6]], row.length = 3) ∧
    (ofLists [[(1 : ℤ), 2, 3], [4, 5, 6]]).rows = 2 ∧
    (ofLists [[(1 : ℤ), 2, 3], [4, 5, 6]]).cols = 3 ∧
    (ofLists [[(1 : ℤ), 2, 3], [4, 5, 6]]).coeff 1 2 = 6 ∧
    ofLists [[(1 : ℤ), 2, 3], [4, 5, 6]] = ⟨2, 3, [1, 4, 2, 5, 3, 6]⟩ ∧
    ofLists [[(1 : ℤ)], [2, 3]] = ⟨2, 1, [1, 2]⟩ ∧
    ofList [(7 : ℤ), 8, 9] = ⟨3, 1, [7, 8, 9]⟩ :=
  ⟨by decide,
    ((C26_list_construction ℤ).1 [[1, 2, 3], [4, 5, 6]] 3 (by decide)).1,
    ((C26_list_construction ℤ).1 [[1, 2, 3], [4, 5, 6]] 3 (by decide)).2.1,
    ((C26_list_construction ℤ).1 [[1, 2, 3], [4, 5, 6]] 3 (by decide)).2.2 1 2
      (by decide) (by decide),
    by decide, by decide, by decide⟩

end Matrix

end EigenMatrixPlugin

/-! ## C22: summability of the partial molar residual Gibbs energies -/

namespace CubicEOS

open ChemicalScalar (const lift log)

variable {K : Type} [LinearOrderedField K] {n : Nat}

theorem bmix_val_sum (c : Call K n) :
    (bmix c).val = ∑ i, (c.x i).val * bValue c i := by
  rw [bmix_eq_sum]
  simp only [ChemicalScalar.val_sum, ChemicalScalar.val_mul, ChemicalScalar.val_lift,
    ThermoScalar.tval_const]

theorem betai_val (c : Call K n) (i : Fin n) :
    (betai c i).val = c.P.val * bValue c i / (R c * c.T.val) := by
  simp only [betai, bi, bbar_eq, ThermoScalar.tval_div, ThermoScalar.tval_mul,
    ThermoScalar.tval_const]

theorem beta_val (c : Call K n) :
    (beta c).val = c.P.val * (bmix c).val / (R c * c.T.val) := by
  simp only [beta, ChemicalScalar.val_div, ChemicalScalar.val_mul, ChemicalScalar.val_lift,
    ThermoScalar.tval_mul, ThermoScalar.tval_const]

theorem sum_x_betai (c : Call K n) :
    ∑ i, (c.x i).val * (betai c i).val = (beta c).val := by
  have h : ∀ i, (c.x i).val * (betai c i).val =
      c.P.val / (R c * c.T.val) * ((c.x i).val * bValue c i) := by
    intro i
    rw [betai_val]
    ring
  rw [Finset.sum_congr rfl fun i _ => h i, ← Finset.mul_sum, ← bmix_val_sum, beta_val]
  ring

theorem qi_val (c : Call K n) (i : Fin n) :
    (qi c i).val =
      (q c).val * (1 + (abar c i).val / (amix c).val - bValue c i / (bmix c).val) := by
  simp only [qi, ai, bi, bbar_eq, ChemicalScalar.val_mul, ChemicalScalar.val_add,
    ChemicalScalar.val_sub, ChemicalScalar.val_div, ChemicalScalar.val_const,
    ChemicalScalar.val_lift, ThermoScalar.tval_const]

theorem sum_x_qi (c : Call K n) (hx : ∑ i, (c.x i).val = 1)
    (ha : (amix c).val ≠ 0) (hb : (bmix c).val ≠ 0) :
    ∑ i, (c.x i).val * (qi c i).val = (q c).val := by
  have h : ∀ i, (c.x i).val * (qi c i).val =
      (q c).val * (c.x i).val
        + (q c).val / (amix c).val * ((c.x i).val * (abar c i).val)
        - (q c).val / (bmix c).val * ((c.x i).val * bValue c i) := by
    intro i
    rw [qi_val]
    ring
  rw [Finset.sum_congr rfl fun i _ => h i, Finset.sum_sub_distrib, Finset.sum_add_distrib,
    ← Finset.mul_sum, ← Finset.mul_sum, ← Finset.mul_sum, ← bmix_val_sum, sum_x_abar, hx]
  field_simp
  ring

theorem Ai_val (c : Call K n) (i : Fin n) :
    (Ai c i).val = (epsilon c + sigma c - 1) * (betai c i).val - 1 := by
  simp only [Ai, ThermoScalar.tval_sub, ThermoScalar.tval_mul, ThermoScalar.tval_const]

theorem sum_x_Ai (c : Call K n) (hx : ∑ i, (c.x i).val = 1) :
    ∑ i, (c.x i).val * (Ai c i).val = (A c).val := by
  have h : ∀ i, (c.x i).val * (Ai c i).val =
      (epsilon c + sigma c - 1) * ((c.x i).val * (betai c i).val) - (c.x i).val := by
    intro i
    rw [Ai_val]
    ring
  rw [Finset.sum_congr rfl fun i _ => h i, Finset.sum_sub_distrib, ← Finset.mul_sum,
    sum_x_betai, hx]
  simp only [A, ChemicalScalar.val_sub, ChemicalScalar.val_mul, ChemicalScalar.val_const]

theorem Bi_val (c : Call K n) (i : Fin n) :
    (Bi c i).val =
      (epsilon c * sigma c - epsilon c - sigma c)
          * (2 * (beta c).val * (betai c i).val - (beta c).val * (beta c).val)
        - (epsilon c + sigma c - (q c).val) * ((betai c i).val - (beta c).val)
        - (epsilon c + sigma c - (qi c i).val) * (beta c).val := by
  simp only [Bi, ChemicalScalar.val_sub, ChemicalScalar.val_mul, ChemicalScalar.val_const,
    ChemicalScalar.val_lift]

theorem sum_x_Bi (c : Call K n) (hx : ∑ i, (c.x i).val = 1)
    (ha : (amix c).val ≠ 0) (hb : (bmix c).val ≠ 0) :
    ∑ i, (c.x i).val * (Bi c i).val = (B c).val := by
  have h : ∀ i, (c.x i).val * (Bi c i).val =
      ((epsilon c * sigma c - epsilon c - sigma c) * (2 * (beta c).val)
          - (epsilon c + sigma c - (q c).val)) * ((c.x i).val * (betai c i).val)
        + (beta c).val * ((c.x i).val * (qi c i).val)
        + (-(epsilon c * sigma c - epsilon c - sigma c) * ((beta c).val * (beta c).val)
            + (epsilon c + sigma c - (q c).val) * (beta c).val
            - (epsilon c + sigma c) * (beta c).val) * (c.x i).val := by
    intro i
    rw [Bi_val]
    ring
  rw [Finset.sum_congr rfl fun i _ => h i, Finset.sum_add_distrib, Finset.sum_add_distrib,
    ← Finset.mul_sum, ← Finset.mul_sum, ← Finset.mul_sum, sum_x_betai,
    sum_x_qi c hx ha hb, hx]
  simp only [B, ChemicalScalar.val_sub, ChemicalScalar.val_mul, ChemicalScalar.val_const]
  ring

theorem Ci_val (c : Call K n) (i : Fin n) :
    (Ci c i).val =
      -3 * sigma c * epsilon c * (beta c).val * (beta c).val * (betai c i).val
        + 2 * epsilon c * sigma c * (beta c).val * (beta c).val * (beta c).val
        - (epsilon c * sigma c + (qi c i).val) * (beta c).val * (beta c).val
        - 2 * (epsilon c * sigma c + (q c).val)
            * ((beta c).val * (betai c i).val - (beta c).val * (beta c).val) := by
  simp only [Ci, ChemicalScalar.val_sub, ChemicalScalar.val_add, ChemicalScalar.val_mul,
    ChemicalScalar.val_const, ChemicalScalar.val_lift]

theorem sum_x_Ci (c : Call K n) (hx : ∑ i, (c.x i).val = 1)
    (ha : (amix c).val ≠ 0) (hb : (bmix c).val ≠ 0) :
    ∑ i, (c.x i).val * (Ci c i).val = (C c).val := by
  have h : ∀ i, (c.x i).val * (Ci c i).val =
      (-3 * sigma c * epsilon c * (beta c).val * (beta c).val
          - 2 * (epsilon c * sigma c + (q c).val) * (beta c).val)
          * ((c.x i).val * (betai c i).val)
        + (-((beta c).val * (beta c).val)) * ((c.x i).val * (qi c i).val)
        + (2 * epsilon c * sigma c * (beta c).val * (beta c).val * (beta c).val
            - epsilon c * sigma c * (beta c).val * (beta c).val
            + 2 * (epsilon c * sigma c + (q c).val) * ((beta c).val * (beta c).val))
          * (c.x i).val := by
    intro i
    rw [Ci_val]
    ring
  rw [Finset.sum_congr rfl fun i _ => h i, Finset.sum_add_distrib, Finset.sum_add_distrib,
    ← Finset.mul_sum, ← Finset.mul_sum, ← Finset.mul_sum, sum_x_betai,
    sum_x_qi c hx ha hb, hx]
  simp only [C, ChemicalScalar.val_sub, ChemicalScalar.val_add, ChemicalScalar.val_mul,
    ChemicalScalar.val_const]
  ring

theorem Zi_val (c : Call K n) (i : Fin n) :
    (Zi c i).val =
      -((Ai c i).val * (Z c).val * (Z c).val + ((Bi c i).val + (B c).val) * (Z c).val
          + (Ci c i).val + 2 * (C c).val)
        / (3 * (Z c).val * (Z c).val + 2 * (A c).val * (Z c).val + (B c).val) := by
  simp only [Zi, ChemicalScalar.val_div, ChemicalScalar.val_neg, ChemicalScalar.val_add,
    ChemicalScalar.val_mul, ChemicalScalar.val_const, ChemicalScalar.val_lift]

theorem sum_x_Zi (c : Call K n) (hx : ∑ i, (c.x i).val = 1)
    (ha : (amix c).val ≠ 0) (hb : (bmix c).val ≠ 0)
    (hroot : (Z c).val ^ 3 + (A c).val * (Z c).val ^ 2 + (B c).val * (Z c).val
      + (C c).val = 0)
    (hD : 3 * (Z c).val ^ 2 + 2 * (A c).val * (Z c).val + (B c).val ≠ 0) :
    ∑ i, (c.x i).val * (Zi c i).val = (Z c).val := by
  have hD2 : 3 * (Z c).val * (Z c).val + 2 * (A c).val * (Z c).val + (B c).val ≠ 0 := by
    intro h
    apply hD
    rw [← h]
    ring
  have h : ∀ i, (c.x i).val * (Zi c i).val =
      (-((Z c).val * (Z c).val)
          / (3 * (Z c).val * (Z c).val + 2 * (A c).val * (Z c).val + (B c).val))
          * ((c.x i).val * (Ai c i).val)
        + (-(Z c).val
          / (3 * (Z c).val * (Z c).val + 2 * (A c).val * (Z c).val + (B c).val))
          * ((c.x i).val * (Bi c i).val)
        + (-1 / (3 * (Z c).val * (Z c).val + 2 * (A c).val * (Z c).val + (B c).val))
          * ((c.x i).val * (Ci c i).val)
        + (-((B c).val * (Z c).val + 2 * (C c).val)
          / (3 * (Z c).val * (Z c).val + 2 * (A c).val * (Z c).val + (B c).val))
          * (c.x i).val := by
    intro i
    rw [Zi_val]
    ring
  rw [Finset.sum_congr rfl fun i _ => h i, Finset.sum_add_distrib, Finset.sum_add_distrib,
    Finset.sum_add_distrib, ← Finset.mul_sum, ← Finset.mul_sum, ← Finset.mul_sum,
    ← Finset.mul_sum, sum_x_Ai c hx, sum_x_Bi c hx ha hb, sum_x_Ci c hx ha hb, hx]
  have hinv := inv_mul_cancel₀ hD2
  linear_combination
    (-3 * (3 * (Z c).val * (Z c).val + 2 * (A c).val * (Z c).val + (B c).val)⁻¹) * hroot
      + (Z c).val * hinv

theorem sum_x_Ii (c : Call K n) (hx : ∑ i, (c.x i).val = 1)
    (ha : (amix c).val ≠ 0) (hb : (bmix c).val ≠ 0)
    (hroot : (Z c).val ^ 3 + (A c).val * (Z c).val ^ 2 + (B c).val * (Z c).val
      + (C c).val = 0)
    (hD : 3 * (Z c).val ^ 2 + 2 * (A c).val * (Z c).val + (B c).val ≠ 0)
    (h2 : (Z c).val + sigma c * (beta c).val ≠ 0)
    (h3 : (Z c).val + epsilon c * (beta c).val ≠ 0) :
    ∑ i, (c.x i).val * (Ii c i).val = (I c).val := by
  by_cases he : epsilon c ≠ sigma c
  · have hv : ∀ i, (Ii c i).val = (I c).val
        + (((Zi c i).val + sigma c * (betai c i).val) / ((Z c).val + sigma c * (beta c).val)
          - ((Zi c i).val + epsilon c * (betai c i).val)
            / ((Z c).val + epsilon c * (beta c).val)) / (sigma c - epsilon c) := by
      intro i
      unfold Ii
      rw [if_pos he]
      simp only [ChemicalScalar.val_add, ChemicalScalar.val_sub, ChemicalScalar.val_div,
        ChemicalScalar.val_mul, ChemicalScalar.val_const, ChemicalScalar.val_lift,
        ThermoScalar.tval_mul, ThermoScalar.tval_const]
    have h : ∀ i, (c.x i).val * (Ii c i).val =
        (I c).val * (c.x i).val
          + ((1 / ((Z c).val + sigma c * (beta c).val)
              - 1 / ((Z c).val + epsilon c * (beta c).val)) / (sigma c - epsilon c))
            * ((c.x i).val * (Zi c i).val)
          + ((sigma c / ((Z c).val + sigma c * (beta c).val)
              - epsilon c / ((Z c).val + epsilon c * (beta c).val)) / (sigma c - epsilon c))
            * ((c.x i).val * (betai c i).val) := by
      intro i
      rw [hv]
      ring
    rw [Finset.sum_congr rfl fun i _ => h i, Finset.sum_add_distrib, Finset.sum_add_distrib,
      ← Finset.mul_sum, ← Finset.mul_sum, ← Finset.mul_sum, sum_x_betai,
      sum_x_Zi c hx ha hb hroot hD, hx]
    have hse : sigma c - epsilon c ≠ 0 := fun h => he (sub_eq_zero.mp h).symm
    field_simp
    ring
  · have hv : ∀ i, (Ii c i).val = (I c).val * (1 + (betai c i).val / (beta c).val
          - ((Zi c i).val + epsilon c * (betai c i).val)
            / ((Z c).val + epsilon c * (beta c).val)) := by
      intro i
      unfold Ii
      rw [if_neg he]
      simp only [ChemicalScalar.val_add, ChemicalScalar.val_sub, ChemicalScalar.val_div,
        ChemicalScalar.val_mul, ChemicalScalar.val_const, ChemicalScalar.val_lift,
        ThermoScalar.tval_mul, ThermoScalar.tval_const]
    have h : ∀ i, (c.x i).val * (Ii c i).val =
        (I c).val * (c.x i).val
          + ((I c).val / (beta c).val
              - (I c).val * epsilon c / ((Z c).val + epsilon c * (beta c).val))
            * ((c.x i).val * (betai c i).val)
          + (-(I c).val / ((Z c).val + epsilon c * (beta c).val))
            * ((c.x i).val * (Zi c i).val) := by
      intro i
      rw [hv]
      ring
    rw [Finset.sum_congr rfl fun i _ => h i, Finset.sum_add_distrib, Finset.sum_add_distrib,
      ← Finset.mul_sum, ← Finset.mul_sum, ← Finset.mul_sum, sum_x_betai,
      sum_x_Zi c hx ha hb hroot hD, hx]
    by_cases hb0 : (beta c).val = 0
    · have hI : (I c).val = 0 := by
        unfold I
        rw [if_neg he]
        simp [hb0]
      rw [hI]
      ring
    · field_simp
      ring

theorem Gi_res_val (c : Call K n) (i : Fin n) :
    (Gi_res c i).val =
      R c * c.T.val
        * ((Zi c i).val - ((Zi c i).val - (betai c i).val) / ((Z c).val - (beta c).val)
            - c.ext.log ((Z c).val - (beta c).val) - (qi c i).val * (I c).val
            - (q c).val * (Ii c i).val + (q c).val * (I c).val) := by
  simp only [Gi_res, ChemicalScalar.val_add, ChemicalScalar.val_sub,
    ChemicalScalar.val_div, ChemicalScalar.val_mul, ChemicalScalar.val_lift,
    ChemicalScalar.val_log, ThermoScalar.tval_mul, ThermoScalar.tval_const]

theorem sum_x_Gi_res (c : Call K n) (hx : ∑ i, (c.x i).val = 1)
    (ha : (amix c).val ≠ 0) (hb : (bmix c).val ≠ 0)
    (hroot : (Z c).val ^ 3 + (A c).val * (Z c).val ^ 2 + (B c).val * (Z c).val
      + (C c).val = 0)
    (hD : 3 * (Z c).val ^ 2 + 2 * (A c).val * (Z c).val + (B c).val ≠ 0)
    (h1 : (Z c).val - (beta c).val ≠ 0)
    (h2 : (Z c).val + sigma c * (beta c).val ≠ 0)
    (h3 : (Z c).val + epsilon c * (beta c).val ≠ 0) :
    ∑ i, (c.x i).val * (Gi_res c i).val = (G_res c).val := by
  have h : ∀ i, (c.x i).val * (Gi_res c i).val =
      (R c * c.T.val * (1 - 1 / ((Z c).val - (beta c).val)))
          * ((c.x i).val * (Zi c i).val)
        + (R c * c.T.val / ((Z c).val - (beta c).val))
          * ((c.x i).val * (betai c i).val)
        + (-(R c * c.T.val * (I c).val)) * ((c.x i).val * (qi c i).val)
        + (-(R c * c.T.val * (q c).val)) * ((c.x i).val * (Ii c i).val)
        + (R c * c.T.val * (-c.ext.log ((Z c).val - (beta c).val)
            + (q c).val * (I c).val)) * (c.x i).val := by
    intro i
    rw [Gi_res_val]
    ring
  rw [Finset.sum_congr rfl fun i _ => h i, Finset.sum_add_distrib, Finset.sum_add_distrib,
    Finset.sum_add_distrib, Finset.sum_add_distrib, ← Finset.mul_sum, ← Finset.mul_sum,
    ← Finset.mul_sum, ← Finset.mul_sum, ← Finset.mul_sum, sum_x_betai,
    sum_x_Zi c hx ha hb hroot hD, sum_x_qi c hx ha hb,
    sum_x_Ii c hx ha hb hroot hD h2 h3, hx]
  simp only [G_res, ChemicalScalar.val_sub, ChemicalScalar.val_mul, ChemicalScalar.val_lift,
    ChemicalScalar.val_const, ChemicalScalar.val_log, ThermoScalar.tval_mul,
    ThermoScalar.tval_const]
  field_simp
  ring

/-- C22.  Summability of the partial molar residual Gibbs energies: when the mole
fractions sum to one, `Z` is an exact root of the cubic, and the gradient
`3*Z^2 + 2*A*Z + B`, `Z - beta`, `Z + sigma*beta`, `Z + epsilon*beta`, `amix` and `bmix`
are non-zero, the values of the returned `Result` satisfy
`sum_i x_i * residual_partial_molar_gibbs_energies[i] = residual_molar_gibbs_energy`,
and so do `Zi`, `qi` and `Ii` with `Z`, `q` and `I`. -/
theorem C22_gibbs_summability (c : Call K n) (hx : ∑ i, (c.x i).val = 1)
    (hroot : (Z c).val ^ 3 + (A c).val * (Z c).val ^ 2 + (B c).val * (Z c).val
      + (C c).val = 0)
    (hD : 3 * (Z c).val ^ 2 + 2 * (A c).val * (Z c).val + (B c).val ≠ 0)
    (h1 : (Z c).val - (beta c).val ≠ 0)
    (h2 : (Z c).val + sigma c * (beta c).val ≠ 0)
    (h3 : (Z c).val + epsilon c * (beta c).val ≠ 0)
    (ha : (amix c).val ≠ 0) (hb : (bmix c).val ≠ 0) :
    ∑ i, (c.x i).val * ((result c).residual_partial_molar_gibbs_energies i).val
        = (result c).residual_molar_gibbs_energy.val ∧
      ∑ i, (c.x i).val * (Zi c i).val = (Z c).val ∧
      ∑ i, (c.x i).val * (qi c i).val = (q c).val ∧
      ∑ i, (c.x i).val * (Ii c i).val = (I c).val := by
  refine ⟨?_, sum_x_Zi c hx ha hb hroot hD, sum_x_qi c hx ha hb,
    sum_x_Ii c hx ha hb hroot hD h2 h3⟩
  rw [result_eq]
  exact sum_x_Gi_res c hx ha hb hroot hD h1 h2 h3

/-- C22 at the example call: one species, mole fraction 1, `Z = 1` an exact root. -/
theorem C22_gibbs_summability_witness :
    (∑ i, ((exampleCall (⟨8.3144621, Real.sqrt, Real.log, newtonModel⟩ : Externals ℝ) 1).x i).val = 1
      ∧ (Z (exampleCall (⟨8.3144621, Real.sqrt, Real.log, newtonModel⟩ : Externals ℝ) 1)).val ^ 3 + (A (exampleCall (⟨8.3144621, Real.sqrt, Real.log, newtonModel⟩ : Externals ℝ) 1)).val * (Z (exampleCall (⟨8.3144621, Real.sqrt, Real.log, newtonModel⟩ : Externals ℝ) 1)).val ^ 2
        + (B (exampleCall (⟨8.3144621, Real.sqrt, Real.log, newtonModel⟩ : Externals ℝ) 1)).val * (Z (exampleCall (⟨8.3144621, Real.sqrt, Real.log, newtonModel⟩ : Externals ℝ) 1)).val + (C (exampleCall (⟨8.3144621, Real.sqrt, Real.log, newtonModel⟩ : Externals ℝ) 1)).val = 0
      ∧ 3 * (Z (exampleCall (⟨8.3144621, Real.sqrt, Real.log, newtonModel⟩ : Externals ℝ) 1)).val ^ 2 + 2 * (A (exampleCall (⟨8.3144621, Real.sqrt, Real.log, newtonModel⟩ : Externals ℝ) 1)).val * (Z (exampleCall (⟨8.3144621, Real.sqrt, Real.log, newtonModel⟩ : Externals ℝ) 1)).val
        + (B (exampleCall (⟨8.3144621, Real.sqrt, Real.log, newtonModel⟩ : Externals ℝ) 1)).val ≠ 0
      ∧ (Z (exampleCall (⟨8.3144621, Real.sqrt, Real.log, newtonModel⟩ : Externals ℝ) 1)).val - (beta (exampleCall (⟨8.3144621, Real.sqrt, Real.log, newtonModel⟩ : Externals ℝ) 1)).val ≠ 0
      ∧ (Z (exampleCall (⟨8.3144621, Real.sqrt, Real.log, newtonModel⟩ : Externals ℝ) 1)).val + sigma (exampleCall (⟨8.3144621, Real.sqrt, Real.log, newtonModel⟩ : Externals ℝ) 1) * (beta (exampleCall (⟨8.3144621, Real.sqrt, Real.log, newtonModel⟩ : Externals ℝ) 1)).val ≠ 0
      ∧ (Z (exampleCall (⟨8.3144621, Real.sqrt, Real.log, newtonModel⟩ : Externals ℝ) 1)).val + epsilon (exampleCall (⟨8.3144621, Real.sqrt, Real.log, newtonModel⟩ : Externals ℝ) 1) * (beta (exampleCall (⟨8.3144621, Real.sqrt, Real.log, newtonModel⟩ : Externals ℝ) 1)).val ≠ 0
      ∧ (amix (exampleCall (⟨8.3144621, Real.sqrt, Real.log, newtonModel⟩ : Externals ℝ) 1)).val ≠ 0
      ∧ (bmix (exampleCall (⟨8.3144621, Real.sqrt, Real.log, newtonModel⟩ : Externals ℝ) 1)).val ≠ 0)
    ∧ ∑ i, ((exampleCall (⟨8.3144621, Real.sqrt, Real.log, newtonModel⟩ : Externals ℝ) 1).x i).val
        * ((result (exampleCall (⟨8.3144621, Real.sqrt, Real.log, newtonModel⟩ : Externals ℝ) 1)).residual_partial_molar_gibbs_energies i).val
      = (result (exampleCall (⟨8.3144621, Real.sqrt, Real.log, newtonModel⟩ : Externals ℝ) 1)).residual_molar_gibbs_energy.val :=
  have hx : ∑ i, ((exampleCall (⟨8.3144621, Real.sqrt, Real.log, newtonModel⟩ : Externals ℝ) 1).x i).val = 1 := by
    simp [exampleCall]
  have hroot : (Z (exampleCall (⟨8.3144621, Real.sqrt, Real.log, newtonModel⟩ : Externals ℝ) 1)).val ^ 3 + (A (exampleCall (⟨8.3144621, Real.sqrt, Real.log, newtonModel⟩ : Externals ℝ) 1)).val * (Z (exampleCall (⟨8.3144621, Real.sqrt, Real.log, newtonModel⟩ : Externals ℝ) 1)).val ^ 2
        + (B (exampleCall (⟨8.3144621, Real.sqrt, Real.log, newtonModel⟩ : Externals ℝ) 1)).val * (Z (exampleCall (⟨8.3144621, Real.sqrt, Real.log, newtonModel⟩ : Externals ℝ) 1)).val + (C (exampleCall (⟨8.3144621, Real.sqrt, Real.log, newtonModel⟩ : Externals ℝ) 1)).val = 0 := ex_root ⟨8.3144621, Real.sqrt, Real.log, newtonModel⟩ real_sqrt_mul_self real_R_ne_zero rfl
  have hD : 3 * (Z (exampleCall (⟨8.3144621, Real.sqrt, Real.log, newtonModel⟩ : Externals ℝ) 1)).val ^ 2 + 2 * (A (exampleCall (⟨8.3144621, Real.sqrt, Real.log, newtonModel⟩ : Externals ℝ) 1)).val * (Z (exampleCall (⟨8.3144621, Real.sqrt, Real.log, newtonModel⟩ : Externals ℝ) 1)).val
        + (B (exampleCall (⟨8.3144621, Real.sqrt, Real.log, newtonModel⟩ : Externals ℝ) 1)).val ≠ 0 := by
    rw [ex_grad ⟨8.3144621, Real.sqrt, Real.log, newtonModel⟩ real_sqrt_mul_self real_R_ne_zero rfl]
    exact one_ne_zero
  have h1 : (Z (exampleCall (⟨8.3144621, Real.sqrt, Real.log, newtonModel⟩ : Externals ℝ) 1)).val - (beta (exampleCall (⟨8.3144621, Real.sqrt, Real.log, newtonModel⟩ : Externals ℝ) 1)).val ≠ 0 := by
    rw [ex_Z_sub_beta ⟨8.3144621, Real.sqrt, Real.log, newtonModel⟩ real_sqrt_mul_self real_R_ne_zero rfl]
    norm_num
  have h2 : (Z (exampleCall (⟨8.3144621, Real.sqrt, Real.log, newtonModel⟩ : Externals ℝ) 1)).val + sigma (exampleCall (⟨8.3144621, Real.sqrt, Real.log, newtonModel⟩ : Externals ℝ) 1) * (beta (exampleCall (⟨8.3144621, Real.sqrt, Real.log, newtonModel⟩ : Externals ℝ) 1)).val ≠ 0 := by
    rw [ex_Z_add_sigma_beta ⟨8.3144621, Real.sqrt, Real.log, newtonModel⟩ real_sqrt_mul_self real_R_ne_zero rfl]
    exact one_ne_zero
  have h3 : (Z (exampleCall (⟨8.3144621, Real.sqrt, Real.log, newtonModel⟩ : Externals ℝ) 1)).val + epsilon (exampleCall (⟨8.3144621, Real.sqrt, Real.log, newtonModel⟩ : Externals ℝ) 1) * (beta (exampleCall (⟨8.3144621, Real.sqrt, Real.log, newtonModel⟩ : Externals ℝ) 1)).val ≠ 0 := by
    rw [ex_Z_add_epsilon_beta ⟨8.3144621, Real.sqrt, Real.log, newtonModel⟩ real_sqrt_mul_self real_R_ne_zero rfl]
    exact one_ne_zero
  have ha : (amix (exampleCall (⟨8.3144621, Real.sqrt, Real.log, newtonModel⟩ : Externals ℝ) 1)).val ≠ 0 := by
    rw [ex_amix_val _ _ real_sqrt_mul_self]
    norm_num
  have hb : (bmix (exampleCall (⟨8.3144621, Real.sqrt, Real.log, newtonModel⟩ : Externals ℝ) 1)).val ≠ 0 := by
    rw [ex_bmix_val]
    norm_num
  ⟨⟨hx, hroot, hD, h1, h2, h3, ha, hb⟩,
    (C22_gibbs_summability _ hx hroot hD h1 h2 h3 ha hb).1⟩

end CubicEOS

/-! ## C23: which inputs the value of the residual molar enthalpy depends on -/

namespace internal

open ThermoScalar

variable {K : Type} [LinearOrderedField K]

theorem alpha_val_congr (sq : K → K) (type : Model) (Tr1 Tr2 : ThermoScalar K) (omega : K)
    (hv : Tr1.val = Tr2.val) :
    (alpha sq type Tr1 omega).1.val = (alpha sq type Tr2 omega).1.val := by
  cases type <;>
    simp only [alpha, alphaVDW, alphaRK, alphaSRK, alphaPR, tval_const, tval_add, tval_sub,
      tval_mul, tval_div, tval_sqrt, hv]

theorem alpha_ddt_val_congr (sq : K → K) (type : Model) (Tr1 Tr2 : ThermoScalar K)
    (omega : K) (hv : Tr1.val = Tr2.val) (hd : Tr1.ddt = Tr2.ddt) :
    (alpha sq type Tr1 omega).2.1.val = (alpha sq type Tr2 omega).2.1.val := by
  cases type <;>
    simp only [alpha, alphaVDW, alphaRK, alphaSRK, alphaPR, tval_const, tval_add, tval_sub,
      tval_mul, tval_div, tval_sqrt, hv, hd]

end internal

namespace CubicEOS

open ChemicalScalar (const lift log)

variable {K : Type} [LinearOrderedField K] {n : Nat}

theorem sv_Tr_val {c1 c2 : Call K n} (h : SameValues c1 c2) (i : Fin n) :
    (Tr c1 i).val = (Tr c2 i).val := by
  simp only [Tr, ThermoScalar.tval_div, ThermoScalar.tval_const, h.T,
    h.critical_temperatures]

theorem sv_Tr_ddt {c1 c2 : Call K n} (h : SameValues c1 c2) (hT : c1.T.ddt = c2.T.ddt)
    (i : Fin n) : (Tr c1 i).ddt = (Tr c2 i).ddt := by
  simp only [Tr, ThermoScalar.tddt_div, ThermoScalar.tval_const, ThermoScalar.tddt_const,
    h.T, hT, h.critical_temperatures]

theorem sv_factor {c1 c2 : Call K n} (h : SameValues c1 c2) (i : Fin n) :
    factor c1 i = factor c2 i := by
  simp only [factor, Psi, R, h.ext, h.model, h.critical_temperatures, h.critical_pressures]

theorem sv_a_val {c1 c2 : Call K n} (h : SameValues c1 c2) (i : Fin n) :
    (a c1 i).val = (a c2 i).val := by
  simp only [a_eq, ThermoScalar.tval_mul, ThermoScalar.tval_const, sv_factor h, alphaAt]
  rw [internal.alpha_val_congr c1.ext.sqrt c1.self.model (Tr c1 i) (Tr c2 i) _
    (sv_Tr_val h i), h.ext, h.model, h.acentric_factors]

theorem sv_aT_val {c1 c2 : Call K n} (h : SameValues c1 c2) (hT : c1.T.ddt = c2.T.ddt)
    (i : Fin n) : (aT c1 i).val = (aT c2 i).val := by
  simp only [aT_eq, ThermoScalar.tval_mul, ThermoScalar.tval_const, sv_factor h, alphaAt]
  rw [internal.alpha_ddt_val_congr c1.ext.sqrt c1.self.model (Tr c1 i) (Tr c2 i) _
    (sv_Tr_val h i) (sv_Tr_ddt h hT i), h.ext, h.model, h.acentric_factors]

theorem sv_s_val {c1 c2 : Call K n} (h : SameValues c1 c2) (i j : Fin n) :
    (s c1 i j).val = (s c2 i j).val := by
  simp only [s, ThermoScalar.tval_sqrt, ThermoScalar.tval_mul, sv_a_val h, h.ext]

theorem sv_sT_val {c1 c2 : Call K n} (h : SameValues c1 c2) (hT : c1.T.ddt = c2.T.ddt)
    (i j : Fin n) : (sT c1 i j).val = (sT c2 i j).val := by
  simp only [sT, ThermoScalar.tval_div, ThermoScalar.tval_mul, ThermoScalar.tval_add,
    ThermoScalar.tval_const, sv_a_val h, sv_aT_val h hT, sv_s_val h]

theorem sv_amix_val {c1 c2 : Call K n} (h : SameValues c1 c2)
    (hr : ∀ i j, (r c1 i j).val = (r c2 i j).val) :
    (amix c1).val = (amix c2).val := by
  simp only [amix_val_sum, aij, ThermoScalar.tval_mul, hr, sv_s_val h, h.x]

theorem sv_amixT_val {c1 c2 : Call K n} (h : SameValues c1 c2) (hT : c1.T.ddt = c2.T.ddt)
    (hr : ∀ i j, (r c1 i j).val = (r c2 i j).val)
    (hrT : ∀ i j, (rT c1 i j).val = (rT c2 i j).val) :
    (amixT c1).val = (amixT c2).val := by
  simp only [amixT_val_sum, aijT, ThermoScalar.tval_mul, ThermoScalar.tval_add, hr, hrT,
    sv_s_val h, sv_sT_val h hT, h.x]

theorem sv_bmix_val {c1 c2 : Call K n} (h : SameValues c1 c2) :
    (bmix c1).val = (bmix c2).val := by
  simp only [bmix_val_sum, bValue, Omega, R, h.ext, h.model, h.critical_temperatures,
    h.critical_pressures, h.x]

theorem sv_beta_val {c1 c2 : Call K n} (h : SameValues c1 c2) :
    (beta c1).val = (beta c2).val := by
  simp only [beta_val, sv_bmix_val h, h.P, h.T, R, h.ext]

theorem sv_q_val {c1 c2 : Call K n} (h : SameValues c1 c2)
    (hr : ∀ i j, (r c1 i j).val = (r c2 i j).val) :
    (q c1).val = (q c2).val := by
  simp only [q, ChemicalScalar.val_div, ChemicalScalar.val_mul, ChemicalScalar.val_const,
    ChemicalScalar.val_lift, sv_amix_val h hr, sv_bmix_val h, h.T, R, h.ext]

theorem sv_qT_val {c1 c2 : Call K n} (h : SameValues c1 c2) (hT : c1.T.ddt = c2.T.ddt)
    (hr : ∀ i j, (r c1 i j).val = (r c2 i j).val)
    (hrT : ∀ i j, (rT c1 i j).val = (rT c2 i j).val) :
    (qT c1).val = (qT c2).val := by
  simp only [qT, ChemicalScalar.val_div, ChemicalScalar.val_mul, ChemicalScalar.val_sub,
    ChemicalScalar.val_lift, ThermoScalar.tval_div, ThermoScalar.tval_const,
    sv_q_val h hr, sv_amix_val h hr, sv_amixT_val h hT hr hrT, h.T]

theorem sv_I_val {c1 c2 : Call K n} (h : SameValues c1 c2) (hZ : Zval c1 = Zval c2) :
    (I c1).val = (I c2).val := by
  have he : epsilon c1 = epsilon c2 := by simp only [epsilon, h.model]
  have hs : sigma c1 = sigma c2 := by simp only [sigma, h.model]
  unfold I
  rw [he, hs]
  split
  · simp only [ChemicalScalar.val_div, ChemicalScalar.val_add, ChemicalScalar.val_mul,
      ChemicalScalar.val_const, ChemicalScalar.val_log, Z_val, hZ, sv_beta_val h, h.ext]
  · simp only [ChemicalScalar.val_div, ChemicalScalar.val_add, ChemicalScalar.val_mul,
      ChemicalScalar.val_const, Z_val, hZ, sv_beta_val h]

theorem H_res_val (c : Call K n) :
    (H_res c).val =
      R c * c.T.val * (Zval c - 1 + c.T.val * (qT c).val * (I c).val) := by
  simp only [H_res, ChemicalScalar.val_mul, ChemicalScalar.val_add, ChemicalScalar.val_sub,
    ChemicalScalar.val_lift, ChemicalScalar.val_const, ThermoScalar.tval_mul,
    ThermoScalar.tval_const, Z_val]

end CubicEOS
namespace CubicEOS

open ChemicalScalar (const lift log)

variable {K : Type} [LinearOrderedField K] {n : Nat}

@[simp] theorem rkCall_ext (ext : Externals K) (t s : K) : (rkCall ext t s).ext = ext := rfl

@[simp] theorem rkCall_x_val (ext : Externals K) (t s : K) (i : Fin 1) :
    ((rkCall ext t s).x i).val = 1 := rfl

theorem rk_Tr_val (ext : Externals K) (t s : K) (i : Fin 1) :
    (Tr (rkCall ext t s) i).val = 1 := by
  simp only [Tr, ThermoScalar.tval_div, ThermoScalar.tval_const, rkCall, vecAt]
  norm_num

theorem rk_Tr_ddt (ext : Externals K) (t s : K) (i : Fin 1) :
    (Tr (rkCall ext t s) i).ddt = t / 300 := by
  simp only [Tr, ThermoScalar.tddt_div, ThermoScalar.tval_const, ThermoScalar.tddt_const,
    rkCall, vecAt]
  norm_num
  field_simp
  ring

theorem rk_factor (ext : Externals K) (t s : K) (i : Fin 1) :
    factor (rkCall ext t s) i
      = 0.42748 * ext.universalGasConstant * ext.universalGasConstant * (300 * 300)
          / 1113583.92 := by
  simp only [factor, Psi, internal.Psi, R, rkCall, vecAt]
  norm_num

theorem rk_factor_pos (ext : Externals K) (hR : ext.universalGasConstant ≠ 0) (t s : K)
    (i : Fin 1) : 0 < factor (rkCall ext t s) i := by
  rw [rk_factor]
  have : 0 < ext.universalGasConstant * ext.universalGasConstant :=
    mul_self_pos.mpr hR
  have h2 : (0.42748 : K) * ext.universalGasConstant * ext.universalGasConstant * (300 * 300)
      / 1113583.92 = (0.42748 * (300 * 300) / 1113583.92)
        * (ext.universalGasConstant * ext.universalGasConstant) := by ring
  rw [h2]
  exact mul_pos (by norm_num) this

theorem rk_a_val (ext : Externals K) (hs : ∀ y : K, 0 ≤ y → ext.sqrt (y * y) = y) (t s : K)
    (i : Fin 1) : (a (rkCall ext t s) i).val = factor (rkCall ext t s) i := by
  have h1 : ext.sqrt 1 = 1 := by
    have := hs 1 zero_le_one
    rwa [mul_one] at this
  have hm : (rkCall ext t s).self.model = Model.RedlichKwong := rfl
  simp only [a_eq, ThermoScalar.tval_mul, ThermoScalar.tval_const, alphaAt, hm, internal.alpha,
    internal.alphaRK, ThermoScalar.tval_div, ThermoScalar.tval_sqrt, rk_Tr_val, rkCall_ext, h1]
  norm_num

theorem rk_aT_val (ext : Externals K) (hs : ∀ y : K, 0 ≤ y → ext.sqrt (y * y) = y) (t s : K)
    (i : Fin 1) : (aT (rkCall ext t s) i).val = factor (rkCall ext t s) i * (-t / 600) := by
  have h1 : ext.sqrt 1 = 1 := by
    have := hs 1 zero_le_one
    rwa [mul_one] at this
  have hm : (rkCall ext t s).self.model = Model.RedlichKwong := rfl
  simp only [aT_eq, ThermoScalar.tval_mul, ThermoScalar.tval_const, alphaAt, hm,
    internal.alpha, internal.alphaRK, ThermoScalar.tval_div, ThermoScalar.tval_sqrt, rk_Tr_val,
    rk_Tr_ddt, rkCall_ext, h1]
  norm_num
  ring

theorem rk_s_val (ext : Externals K) (hs : ∀ y : K, 0 ≤ y → ext.sqrt (y * y) = y)
    (hR : ext.universalGasConstant ≠ 0) (t s0 : K) (i j : Fin 1) :
    (s (rkCall ext t s0) i j).val = factor (rkCall ext t s0) 0 := by
  simp only [s, ThermoScalar.tval_sqrt, ThermoScalar.tval_mul, rk_a_val ext hs, rkCall_ext]
  rw [Subsingleton.elim i 0, Subsingleton.elim j 0]
  exact hs _ (le_of_lt (rk_factor_pos ext hR t s0 0))

theorem rk_amix_val (ext : Externals K) (hs : ∀ y : K, 0 ≤ y → ext.sqrt (y * y) = y)
    (hR : ext.universalGasConstant ≠ 0) (t s0 : K) :
    (amix (rkCall ext t s0)).val = factor (rkCall ext t s0) 0 := by
  have hr := fun i j => (r_of_none (rkCall ext t s0) rfl i j).1
  simp only [amix_val_sum, aij, ThermoScalar.tval_mul, hr, ThermoScalar.tval_const,
    rk_s_val ext hs hR, Finset.univ_unique, Finset.sum_singleton, rkCall_x_val]
  norm_num

theorem rk_amixT_val (ext : Externals K) (hs : ∀ y : K, 0 ≤ y → ext.sqrt (y * y) = y)
    (hR : ext.universalGasConstant ≠ 0) (t s0 : K) :
    (amixT (rkCall ext t s0)).val = factor (rkCall ext t s0) 0 * (-t / 600) := by
  have hr := fun i j => (r_of_none (rkCall ext t s0) rfl i j).1
  have hrT := fun i j => (r_of_none (rkCall ext t s0) rfl i j).2.1
  have hF := ne_of_gt (rk_factor_pos ext hR t s0 0)
  simp only [amixT_val_sum, aijT, sT, ThermoScalar.tval_mul, ThermoScalar.tval_add,
    ThermoScalar.tval_div, hr, hrT, ThermoScalar.tval_const, rk_s_val ext hs hR,
    rk_a_val ext hs, rk_aT_val ext hs, Finset.univ_unique, Finset.sum_singleton, rkCall_x_val]
  rw [Subsingleton.elim (default : Fin 1) 0]
  field_simp
  ring

theorem rk_bmix_val (ext : Externals K) (t s0 : K) :
    (bmix (rkCall ext t s0)).val = 0.08664 * ext.universalGasConstant * 300 / 1113583.92 := by
  simp only [bmix_val_sum, Finset.univ_unique, Finset.sum_singleton, rkCall_x_val, bValue,
    Omega, internal.Omega, R, rkCall, vecAt]
  norm_num

theorem rk_beta_val (ext : Externals K) (hR : ext.universalGasConstant ≠ 0) (t s0 : K) :
    (beta (rkCall ext t s0)).val = 8521 / 12853 := by
  rw [beta_val, rk_bmix_val]
  simp only [R, rkCall]
  field_simp
  norm_num
  ring

theorem rk_q_val (ext : Externals K) (hs : ∀ y : K, 0 ≤ y → ext.sqrt (y * y) = y)
    (hR : ext.universalGasConstant ≠ 0) (t s0 : K) :
    (q (rkCall ext t s0)).val = 10687 / 2166 := by
  simp only [q, ChemicalScalar.val_div, ChemicalScalar.val_mul, ChemicalScalar.val_const,
    ChemicalScalar.val_lift, rk_amix_val ext hs hR, rk_bmix_val, rk_factor]
  simp only [R, rkCall]
  field_simp
  norm_num
  ring

theorem rk_qT_val (ext : Externals K) (hs : ∀ y : K, 0 ≤ y → ext.sqrt (y * y) = y)
    (hR : ext.universalGasConstant ≠ 0) (t s0 : K) :
    (qT (rkCall ext t s0)).val = 10687 / 2166 * (-t / 600 - 1 / 300) := by
  have hF := ne_of_gt (rk_factor_pos ext hR t s0 0)
  have hT : (rkCall ext t s0).T.val = 300 := rfl
  simp only [qT, ChemicalScalar.val_div, ChemicalScalar.val_mul, ChemicalScalar.val_sub,
    ChemicalScalar.val_lift, ThermoScalar.tval_div, ThermoScalar.tval_const,
    rk_q_val ext hs hR, rk_amix_val ext hs hR, rk_amixT_val ext hs hR, hT]
  rw [mul_div_cancel_left₀ _ hF]
  norm_num

theorem rk_eps (ext : Externals K) (t s0 : K) : epsilon (rkCall ext t s0) = 0 := by
  norm_num [epsilon, internal.epsilon, rkCall]

theorem rk_sig (ext : Externals K) (t s0 : K) : sigma (rkCall ext t s0) = 1 := by
  norm_num [sigma, internal.sigma, rkCall]

theorem rk_A_val (ext : Externals K) (hR : ext.universalGasConstant ≠ 0) (t s0 : K) :
    (A (rkCall ext t s0)).val = -1 := by
  simp only [A, ChemicalScalar.val_sub, ChemicalScalar.val_mul, ChemicalScalar.val_const,
    rk_eps, rk_sig, rk_beta_val ext hR]
  norm_num

theorem rk_B_val (ext : Externals K) (hs : ∀ y : K, 0 ≤ y → ext.sqrt (y * y) = y)
    (hR : ext.universalGasConstant ≠ 0) (t s0 : K) :
    (B (rkCall ext t s0)).val
      = -(8521 / 12853) * (8521 / 12853) - (1 - 10687 / 2166) * (8521 / 12853) := by
  simp only [B, ChemicalScalar.val_sub, ChemicalScalar.val_mul, ChemicalScalar.val_const,
    rk_eps, rk_sig, rk_beta_val ext hR, rk_q_val ext hs hR]
  norm_num

theorem rk_C_val (ext : Externals K) (hs : ∀ y : K, 0 ≤ y → ext.sqrt (y * y) = y)
    (hR : ext.universalGasConstant ≠ 0) (t s0 : K) :
    (C (rkCall ext t s0)).val = -(10687 / 2166) * (8521 / 12853) * (8521 / 12853) := by
  simp only [C, ChemicalScalar.val_sub, ChemicalScalar.val_add, ChemicalScalar.val_mul,
    ChemicalScalar.val_const, rk_eps, rk_sig, rk_beta_val ext hR, rk_q_val ext hs hR]
  norm_num

theorem rk_Zval (ext : Externals K) (hs : ∀ y : K, 0 ≤ y → ext.sqrt (y * y) = y)
    (hR : ext.universalGasConstant ≠ 0) (hN : ext.newton = newtonModel) (t s0 : K) :
    Zval (rkCall ext t s0) = 1 := by
  have hZ0 : Z0 (rkCall ext t s0) = 1 := by
    norm_num [Z0, rkCall]
  have hf : (f (rkCall ext t s0) 1).1 = 0 := by
    simp only [f, rk_A_val ext hR, rk_B_val ext hs hR, rk_C_val ext hs hR]
    norm_num
  simp only [Zval, rkCall_ext, hN, hZ0, maxiter, newtonModel, hf, tolerance]
  norm_num

theorem rk_I_val (ext : Externals K) (hs : ∀ y : K, 0 ≤ y → ext.sqrt (y * y) = y)
    (hR : ext.universalGasConstant ≠ 0) (hN : ext.newton = newtonModel) (t s0 : K) :
    (I (rkCall ext t s0)).val = ext.log (21374 / 12853) := by
  have he : epsilon (rkCall ext t s0) ≠ sigma (rkCall ext t s0) := by
    rw [rk_eps, rk_sig]
    exact zero_ne_one
  unfold I
  rw [if_pos he]
  simp only [ChemicalScalar.val_div, ChemicalScalar.val_add, ChemicalScalar.val_mul,
    ChemicalScalar.val_const, ChemicalScalar.val_log, rk_eps, rk_sig,
    rk_beta_val ext hR, Z_val, rk_Zval ext hs hR hN, rkCall_ext]
  norm_num

theorem rk_H_res_val (ext : Externals K) (hs : ∀ y : K, 0 ≤ y → ext.sqrt (y * y) = y)
    (hR : ext.universalGasConstant ≠ 0) (hN : ext.newton = newtonModel) (t s0 : K) :
    (H_res (rkCall ext t s0)).val
      = ext.universalGasConstant * 300
          * (300 * (10687 / 2166 * (-t / 600 - 1 / 300)) * ext.log (21374 / 12853)) := by
  have hT : (rkCall ext t s0).T.val = 300 := rfl
  rw [H_res_val, rk_Zval ext hs hR hN, rk_qT_val ext hs hR, rk_I_val ext hs hR hN, hT]
  simp only [R, rkCall_ext]
  ring

theorem sameValues_rkCall (ext : Externals K) (t1 s1 t2 s2 : K) :
    SameValues (rkCall ext t1 s1) (rkCall ext t2 s2) :=
  ⟨rfl, rfl, rfl, rfl, rfl, rfl, rfl, fun _ => rfl⟩

end CubicEOS
namespace CubicEOS

open ChemicalScalar (const lift log)

variable {K : Type} [LinearOrderedField K] {n : Nat}

/-- C23, counterexample.  The two Redlich-Kwong example calls with the temperature seeds
`T.ddt = 1` and `T.ddt = 0` have the same values of `T`, `P`, `x` and the same root `Z`,
and yet the values of their residual molar enthalpies differ: the alpha function scales
its temperature derivative by `Tr.ddt`. -/
theorem C23_counterexample :
    SameValues (rkCall (⟨8.3144621, Real.sqrt, Real.log, newtonModel⟩ : Externals ℝ) 1 0)
        (rkCall (⟨8.3144621, Real.sqrt, Real.log, newtonModel⟩ : Externals ℝ) 0 0)
      ∧ Zval (rkCall (⟨8.3144621, Real.sqrt, Real.log, newtonModel⟩ : Externals ℝ) 1 0)
        = Zval (rkCall (⟨8.3144621, Real.sqrt, Real.log, newtonModel⟩ : Externals ℝ) 0 0)
      ∧ (result (rkCall (⟨8.3144621, Real.sqrt, Real.log, newtonModel⟩ : Externals ℝ) 1 0)).residual_molar_enthalpy.val
        ≠ (result (rkCall (⟨8.3144621, Real.sqrt, Real.log, newtonModel⟩ : Externals ℝ) 0 0)).residual_molar_enthalpy.val := by
  refine ⟨sameValues_rkCall _ _ _ _ _, ?_, ?_⟩
  · rw [rk_Zval ⟨8.3144621, Real.sqrt, Real.log, newtonModel⟩ real_sqrt_mul_self real_R_ne_zero rfl,
      rk_Zval ⟨8.3144621, Real.sqrt, Real.log, newtonModel⟩ real_sqrt_mul_self real_R_ne_zero rfl]
  · rw [result_eq, result_eq]
    show (H_res _).val ≠ (H_res _).val
    rw [rk_H_res_val ⟨8.3144621, Real.sqrt, Real.log, newtonModel⟩ real_sqrt_mul_self real_R_ne_zero rfl,
      rk_H_res_val ⟨8.3144621, Real.sqrt, Real.log, newtonModel⟩ real_sqrt_mul_self real_R_ne_zero rfl]
    have hL : 0 < Real.log (21374 / 12853) := Real.log_pos (by norm_num)
    intro h
    have h2 : Real.log (21374 / 12853) * (8.3144621 * 300 * 300 * (10687 / 2166) / 600) = 0 := by
      linear_combination -h
    rcases mul_eq_zero.mp h2 with h3 | h3
    · exact (ne_of_gt hL) h3
    · norm_num at h3

/-- C23, amended.  The value of the residual molar enthalpy depends only on the values of
the inputs and on the temperature seed `T.ddt`: for two calls with the same configuration
whose inputs have the same values and the same `T.ddt` (the components `T.ddp`, `P.ddt`,
`P.ddp` and the derivative parts of `x` are free), for which the interaction correction
yields the same values of `r` and `rT` and the root finder returns the same `Z`, the two
Results have the same value of `residual_molar_enthalpy`. -/
theorem C23_enthalpy_value (c1 c2 : Call K n) (h : SameValues c1 c2)
    (hT : c1.T.ddt = c2.T.ddt)
    (hr : ∀ i j, (r c1 i j).val = (r c2 i j).val)
    (hrT : ∀ i j, (rT c1 i j).val = (rT c2 i j).val)
    (hZ : Zval c1 = Zval c2) :
    (result c1).residual_molar_enthalpy.val = (result c2).residual_molar_enthalpy.val := by
  rw [result_eq, result_eq]
  show (H_res c1).val = (H_res c2).val
  rw [H_res_val, H_res_val, sv_qT_val h hT hr hrT, sv_I_val h hZ, hZ, h.T]
  simp only [R, h.ext]

/-- C23, amended, at the Redlich-Kwong example call with two different seeds for `T.ddp`,
`P.ddt` and the temperature derivative of `x`. -/
theorem C23_enthalpy_value_witness :
    (SameValues (rkCall (⟨8.3144621, Real.sqrt, Real.log, newtonModel⟩ : Externals ℝ) 1 0)
        (rkCall (⟨8.3144621, Real.sqrt, Real.log, newtonModel⟩ : Externals ℝ) 1 5)
      ∧ (rkCall (⟨8.3144621, Real.sqrt, Real.log, newtonModel⟩ : Externals ℝ) 1 0).T.ddt
        = (rkCall (⟨8.3144621, Real.sqrt, Real.log, newtonModel⟩ : Externals ℝ) 1 5).T.ddt
      ∧ (rkCall (⟨8.3144621, Real.sqrt, Real.log, newtonModel⟩ : Externals ℝ) 1 0).P.ddt
        ≠ (rkCall (⟨8.3144621, Real.sqrt, Real.log, newtonModel⟩ : Externals ℝ) 1 5).P.ddt
      ∧ Zval (rkCall (⟨8.3144621, Real.sqrt, Real.log, newtonModel⟩ : Externals ℝ) 1 0)
        = Zval (rkCall (⟨8.3144621, Real.sqrt, Real.log, newtonModel⟩ : Externals ℝ) 1 5))
    ∧ (result (rkCall (⟨8.3144621, Real.sqrt, Real.log, newtonModel⟩ : Externals ℝ) 1 0)).residual_molar_enthalpy.val
        = (result (rkCall (⟨8.3144621, Real.sqrt, Real.log, newtonModel⟩ : Externals ℝ) 1 5)).residual_molar_enthalpy.val :=
  have hZ : Zval (rkCall (⟨8.3144621, Real.sqrt, Real.log, newtonModel⟩ : Externals ℝ) 1 0)
      = Zval (rkCall (⟨8.3144621, Real.sqrt, Real.log, newtonModel⟩ : Externals ℝ) 1 5) := by
    rw [rk_Zval ⟨8.3144621, Real.sqrt, Real.log, newtonModel⟩ real_sqrt_mul_self real_R_ne_zero rfl,
      rk_Zval ⟨8.3144621, Real.sqrt, Real.log, newtonModel⟩ real_sqrt_mul_self real_R_ne_zero rfl]
  have hP : (rkCall (⟨8.3144621, Real.sqrt, Real.log, newtonModel⟩ : Externals ℝ) 1 0).P.ddt
      ≠ (rkCall (⟨8.3144621, Real.sqrt, Real.log, newtonModel⟩ : Externals ℝ) 1 5).P.ddt := by
    show (0 : ℝ) ≠ 5
    norm_num
  ⟨⟨sameValues_rkCall _ _ _ _ _, rfl, hP, hZ⟩,
    C23_enthalpy_value _ _ (sameValues_rkCall _ _ _ _ _) rfl
      (fun i j => by rw [(r_of_none _ rfl i j).1, (r_of_none _ rfl i j).1])
      (fun i j => by rw [(r_of_none _ rfl i j).2.1, (r_of_none _ rfl i j).2.1]) hZ⟩

end CubicEOS

/-! ## C21: the two computations of the temperature derivative of `Z` -/

namespace ChemicalScalar

variable {K : Type} [Field K] {n : Nat}

@[simp] theorem ddt_sub (l r : ChemicalScalar K n) : (l - r).ddt = l.ddt - r.ddt := rfl
@[simp] theorem ddt_neg (l : ChemicalScalar K n) : (-l).ddt = -l.ddt := rfl
@[simp] theorem ddt_mul (l r : ChemicalScalar K n) :
    (l * r).ddt = l.val * r.ddt + r.val * l.ddt := rfl
@[simp] theorem ddt_div (l r : ChemicalScalar K n) :
    (l / r).ddt = (l.ddt * r.val - l.val * r.ddt) / (r.val * r.val) := rfl

theorem ddt_sum {ι : Type} (t : Finset ι) (g : ι → ChemicalScalar K n) :
    (∑ i ∈ t, g i).ddt = ∑ i ∈ t, (g i).ddt := by
  classical
  induction t using Finset.induction_on with
  | empty => simp
  | insert hi ih => rw [Finset.sum_insert hi, Finset.sum_insert hi, ddt_add, ih]

end ChemicalScalar

namespace internal

open ThermoScalar

variable {K : Type} [LinearOrderedField K]

theorem alpha_ddt_eq (sq : K → K) (type : Model) (Tr : ThermoScalar K) (omega : K)
    (hss : sq Tr.val * sq Tr.val = Tr.val) :
    (alpha sq type Tr omega).1.ddt = (alpha sq type Tr omega).2.1.val := by
  cases type
  · simp only [alpha, alphaVDW, tddt_const, tval_const]
    norm_num
  · simp only [alpha, alphaRK, tddt_div, tddt_const, tval_const, tval_mul, tval_div, tval_sqrt,
      sqrt]
    rw [hss]
    generalize sq Tr.val = s at hss
    rw [← hss]
    norm_num
    ring
  · simp only [alpha, alphaSRK, tddt_mul, tddt_add, tddt_sub, tddt_const, tval_const, tval_mul,
      tval_div, tval_add, tval_sub, tval_sqrt, sqrt]
    norm_num
    ring
  · have hm : ∃ m : K, m = if omega ≤ 0.491 then
          0.374640 + 1.54226 * omega - 0.269920 * omega * omega
        else
          0.379642 + 1.48503 * omega - 0.164423 * omega * omega
            + 0.016666 * omega * omega * omega := ⟨_, rfl⟩
    obtain ⟨m, hm⟩ := hm
    simp only [alpha, alphaPR, tddt_mul, tddt_add, tddt_sub, tddt_const, tval_const, tval_mul,
      tval_div, tval_add, tval_sub, tval_sqrt, sqrt, ← hm]
    norm_num
    ring

theorem alpha_val_nonneg (sq : K → K) (type : Model) (Tr : ThermoScalar K) (omega : K)
    (hs : 0 ≤ sq Tr.val) : 0 ≤ (alpha sq type Tr omega).1.val := by
  cases type
  · simp only [alpha, alphaVDW, tval_const]
    norm_num
  · simp only [alpha, alphaRK, tval_div, tval_const, tval_sqrt]
    exact div_nonneg (by norm_num) hs
  · simp only [alpha, alphaSRK, tval_mul]
    exact mul_self_nonneg _
  · simp only [alpha, alphaPR, tval_mul]
    exact mul_self_nonneg _

end internal

namespace CubicEOS

open ChemicalScalar (const lift log)

variable {K : Type} [LinearOrderedField K] {n : Nat}

theorem Tr_val_nonneg (c : Call K n) (hT : 0 < c.T.val)
    (hTc : ∀ i : Fin n, 0 < vecAt c.self.critical_temperatures i) (i : Fin n) :
    0 ≤ (Tr c i).val := by
  simp only [Tr, ThermoScalar.tval_div, ThermoScalar.tval_const]
  exact le_of_lt (div_pos hT (hTc i))

theorem a_ddt_eq (c : Call K n)
    (hsq : ∀ y, 0 ≤ y → 0 ≤ c.ext.sqrt y ∧ c.ext.sqrt y * c.ext.sqrt y = y)
    (hT : 0 < c.T.val) (hTc : ∀ i : Fin n, 0 < vecAt c.self.critical_temperatures i) (i : Fin n) :
    (a c i).ddt = (aT c i).val := by
  rw [a_eq, aT_eq]
  simp only [ThermoScalar.tddt_mul, ThermoScalar.tval_mul, ThermoScalar.tval_const,
    ThermoScalar.tddt_const, alphaAt]
  rw [internal.alpha_ddt_eq _ _ _ _ (hsq _ (Tr_val_nonneg c hT hTc i)).2]
  ring

theorem a_val_nonneg (c : Call K n)
    (hsq : ∀ y, 0 ≤ y → 0 ≤ c.ext.sqrt y ∧ c.ext.sqrt y * c.ext.sqrt y = y)
    (hT : 0 < c.T.val) (hTc : ∀ i : Fin n, 0 < vecAt c.self.critical_temperatures i)
    (hPc : ∀ i : Fin n, 0 < vecAt c.self.critical_pressures i) (i : Fin n) :
    0 ≤ (a c i).val := by
  rw [a_eq]
  simp only [ThermoScalar.tval_mul, ThermoScalar.tval_const, alphaAt]
  refine mul_nonneg ?_
    (internal.alpha_val_nonneg _ _ _ _ (hsq _ (Tr_val_nonneg c hT hTc i)).1)
  have hPsi : 0 ≤ Psi c := by
    simp only [Psi, internal.Psi]
    cases c.self.model <;> norm_num
  simp only [factor]
  rw [mul_assoc (Psi c) (R c) (R c)]
  exact div_nonneg (mul_nonneg (mul_nonneg hPsi (mul_self_nonneg _)) (mul_self_nonneg _))
    (le_of_lt (hPc i))

theorem s_ddt_eq (c : Call K n)
    (hsq : ∀ y, 0 ≤ y → 0 ≤ c.ext.sqrt y ∧ c.ext.sqrt y * c.ext.sqrt y = y)
    (hT : 0 < c.T.val) (hTc : ∀ i : Fin n, 0 < vecAt c.self.critical_temperatures i)
    (hPc : ∀ i : Fin n, 0 < vecAt c.self.critical_pressures i) (i j : Fin n) :
    (s c i j).ddt = (sT c i j).val := by
  have hu : 0 ≤ (a c i).val * (a c j).val :=
    mul_nonneg (a_val_nonneg c hsq hT hTc hPc i) (a_val_nonneg c hsq hT hTc hPc j)
  have hss := (hsq _ hu).2
  simp only [s, sT, ThermoScalar.sqrt, ThermoScalar.tddt_mul, ThermoScalar.tval_mul,
    ThermoScalar.tval_div, ThermoScalar.tval_add, ThermoScalar.tval_const,
    a_ddt_eq c hsq hT hTc]
  generalize c.ext.sqrt ((a c i).val * (a c j).val) = w at hss
  rw [← hss]
  by_cases hw : w = 0
  · rw [hw]
    simp
  · field_simp
    ring

theorem aij_ddt_eq (c : Call K n)
    (hsq : ∀ y, 0 ≤ y → 0 ≤ c.ext.sqrt y ∧ c.ext.sqrt y * c.ext.sqrt y = y)
    (hk : c.self.calculate_interaction_params = none)
    (hT : 0 < c.T.val) (hTc : ∀ i : Fin n, 0 < vecAt c.self.critical_temperatures i)
    (hPc : ∀ i : Fin n, 0 < vecAt c.self.critical_pressures i) (i j : Fin n) :
    (aij c i j).ddt = (aijT c i j).val := by
  obtain ⟨h1, h2, h3⟩ := r_of_none c hk i j
  obtain ⟨e1, e2, _⟩ := aij_of_r_one c i j h1 h2 h3
  rw [e1, e2]
  exact s_ddt_eq c hsq hT hTc hPc i j

theorem amix_ddt_eq (c : Call K n)
    (hsq : ∀ y, 0 ≤ y → 0 ≤ c.ext.sqrt y ∧ c.ext.sqrt y * c.ext.sqrt y = y)
    (hx : ∀ i, (c.x i).ddt = 0)
    (hk : c.self.calculate_interaction_params = none)
    (hT : 0 < c.T.val) (hTc : ∀ i : Fin n, 0 < vecAt c.self.critical_temperatures i)
    (hPc : ∀ i : Fin n, 0 < vecAt c.self.critical_pressures i) :
    (amix c).ddt = (amixT c).val := by
  rw [amixT_val_sum, amix_eq_sum, ChemicalScalar.ddt_sum]
  refine Finset.sum_congr rfl fun i _ => ?_
  rw [ChemicalScalar.ddt_sum]
  refine Finset.sum_congr rfl fun j _ => ?_
  simp only [ChemicalScalar.ddt_mul, ChemicalScalar.val_mul, ChemicalScalar.ddt_lift,
    ChemicalScalar.val_lift, hx, aij_ddt_eq c hsq hk hT hTc hPc]
  ring

theorem bmix_ddt_eq (c : Call K n) (hx : ∀ i, (c.x i).ddt = 0) : (bmix c).ddt = 0 := by
  rw [bmix_eq_sum, ChemicalScalar.ddt_sum]
  refine Finset.sum_eq_zero fun i _ => ?_
  simp only [ChemicalScalar.ddt_mul, ChemicalScalar.ddt_lift, ThermoScalar.tddt_const, hx]
  ring

theorem beta_ddt_eq (c : Call K n) (hTt : c.T.ddt = 1) (hPt : c.P.ddt = 0)
    (hx : ∀ i, (c.x i).ddt = 0) (hT : 0 < c.T.val) :
    (beta c).ddt = (betaT c).val := by
  have hT0 : c.T.val ≠ 0 := ne_of_gt hT
  simp only [beta, betaT, bmixT, ChemicalScalar.ddt_div, ChemicalScalar.ddt_mul,
    ChemicalScalar.ddt_lift, ChemicalScalar.val_mul, ChemicalScalar.val_div,
    ChemicalScalar.val_sub, ChemicalScalar.val_lift, ChemicalScalar.val_const,
    ThermoScalar.tval_mul, ThermoScalar.tval_div, ThermoScalar.tddt_mul,
    ThermoScalar.tval_const, ThermoScalar.tddt_const, bmix_ddt_eq c hx, hTt, hPt]
  by_cases hR : R c = 0
  · rw [hR]
    simp
  · field_simp
    norm_num
    ring

theorem q_ddt_eq (c : Call K n)
    (hsq : ∀ y, 0 ≤ y → 0 ≤ c.ext.sqrt y ∧ c.ext.sqrt y * c.ext.sqrt y = y)
    (hTt : c.T.ddt = 1) (hx : ∀ i, (c.x i).ddt = 0)
    (hk : c.self.calculate_interaction_params = none)
    (hT : 0 < c.T.val) (hTc : ∀ i : Fin n, 0 < vecAt c.self.critical_temperatures i)
    (hPc : ∀ i : Fin n, 0 < vecAt c.self.critical_pressures i)
    (ha : (amix c).val ≠ 0) (hb : (bmix c).val ≠ 0) :
    (q c).ddt = (qT c).val := by
  have hT0 : c.T.val ≠ 0 := ne_of_gt hT
  simp only [q, qT, ChemicalScalar.ddt_div, ChemicalScalar.ddt_mul, ChemicalScalar.ddt_lift,
    ChemicalScalar.ddt_const, ChemicalScalar.val_mul, ChemicalScalar.val_div,
    ChemicalScalar.val_sub, ChemicalScalar.val_lift, ChemicalScalar.val_const,
    ThermoScalar.tval_div, ThermoScalar.tval_const, bmix_ddt_eq c hx, hTt,
    amix_ddt_eq c hsq hx hk hT hTc hPc]
  by_cases hR : R c = 0
  · rw [hR]
    simp
  · field_simp
    norm_num
    ring

theorem A_ddt_eq (c : Call K n) (hb : (beta c).ddt = (betaT c).val) :
    (A c).ddt = (AT c).val := by
  simp only [A, AT, ChemicalScalar.ddt_sub, ChemicalScalar.ddt_mul, ChemicalScalar.ddt_const,
    ChemicalScalar.val_mul, ChemicalScalar.val_const, hb]
  ring

theorem B_ddt_eq (c : Call K n) (hb : (beta c).ddt = (betaT c).val)
    (hq : (q c).ddt = (qT c).val) :
    (B c).ddt = (BT c).val := by
  simp only [B, BT, ChemicalScalar.ddt_sub, ChemicalScalar.ddt_mul, ChemicalScalar.ddt_const,
    ChemicalScalar.val_mul, ChemicalScalar.val_const, ChemicalScalar.val_sub,
    ChemicalScalar.val_add, hb, hq]
  ring

theorem C_ddt_eq (c : Call K n) (hb : (beta c).ddt = (betaT c).val)
    (hq : (q c).ddt = (qT c).val) :
    (C c).ddt = (CT c).val := by
  simp only [C, CT, ChemicalScalar.ddt_sub, ChemicalScalar.ddt_mul, ChemicalScalar.ddt_const,
    ChemicalScalar.ddt_add, ChemicalScalar.val_mul, ChemicalScalar.val_const,
    ChemicalScalar.val_sub, ChemicalScalar.val_add, hb, hq]
  ring

theorem ZT_val (c : Call K n) :
    (ZT c).val =
      -((AT c).val * Zval c * Zval c + (BT c).val * Zval c + (CT c).val)
        / (3 * Zval c * Zval c + 2 * (A c).val * Zval c + (B c).val) := by
  simp only [ZT, ChemicalScalar.val_div, ChemicalScalar.val_neg, ChemicalScalar.val_add,
    ChemicalScalar.val_mul, ChemicalScalar.val_const, Z_val]

theorem Z_ddt (c : Call K n) :
    (Z c).ddt =
      -((A c).ddt * Zval c * Zval c + (B c).ddt * Zval c + (C c).ddt)
        / (3 * Zval c * Zval c + 2 * (A c).val * Zval c + (B c).val) := by
  rw [Z_eq]
  simp only [Zfactor]
  norm_num
  ring

/-- C21.  The two computations of the temperature derivative of `Z` agree: when `T` is the
independent variable (`T.ddt = 1`, `T.ddp = 0`), `P` and every `x_i` have a zero
temperature derivative, no interaction function is set, `T`, `Tc_i`, `Pc_i` are positive
and `amix`, `bmix` and `3*Z^2 + 2*A*Z + B` are non-zero, the value of the assembled `ZT`
equals the component `Z.ddt` found by implicit differentiation, and `amixT`, `betaT`, `qT`
have the values `amix.ddt`, `beta.ddt`, `q.ddt`.  The library function `sqrt` is taken to
be a non-negative square root on the non-negative numbers. -/
theorem C21_ZT_agrees_with_Z_ddt (c : Call K n)
    (hsq : ∀ y, 0 ≤ y → 0 ≤ c.ext.sqrt y ∧ c.ext.sqrt y * c.ext.sqrt y = y)
    (hTt : c.T.ddt = 1) (_hTp : c.T.ddp = 0) (hPt : c.P.ddt = 0)
    (hx : ∀ i, (c.x i).ddt = 0)
    (hk : c.self.calculate_interaction_params = none)
    (hT : 0 < c.T.val) (hTc : ∀ i : Fin n, 0 < vecAt c.self.critical_temperatures i)
    (hPc : ∀ i : Fin n, 0 < vecAt c.self.critical_pressures i)
    (ha : (amix c).val ≠ 0) (hb : (bmix c).val ≠ 0)
    (_hD : 3 * (Z c).val ^ 2 + 2 * (A c).val * (Z c).val + (B c).val ≠ 0) :
    (ZT c).val = (Z c).ddt ∧ (amixT c).val = (amix c).ddt
      ∧ (betaT c).val = (beta c).ddt ∧ (qT c).val = (q c).ddt := by
  have hbeta := beta_ddt_eq c hTt hPt hx hT
  have hq := q_ddt_eq c hsq hTt hx hk hT hTc hPc ha hb
  refine ⟨?_, (amix_ddt_eq c hsq hx hk hT hTc hPc).symm, hbeta.symm, hq.symm⟩
  rw [ZT_val, Z_ddt, A_ddt_eq c hbeta, B_ddt_eq c hbeta hq, C_ddt_eq c hbeta hq]

/-- C21 at the Redlich-Kwong example call with the temperature seed 1. -/
theorem C21_ZT_agrees_with_Z_ddt_witness :
    ((∀ y, 0 ≤ y → 0 ≤ (rkCall (⟨8.3144621, Real.sqrt, Real.log, newtonModel⟩ : Externals ℝ) 1 0).ext.sqrt y
        ∧ (rkCall (⟨8.3144621, Real.sqrt, Real.log, newtonModel⟩ : Externals ℝ) 1 0).ext.sqrt y
          * (rkCall (⟨8.3144621, Real.sqrt, Real.log, newtonModel⟩ : Externals ℝ) 1 0).ext.sqrt y = y)
      ∧ ((rkCall (⟨8.3144621, Real.sqrt, Real.log, newtonModel⟩ : Externals ℝ) 1 0).T.ddt = 1)
      ∧ ((rkCall (⟨8.3144621, Real.sqrt, Real.log, newtonModel⟩ : Externals ℝ) 1 0).T.ddp = 0)
      ∧ ((rkCall (⟨8.3144621, Real.sqrt, Real.log, newtonModel⟩ : Externals ℝ) 1 0).P.ddt = 0)
      ∧ (∀ i, ((rkCall (⟨8.3144621, Real.sqrt, Real.log, newtonModel⟩ : Externals ℝ) 1 0).x i).ddt = 0)
      ∧ ((rkCall (⟨8.3144621, Real.sqrt, Real.log, newtonModel⟩ : Externals ℝ) 1 0).self.calculate_interaction_params = none)
      ∧ (0 < (rkCall (⟨8.3144621, Real.sqrt, Real.log, newtonModel⟩ : Externals ℝ) 1 0).T.val)
      ∧ (∀ i : Fin 1, 0 < vecAt (rkCall (⟨8.3144621, Real.sqrt, Real.log, newtonModel⟩ : Externals ℝ) 1 0).self.critical_temperatures i)
      ∧ (∀ i : Fin 1, 0 < vecAt (rkCall (⟨8.3144621, Real.sqrt, Real.log, newtonModel⟩ : Externals ℝ) 1 0).self.critical_pressures i)
      ∧ ((amix (rkCall (⟨8.3144621, Real.sqrt, Real.log, newtonModel⟩ : Externals ℝ) 1 0)).val ≠ 0)
      ∧ ((bmix (rkCall (⟨8.3144621, Real.sqrt, Real.log, newtonModel⟩ : Externals ℝ) 1 0)).val ≠ 0)
      ∧ (3 * (Z (rkCall (⟨8.3144621, Real.sqrt, Real.log, newtonModel⟩ : Externals ℝ) 1 0)).val ^ 2
        + 2 * (A (rkCall (⟨8.3144621, Real.sqrt, Real.log, newtonModel⟩ : Externals ℝ) 1 0)).val
          * (Z (rkCall (⟨8.3144621, Real.sqrt, Real.log, newtonModel⟩ : Externals ℝ) 1 0)).val
        + (B (rkCall (⟨8.3144621, Real.sqrt, Real.log, newtonModel⟩ : Externals ℝ) 1 0)).val ≠ 0))
    ∧ (ZT (rkCall (⟨8.3144621, Real.sqrt, Real.log, newtonModel⟩ : Externals ℝ) 1 0)).val
      = (Z (rkCall (⟨8.3144621, Real.sqrt, Real.log, newtonModel⟩ : Externals ℝ) 1 0)).ddt :=
  have hsq : ∀ y, 0 ≤ y → 0 ≤ (rkCall (⟨8.3144621, Real.sqrt, Real.log, newtonModel⟩ : Externals ℝ) 1 0).ext.sqrt y
        ∧ (rkCall (⟨8.3144621, Real.sqrt, Real.log, newtonModel⟩ : Externals ℝ) 1 0).ext.sqrt y
          * (rkCall (⟨8.3144621, Real.sqrt, Real.log, newtonModel⟩ : Externals ℝ) 1 0).ext.sqrt y = y := fun y hy => ⟨Real.sqrt_nonneg y, Real.mul_self_sqrt hy⟩
  have hTt : (rkCall (⟨8.3144621, Real.sqrt, Real.log, newtonModel⟩ : Externals ℝ) 1 0).T.ddt = 1 := rfl
  have hTp : (rkCall (⟨8.3144621, Real.sqrt, Real.log, newtonModel⟩ : Externals ℝ) 1 0).T.ddp = 0 := rfl
  have hPt : (rkCall (⟨8.3144621, Real.sqrt, Real.log, newtonModel⟩ : Externals ℝ) 1 0).P.ddt = 0 := rfl
  have hx : ∀ i, ((rkCall (⟨8.3144621, Real.sqrt, Real.log, newtonModel⟩ : Externals ℝ) 1 0).x i).ddt = 0 := fun _ => rfl
  have hk : (rkCall (⟨8.3144621, Real.sqrt, Real.log, newtonModel⟩ : Externals ℝ) 1 0).self.calculate_interaction_params = none := rfl
  have hT : 0 < (rkCall (⟨8.3144621, Real.sqrt, Real.log, newtonModel⟩ : Externals ℝ) 1 0).T.val := by
    show (0 : ℝ) < 300
    norm_num
  have hTc : ∀ i : Fin 1, 0 < vecAt (rkCall (⟨8.3144621, Real.sqrt, Real.log, newtonModel⟩ : Externals ℝ) 1 0).self.critical_temperatures i := by
    intro i
    rw [Subsingleton.elim i 0]
    norm_num [vecAt, rkCall]
  have hPc : ∀ i : Fin 1, 0 < vecAt (rkCall (⟨8.3144621, Real.sqrt, Real.log, newtonModel⟩ : Externals ℝ) 1 0).self.critical_pressures i := by
    intro i
    rw [Subsingleton.elim i 0]
    norm_num [vecAt, rkCall]
  have ha : (amix (rkCall (⟨8.3144621, Real.sqrt, Real.log, newtonModel⟩ : Externals ℝ) 1 0)).val ≠ 0 := by
    rw [rk_amix_val _ real_sqrt_mul_self real_R_ne_zero]
    exact ne_of_gt (rk_factor_pos _ real_R_ne_zero _ _ _)
  have hb : (bmix (rkCall (⟨8.3144621, Real.sqrt, Real.log, newtonModel⟩ : Externals ℝ) 1 0)).val ≠ 0 := by
    rw [rk_bmix_val]
    norm_num
  have hD : 3 * (Z (rkCall (⟨8.3144621, Real.sqrt, Real.log, newtonModel⟩ : Externals ℝ) 1 0)).val ^ 2
        + 2 * (A (rkCall (⟨8.3144621, Real.sqrt, Real.log, newtonModel⟩ : Externals ℝ) 1 0)).val
          * (Z (rkCall (⟨8.3144621, Real.sqrt, Real.log, newtonModel⟩ : Externals ℝ) 1 0)).val
        + (B (rkCall (⟨8.3144621, Real.sqrt, Real.log, newtonModel⟩ : Externals ℝ) 1 0)).val ≠ 0 := by
    rw [Z_val, rk_Zval ⟨8.3144621, Real.sqrt, Real.log, newtonModel⟩ real_sqrt_mul_self real_R_ne_zero rfl,
      rk_A_val _ real_R_ne_zero, rk_B_val _ real_sqrt_mul_self real_R_ne_zero]
    norm_num
  ⟨⟨hsq, hTt, hTp, hPt, hx, hk, hT, hTc, hPc, ha, hb, hD⟩,
    (C21_ZT_agrees_with_Z_ddt _ hsq hTt hTp hPt hx hk hT hTc hPc ha hb hD).1⟩

end CubicEOS

/-! ## C24: index safety of the evaluation -/

namespace CubicEOS

variable {K : Type} {n : Nat}

theorem setAcentricFactors_ok (self : Impl K n) (values : List K)
    (h : (setAcentricFactors self values).1 = Except.ok ()) :
    (setAcentricFactors self values).2.acentric_factors.length = n := by
  unfold setAcentricFactors Assert numSpecies Impl.nspecies at h ⊢
  by_cases hl : values.length = n
  · simp [hl]
  · simp [hl] at h

theorem accessesTable_inBounds (table row : Container) (t : Table2D K) (i j : Nat)
    (ht : emptyOrSquare t n) (hi : i < n) (hj : j < n) :
    ∀ acc ∈ accessesTable table row t i j, acc.index < acc.size := by
  intro acc hacc
  unfold accessesTable at hacc
  rcases ht with h0 | ⟨hlen, hrows⟩
  · rw [h0] at hacc
    simp at hacc
  · have hrow : (t.getD i []).length = n := by
      have hi2 : i < t.length := by omega
      rw [List.getD_eq_getElem?_getD, List.getElem?_eq_getElem hi2]
      exact hrows _ (List.getElem_mem _)
    split at hacc
    · simp at hacc
    · simp only [List.mem_cons, List.mem_singleton, List.not_mem_nil, or_false] at hacc
      rcases hacc with h | h
      · rw [h]
        show i < t.length
        omega
      · rw [h]
        show j < (t.getD i []).length
        omega

end CubicEOS

namespace CubicEOS

variable {K : Type} [LinearOrderedField K] {n : Nat}

theorem setCriticalTemperatures_ok (self : Impl K n) (values : List K)
    (h : (setCriticalTemperatures self values).1 = Except.ok ()) :
    (setCriticalTemperatures self values).2.critical_temperatures.length = n := by
  unfold setCriticalTemperatures Assert numSpecies Impl.nspecies at h ⊢
  by_cases hl : values.length = n
  · by_cases hm : minOfVector values > 0
    · simp [hl, hm]
    · simp [hl, hm] at h
  · simp [hl] at h

theorem setCriticalPressures_ok (self : Impl K n) (values : List K)
    (h : (setCriticalPressures self values).1 = Except.ok ()) :
    (setCriticalPressures self values).2.critical_pressures.length = n := by
  unfold setCriticalPressures Assert numSpecies Impl.nspecies at h ⊢
  by_cases hl : values.length = n
  · by_cases hm : minOfVector values > 0
    · simp [hl, hm]
    · simp [hl, hm] at h
  · simp [hl] at h

theorem accesses_inBounds (c : Call K n) (xrows : Nat)
    (hTc : c.self.critical_temperatures.length = n)
    (hPc : c.self.critical_pressures.length = n)
    (hom : c.self.acentric_factors.length = n)
    (hk : emptyOrSquare (kres c).k n) (hkT : emptyOrSquare (kres c).kT n)
    (hkTT : emptyOrSquare (kres c).kTT n) (hx : xrows = n) :
    ∀ acc ∈ accesses c xrows, acc.index < acc.size := by
  intro acc hacc
  simp only [accesses, List.mem_append, List.mem_flatMap, List.mem_range,
    Impl.nspecies] at hacc
  rcases hacc with (((((⟨i, hi, h⟩ | ⟨i, hi, h⟩) | ⟨i, hi, j, hj, h⟩) | ⟨i, hi, h⟩)
    | ⟨i, hi, h⟩) | ⟨i, hi, h⟩) | ⟨i, hi, h⟩
  · simp only [accessesParams, Impl.nspecies, List.mem_cons, List.mem_singleton,
      List.not_mem_nil, or_false] at h
    rcases h with h | h | h | h | h | h <;> rw [h] <;> simp only [] <;> omega
  · simp only [accessesB, Impl.nspecies, List.mem_cons, List.mem_singleton,
      List.not_mem_nil, or_false] at h
    rcases h with h | h | h <;> rw [h] <;> simp only [] <;> omega
  · simp only [accessesMix, Impl.nspecies, List.mem_append, List.mem_cons,
      List.mem_singleton, List.not_mem_nil, or_false] at h
    rcases h with ((h | h) | h) | h
    · exact accessesTable_inBounds _ _ _ i j hk hi hj acc h
    · exact accessesTable_inBounds _ _ _ i j hkT hi hj acc h
    · exact accessesTable_inBounds _ _ _ i j hkTT hi hj acc h
    · rcases h with h | h | h | h | h | h | h | h | h | h <;> rw [h] <;> simp only [] <;>
        omega
  · simp only [accessesFinalize, Impl.nspecies, List.mem_cons, List.mem_singleton,
      List.not_mem_nil, or_false] at h
    rcases h with h | h <;> rw [h] <;> simp only [] <;> omega
  · simp only [accessesBmix, Impl.nspecies, List.mem_cons, List.mem_singleton,
      List.not_mem_nil, or_false] at h
    rcases h with h | h | h | h <;> rw [h] <;> simp only [] <;> omega
  · simp only [accessesZ, Impl.nspecies, List.mem_cons, List.mem_singleton,
      List.not_mem_nil, or_false] at h
    rcases h with h | h | h | h <;> rw [h] <;> simp only [] <;> omega
  · simp only [accessesSpecies, Impl.nspecies, List.mem_cons, List.mem_singleton,
      List.not_mem_nil, or_false] at h
    rcases h with h | h | h | h | h | h | h | h <;> rw [h] <;> simp only [] <;> omega

theorem accesses_critical_outOfBounds (c : Call K n) (xrows : Nat)
    (hTc : c.self.critical_temperatures = [])
    (hPc : c.self.critical_pressures = []) :
    (1 ≤ n → ∃ acc ∈ accesses c xrows,
        acc.container = Container.critical_temperatures ∧ ¬ acc.index < acc.size)
      ∧ ∀ acc ∈ accesses c xrows,
          acc.container = Container.critical_temperatures
            ∨ acc.container = Container.critical_pressures →
          ¬ acc.index < acc.size := by
  constructor
  · intro hn
    refine ⟨⟨Container.critical_temperatures, 0, 0⟩, ?_, rfl, by simp⟩
    simp only [accesses, List.mem_append, List.mem_flatMap, List.mem_range, Impl.nspecies]
    refine Or.inl (Or.inl (Or.inl (Or.inl (Or.inl (Or.inl ⟨0, by omega, ?_⟩)))))
    simp [accessesParams, hTc]
  · intro acc hacc hc
    simp only [accesses, List.mem_append, List.mem_flatMap, List.mem_range,
      Impl.nspecies] at hacc
    rcases hacc with (((((⟨i, hi, h⟩ | ⟨i, hi, h⟩) | ⟨i, hi, j, hj, h⟩) | ⟨i, hi, h⟩)
      | ⟨i, hi, h⟩) | ⟨i, hi, h⟩) | ⟨i, hi, h⟩
    · simp only [accessesParams, Impl.nspecies, List.mem_cons, List.mem_singleton,
        List.not_mem_nil, or_false, hTc, hPc, List.length_nil] at h
      rcases h with h | h | h | h | h | h <;> rw [h] at hc ⊢ <;> simp at hc ⊢
    · simp only [accessesB, Impl.nspecies, List.mem_cons, List.mem_singleton,
        List.not_mem_nil, or_false, hTc, hPc, List.length_nil] at h
      rcases h with h | h | h <;> rw [h] at hc ⊢ <;> simp at hc ⊢
    · simp only [accessesMix, accessesTable, Impl.nspecies, List.mem_append, List.mem_cons,
        List.mem_singleton, List.not_mem_nil, or_false] at h
      rcases h with ((h | h) | h) | h
      · split at h
        · simp at h
        · simp only [List.mem_cons, List.mem_singleton, List.not_mem_nil, or_false] at h
          rcases h with h | h <;> rw [h] at hc <;> simp at hc
      · split at h
        · simp at h
        · simp only [List.mem_cons, List.mem_singleton, List.not_mem_nil, or_false] at h
          rcases h with h | h <;> rw [h] at hc <;> simp at hc
      · split at h
        · simp at h
        · simp only [List.mem_cons, List.mem_singleton, List.not_mem_nil, or_false] at h
          rcases h with h | h <;> rw [h] at hc <;> simp at hc
      · rcases h with h | h | h | h | h | h | h | h | h | h <;> rw [h] at hc <;> simp at hc
    · simp only [accessesFinalize, Impl.nspecies, List.mem_cons, List.mem_singleton,
        List.not_mem_nil, or_false] at h
      rcases h with h | h <;> rw [h] at hc <;> simp at hc
    · simp only [accessesBmix, Impl.nspecies, List.mem_cons, List.mem_singleton,
        List.not_mem_nil, or_false, hTc, hPc, List.length_nil] at h
      rcases h with h | h | h | h <;> rw [h] at hc ⊢ <;> simp at hc ⊢
    · simp only [accessesZ, Impl.nspecies, List.mem_cons, List.mem_singleton,
        List.not_mem_nil, or_false] at h
      rcases h with h | h | h | h <;> rw [h] at hc <;> simp at hc
    · simp only [accessesSpecies, Impl.nspecies, List.mem_cons, List.mem_singleton,
        List.not_mem_nil, or_false] at h
      rcases h with h | h | h | h | h | h | h | h <;> rw [h] at hc <;> simp at hc

/-- C24.  Index safety of the evaluation: when the three lists of critical data of the
instance are those left by successful calls of `setCriticalTemperatures`,
`setCriticalPressures` and `setAcentricFactors`, each of the tables `k`, `kT`, `kTT` that
the evaluation obtains is empty (as without an interaction function) or has `n` rows of
`n` entries, and `x` has `n` rows, every indexed access of the evaluation is within
bounds.  With the empty lists left by `construct`, every access to
`critical_temperatures` and `critical_pressures` is out of bounds, and for `n ≥ 1` there
is such an access. -/
theorem C24_index_safety (c : Call K n) (xrows : Nat) (s1 s2 s3 : Impl K n)
    (v1 v2 v3 : List K)
    (h1 : (setCriticalTemperatures s1 v1).1 = Except.ok ())
    (e1 : c.self.critical_temperatures
      = (setCriticalTemperatures s1 v1).2.critical_temperatures)
    (h2 : (setCriticalPressures s2 v2).1 = Except.ok ())
    (e2 : c.self.critical_pressures = (setCriticalPressures s2 v2).2.critical_pressures)
    (h3 : (setAcentricFactors s3 v3).1 = Except.ok ())
    (e3 : c.self.acentric_factors = (setAcentricFactors s3 v3).2.acentric_factors)
    (hk : emptyOrSquare (kres c).k n) (hkT : emptyOrSquare (kres c).kT n)
    (hkTT : emptyOrSquare (kres c).kTT n) (hx : xrows = n) :
    (∀ acc ∈ accesses c xrows, acc.index < acc.size)
      ∧ ∀ c0 : Call K n,
          c0.self.critical_temperatures = (construct : Impl K n).critical_temperatures →
          c0.self.critical_pressures = (construct : Impl K n).critical_pressures →
          (1 ≤ n → ∃ acc ∈ accesses c0 xrows,
              acc.container = Container.critical_temperatures ∧ ¬ acc.index < acc.size)
            ∧ ∀ acc ∈ accesses c0 xrows,
                acc.container = Container.critical_temperatures
                  ∨ acc.container = Container.critical_pressures →
                ¬ acc.index < acc.size :=
  ⟨accesses_inBounds c xrows
      (by rw [e1]; exact setCriticalTemperatures_ok s1 v1 h1)
      (by rw [e2]; exact setCriticalPressures_ok s2 v2 h2)
      (by rw [e3]; exact setAcentricFactors_ok s3 v3 h3) hk hkT hkTT hx,
    fun c0 hTc hPc => accesses_critical_outOfBounds c0 xrows hTc hPc⟩

/-- C24 at the example call, whose lists of critical data are those set by the three
setters on a fresh instance of one species. -/
theorem C24_index_safety_witness :
    (((setCriticalTemperatures (construct : Impl ℝ 1) [160]).1 = Except.ok ())
      ∧ ((exampleCall (⟨8.3144621, Real.sqrt, Real.log, newtonModel⟩ : Externals ℝ) 1).self.critical_temperatures
        = (setCriticalTemperatures (construct : Impl ℝ 1) [160]).2.critical_temperatures)
      ∧ ((setCriticalPressures (construct : Impl ℝ 1) [4000000]).1 = Except.ok ())
      ∧ ((exampleCall (⟨8.3144621, Real.sqrt, Real.log, newtonModel⟩ : Externals ℝ) 1).self.critical_pressures
        = (setCriticalPressures (construct : Impl ℝ 1) [4000000]).2.critical_pressures)
      ∧ ((setAcentricFactors (construct : Impl ℝ 1) [0]).1 = Except.ok ())
      ∧ ((exampleCall (⟨8.3144621, Real.sqrt, Real.log, newtonModel⟩ : Externals ℝ) 1).self.acentric_factors
        = (setAcentricFactors (construct : Impl ℝ 1) [0]).2.acentric_factors)
      ∧ (emptyOrSquare (kres (exampleCall (⟨8.3144621, Real.sqrt, Real.log, newtonModel⟩ : Externals ℝ) 1)).k 1)
      ∧ (emptyOrSquare (kres (exampleCall (⟨8.3144621, Real.sqrt, Real.log, newtonModel⟩ : Externals ℝ) 1)).kT 1)
      ∧ (emptyOrSquare (kres (exampleCall (⟨8.3144621, Real.sqrt, Real.log, newtonModel⟩ : Externals ℝ) 1)).kTT 1))
    ∧ ∀ acc ∈ accesses (exampleCall (⟨8.3144621, Real.sqrt, Real.log, newtonModel⟩ : Externals ℝ) 1) 1,
        acc.index < acc.size :=
  have h1 : (setCriticalTemperatures (construct : Impl ℝ 1) [160]).1 = Except.ok () := by
    rw [setCriticalTemperatures_eq _ _ (le_refl 1)]
    norm_num
  have e1 : (exampleCall (⟨8.3144621, Real.sqrt, Real.log, newtonModel⟩ : Externals ℝ) 1).self.critical_temperatures
        = (setCriticalTemperatures (construct : Impl ℝ 1) [160]).2.critical_temperatures := by
    rw [setCriticalTemperatures_eq _ _ (le_refl 1)]
    norm_num [exampleCall]
  have h2 : (setCriticalPressures (construct : Impl ℝ 1) [4000000]).1 = Except.ok () := by
    rw [setCriticalPressures_eq _ _ (le_refl 1)]
    norm_num
  have e2 : (exampleCall (⟨8.3144621, Real.sqrt, Real.log, newtonModel⟩ : Externals ℝ) 1).self.critical_pressures
        = (setCriticalPressures (construct : Impl ℝ 1) [4000000]).2.critical_pressures := by
    rw [setCriticalPressures_eq _ _ (le_refl 1)]
    norm_num [exampleCall]
  have h3 : (setAcentricFactors (construct : Impl ℝ 1) [0]).1 = Except.ok () := by
    rw [setAcentricFactors_eq]
    simp
  have e3 : (exampleCall (⟨8.3144621, Real.sqrt, Real.log, newtonModel⟩ : Externals ℝ) 1).self.acentric_factors
        = (setAcentricFactors (construct : Impl ℝ 1) [0]).2.acentric_factors := by
    rw [setAcentricFactors_eq]
    simp [exampleCall]
  have hk : emptyOrSquare (kres (exampleCall (⟨8.3144621, Real.sqrt, Real.log, newtonModel⟩ : Externals ℝ) 1)).k 1 := Or.inl rfl
  have hkT : emptyOrSquare (kres (exampleCall (⟨8.3144621, Real.sqrt, Real.log, newtonModel⟩ : Externals ℝ) 1)).kT 1 := Or.inl rfl
  have hkTT : emptyOrSquare (kres (exampleCall (⟨8.3144621, Real.sqrt, Real.log, newtonModel⟩ : Externals ℝ) 1)).kTT 1 := Or.inl rfl
  ⟨⟨h1, e1, h2, e2, h3, e3, hk, hkT, hkTT⟩,
    (C24_index_safety _ 1 construct construct construct [160] [4000000] [0]
      h1 e1 h2 e2 h3 e3 hk hkT hkTT rfl).1⟩

end CubicEOS

end Reaktoro
